import Mathlib

set_option maxRecDepth 400000

/-!
Verification of the specification of a cryptographic library core
(big-integer kernel, AES T-table implementation, Ed448, XMSS parameters)
against a shallow embedding of its C++ sources.

Machine integers are embedded as `Nat` with explicit truncation
(`% 2^8`, `% 2^32`, `% 2^64`) where the C++ code relies on fixed-width
wraparound.  Fallible C++ code (exceptions) is embedded as `Except`.
-/

namespace Botan

/-- Error kinds of the library, mirroring the exception hierarchy
(`Invalid_Argument`, `Decoding_Error`, ...) plus `stdOutOfRange` for
exceptions raised by the C++ standard library itself (e.g. from
`std::map::at`), which are not part of the library hierarchy. -/
inductive ErrKind where
  | invalidArgument
  | decodingError
  | internalError
  | stdOutOfRange
  deriving DecidableEq, Repr

/-- Modelled from the spec: `get_byte(n, w)` of loadstor.h (not in src/);
byte `n` of a 32-bit word counting from the most significant byte. -/
def get_byte (n w : Nat) : Nat := (w >>> (8 * (3 - n))) % 256

/-- Modelled from the spec: `make_uint32(i0,i1,i2,i3)` of loadstor.h (not in
src/); assembles a 32-bit word from four bytes, `i0` most significant. -/
def make_uint32 (i0 i1 i2 i3 : Nat) : Nat :=
  (i0 <<< 24) ||| (i1 <<< 16) ||| (i2 <<< 8) ||| i3

/-- Modelled from the spec: `rotr<R>` of rotate.h (not in src/); 32-bit
rotate right by `R` bits. -/
def rotr (R w : Nat) : Nat := ((w >>> R) ||| (w <<< (32 - R))) % 2 ^ 32

namespace AES

/-- The AES forward S-box table `SE` (aes.cpp). -/
def SE : List Nat := [
  0x63, 0x7C, 0x77, 0x7B, 0xF2, 0x6B, 0x6F, 0xC5, 0x30, 0x01, 0x67, 0x2B,
  0xFE, 0xD7, 0xAB, 0x76, 0xCA, 0x82, 0xC9, 0x7D, 0xFA, 0x59, 0x47, 0xF0,
  0xAD, 0xD4, 0xA2, 0xAF, 0x9C, 0xA4, 0x72, 0xC0, 0xB7, 0xFD, 0x93, 0x26,
  0x36, 0x3F, 0xF7, 0xCC, 0x34, 0xA5, 0xE5, 0xF1, 0x71, 0xD8, 0x31, 0x15,
  0x04, 0xC7, 0x23, 0xC3, 0x18, 0x96, 0x05, 0x9A, 0x07, 0x12, 0x80, 0xE2,
  0xEB, 0x27, 0xB2, 0x75, 0x09, 0x83, 0x2C, 0x1A, 0x1B, 0x6E, 0x5A, 0xA0,
  0x52, 0x3B, 0xD6, 0xB3, 0x29, 0xE3, 0x2F, 0x84, 0x53, 0xD1, 0x00, 0xED,
  0x20, 0xFC, 0xB1, 0x5B, 0x6A, 0xCB, 0xBE, 0x39, 0x4A, 0x4C, 0x58, 0xCF,
  0xD0, 0xEF, 0xAA, 0xFB, 0x43, 0x4D, 0x33, 0x85, 0x45, 0xF9, 0x02, 0x7F,
  0x50, 0x3C, 0x9F, 0xA8, 0x51, 0xA3, 0x40, 0x8F, 0x92, 0x9D, 0x38, 0xF5,
  0xBC, 0xB6, 0xDA, 0x21, 0x10, 0xFF, 0xF3, 0xD2, 0xCD, 0x0C, 0x13, 0xEC,
  0x5F, 0x97, 0x44, 0x17, 0xC4, 0xA7, 0x7E, 0x3D, 0x64, 0x5D, 0x19, 0x73,
  0x60, 0x81, 0x4F, 0xDC, 0x22, 0x2A, 0x90, 0x88, 0x46, 0xEE, 0xB8, 0x14,
  0xDE, 0x5E, 0x0B, 0xDB, 0xE0, 0x32, 0x3A, 0x0A, 0x49, 0x06, 0x24, 0x5C,
  0xC2, 0xD3, 0xAC, 0x62, 0x91, 0x95, 0xE4, 0x79, 0xE7, 0xC8, 0x37, 0x6D,
  0x8D, 0xD5, 0x4E, 0xA9, 0x6C, 0x56, 0xF4, 0xEA, 0x65, 0x7A, 0xAE, 0x08,
  0xBA, 0x78, 0x25, 0x2E, 0x1C, 0xA6, 0xB4, 0xC6, 0xE8, 0xDD, 0x74, 0x1F,
  0x4B, 0xBD, 0x8B, 0x8A, 0x70, 0x3E, 0xB5, 0x66, 0x48, 0x03, 0xF6, 0x0E,
  0x61, 0x35, 0x57, 0xB9, 0x86, 0xC1, 0x1D, 0x9E, 0xE1, 0xF8, 0x98, 0x11,
  0x69, 0xD9, 0x8E, 0x94, 0x9B, 0x1E, 0x87, 0xE9, 0xCE, 0x55, 0x28, 0xDF,
  0x8C, 0xA1, 0x89, 0x0D, 0xBF, 0xE6, 0x42, 0x68, 0x41, 0x99, 0x2D, 0x0F,
  0xB0, 0x54, 0xBB, 0x16]

/-- The AES inverse S-box table `SD` (aes.cpp). -/
def SD : List Nat := [
  0x52, 0x09, 0x6A, 0xD5, 0x30, 0x36, 0xA5, 0x38, 0xBF, 0x40, 0xA3, 0x9E,
  0x81, 0xF3, 0xD7, 0xFB, 0x7C, 0xE3, 0x39, 0x82, 0x9B, 0x2F, 0xFF, 0x87,
  0x34, 0x8E, 0x43, 0x44, 0xC4, 0xDE, 0xE9, 0xCB, 0x54, 0x7B, 0x94, 0x32,
  0xA6, 0xC2, 0x23, 0x3D, 0xEE, 0x4C, 0x95, 0x0B, 0x42, 0xFA, 0xC3, 0x4E,
  0x08, 0x2E, 0xA1, 0x66, 0x28, 0xD9, 0x24, 0xB2, 0x76, 0x5B, 0xA2, 0x49,
  0x6D, 0x8B, 0xD1, 0x25, 0x72, 0xF8, 0xF6, 0x64, 0x86, 0x68, 0x98, 0x16,
  0xD4, 0xA4, 0x5C, 0xCC, 0x5D, 0x65, 0xB6, 0x92, 0x6C, 0x70, 0x48, 0x50,
  0xFD, 0xED, 0xB9, 0xDA, 0x5E, 0x15, 0x46, 0x57, 0xA7, 0x8D, 0x9D, 0x84,
  0x90, 0xD8, 0xAB, 0x00, 0x8C, 0xBC, 0xD3, 0x0A, 0xF7, 0xE4, 0x58, 0x05,
  0xB8, 0xB3, 0x45, 0x06, 0xD0, 0x2C, 0x1E, 0x8F, 0xCA, 0x3F, 0x0F, 0x02,
  0xC1, 0xAF, 0xBD, 0x03, 0x01, 0x13, 0x8A, 0x6B, 0x3A, 0x91, 0x11, 0x41,
  0x4F, 0x67, 0xDC, 0xEA, 0x97, 0xF2, 0xCF, 0xCE, 0xF0, 0xB4, 0xE6, 0x73,
  0x96, 0xAC, 0x74, 0x22, 0xE7, 0xAD, 0x35, 0x85, 0xE2, 0xF9, 0x37, 0xE8,
  0x1C, 0x75, 0xDF, 0x6E, 0x47, 0xF1, 0x1A, 0x71, 0x1D, 0x29, 0xC5, 0x89,
  0x6F, 0xB7, 0x62, 0x0E, 0xAA, 0x18, 0xBE, 0x1B, 0xFC, 0x56, 0x3E, 0x4B,
  0xC6, 0xD2, 0x79, 0x20, 0x9A, 0xDB, 0xC0, 0xFE, 0x78, 0xCD, 0x5A, 0xF4,
  0x1F, 0xDD, 0xA8, 0x33, 0x88, 0x07, 0xC7, 0x31, 0xB1, 0x12, 0x10, 0x59,
  0x27, 0x80, 0xEC, 0x5F, 0x60, 0x51, 0x7F, 0xA9, 0x19, 0xB5, 0x4A, 0x0D,
  0x2D, 0xE5, 0x7A, 0x9F, 0x93, 0xC9, 0x9C, 0xEF, 0xA0, 0xE0, 0x3B, 0x4D,
  0xAE, 0x2A, 0xF5, 0xB0, 0xC8, 0xEB, 0xBB, 0x3C, 0x83, 0x53, 0x99, 0x61,
  0x17, 0x2B, 0x04, 0x7E, 0xBA, 0x77, 0xD6, 0x26, 0xE1, 0x69, 0x14, 0x63,
  0x55, 0x21, 0x0C, 0x7D]

/-- `xtime` of aes.cpp: doubling in GF(2^8) on a byte,
`uint8_t(s << 1) ^ ((s >> 7) * 0x1B)`. -/
def xtime (s : Nat) : Nat := ((s <<< 1) % 256) ^^^ ((s >>> 7) * 0x1B)

/-- `xtime3` of aes.cpp: multiplication by 3 in GF(2^8). -/
def xtime3 (s : Nat) : Nat := xtime s ^^^ s

/-- `InvMixColumn` of aes.cpp: the word `(14·s, 9·s, 13·s, 11·s)` of
GF(2^8) products, packed big-endian. -/
def InvMixColumn (s1 : Nat) : Nat :=
  let s2 := xtime s1
  let s4 := xtime s2
  let s8 := xtime s4
  let s9 := s8 ^^^ s1
  let s11 := s9 ^^^ s2
  let s13 := s9 ^^^ s4
  let s14 := s8 ^^^ s4 ^^^ s2
  make_uint32 s14 s9 s13 s11

/-- The runtime-computed encryption T-table `AES_TE` of aes.cpp:
entry `i` is `make_uint32(xtime(s), s, s, xtime3(s))` with `s = SE[i]`. -/
def AES_TE : List Nat :=
  SE.map (fun s => make_uint32 (xtime s) s s (xtime3 s))

/-- The runtime-computed decryption T-table `AES_TD` of aes.cpp:
entry `i` is `InvMixColumn(SD[i])`. -/
def AES_TD : List Nat :=
  SD.map (fun s => InvMixColumn s)

/-- Bitwise complement of a 32-bit word (the C++ `~` on `uint32_t`). -/
def not32 (x : Nat) : Nat := x ^^^ 0xFFFFFFFF

/-- Modelled from the spec: `bit_permute_step` of bit_ops.h (not in src/);
the standard delta-swap `t = ((x >> s) ^ x) & m; x = x ^ t ^ (t << s)`
whose effect on bit indices is documented inline in aes.cpp. -/
def bit_permute_step (x m s : Nat) : Nat :=
  let t := ((x >>> s) ^^^ x) &&& m
  ((x ^^^ t) ^^^ (t <<< s)) % 2 ^ 32

/-- The Boyar–Peralta depth-16 bit-sliced AES S-box circuit `AES_SBOX`
of aes.cpp, acting on eight 32-bit slices. -/
def AES_SBOX (I0 I1 I2 I3 I4 I5 I6 I7 : Nat) :
    Nat × Nat × Nat × Nat × Nat × Nat × Nat × Nat :=
  let T1 := I0 ^^^ I3
  let T2 := I0 ^^^ I5
  let T3 := I0 ^^^ I6
  let T4 := I3 ^^^ I5
  let T5 := I4 ^^^ I6
  let T6 := T1 ^^^ T5
  let T7 := I1 ^^^ I2
  let T8 := I7 ^^^ T6
  let T9 := I7 ^^^ T7
  let T10 := T6 ^^^ T7
  let T11 := I1 ^^^ I5
  let T12 := I2 ^^^ I5
  let T13 := T3 ^^^ T4
  let T14 := T6 ^^^ T11
  let T15 := T5 ^^^ T11
  let T16 := T5 ^^^ T12
  let T17 := T9 ^^^ T16
  let T18 := I3 ^^^ I7
  let T19 := T7 ^^^ T18
  let T20 := T1 ^^^ T19
  let T21 := I6 ^^^ I7
  let T22 := T7 ^^^ T21
  let T23 := T2 ^^^ T22
  let T24 := T2 ^^^ T10
  let T25 := T20 ^^^ T17
  let T26 := T3 ^^^ T16
  let T27 := T1 ^^^ T12
  let D := I7
  let M1 := T13 &&& T6
  let M2 := T23 &&& T8
  let M3 := T14 ^^^ M1
  let M4 := T19 &&& D
  let M5 := M4 ^^^ M1
  let M6 := T3 &&& T16
  let M7 := T22 &&& T9
  let M8 := T26 ^^^ M6
  let M9 := T20 &&& T17
  let M10 := M9 ^^^ M6
  let M11 := T1 &&& T15
  let M12 := T4 &&& T27
  let M13 := M12 ^^^ M11
  let M14 := T2 &&& T10
  let M15 := M14 ^^^ M11
  let M16 := M3 ^^^ M2
  let M17 := M5 ^^^ T24
  let M18 := M8 ^^^ M7
  let M19 := M10 ^^^ M15
  let M20 := M16 ^^^ M13
  let M21 := M17 ^^^ M15
  let M22 := M18 ^^^ M13
  let M23 := M19 ^^^ T25
  let M24 := M22 ^^^ M23
  let M25 := M22 &&& M20
  let M26 := M21 ^^^ M25
  let M27 := M20 ^^^ M21
  let M28 := M23 ^^^ M25
  let M29 := M28 &&& M27
  let M30 := M26 &&& M24
  let M31 := M20 &&& M23
  let M32 := M27 &&& M31
  let M33 := M27 ^^^ M25
  let M34 := M21 &&& M22
  let M35 := M24 &&& M34
  let M36 := M24 ^^^ M25
  let M37 := M21 ^^^ M29
  let M38 := M32 ^^^ M33
  let M39 := M23 ^^^ M30
  let M40 := M35 ^^^ M36
  let M41 := M38 ^^^ M40
  let M42 := M37 ^^^ M39
  let M43 := M37 ^^^ M38
  let M44 := M39 ^^^ M40
  let M45 := M42 ^^^ M41
  let M46 := M44 &&& T6
  let M47 := M40 &&& T8
  let M48 := M39 &&& D
  let M49 := M43 &&& T16
  let M50 := M38 &&& T9
  let M51 := M37 &&& T17
  let M52 := M42 &&& T15
  let M53 := M45 &&& T27
  let M54 := M41 &&& T10
  let M55 := M44 &&& T13
  let M56 := M40 &&& T23
  let M57 := M39 &&& T19
  let M58 := M43 &&& T3
  let M59 := M38 &&& T22
  let M60 := M37 &&& T20
  let M61 := M42 &&& T1
  let M62 := M45 &&& T4
  let M63 := M41 &&& T2
  let L0 := M61 ^^^ M62
  let L1 := M50 ^^^ M56
  let L2 := M46 ^^^ M48
  let L3 := M47 ^^^ M55
  let L4 := M54 ^^^ M58
  let L5 := M49 ^^^ M61
  let L6 := M62 ^^^ L5
  let L7 := M46 ^^^ L3
  let L8 := M51 ^^^ M59
  let L9 := M52 ^^^ M53
  let L10 := M53 ^^^ L4
  let L11 := M60 ^^^ L2
  let L12 := M48 ^^^ M51
  let L13 := M50 ^^^ L0
  let L14 := M52 ^^^ M61
  let L15 := M55 ^^^ L1
  let L16 := M56 ^^^ L0
  let L17 := M57 ^^^ L1
  let L18 := M58 ^^^ L8
  let L19 := M63 ^^^ L4
  let L20 := L0 ^^^ L1
  let L21 := L1 ^^^ L7
  let L22 := L3 ^^^ L12
  let L23 := L18 ^^^ L2
  let L24 := L15 ^^^ L9
  let L25 := L6 ^^^ L10
  let L26 := L7 ^^^ L9
  let L27 := L8 ^^^ L10
  let L28 := L11 ^^^ L14
  let L29 := L11 ^^^ L17
  let S0 := L6 ^^^ L24
  let S1 := not32 (L16 ^^^ L26)
  let S2 := not32 (L19 ^^^ L28)
  let S3 := L6 ^^^ L21
  let S4 := L20 ^^^ L22
  let S5 := L25 ^^^ L29
  let S6 := not32 (L13 ^^^ L27)
  let S7 := not32 (L6 ^^^ L23)
  (S0, S1, S2, S3, S4, S5, S6, S7)

/-- Extracts the eight 4-bit nibble slices used by `SE_word` of aes.cpp:
`I[i] = (x >> (28 - 4 i)) & 0xF`. -/
def nibble (x i : Nat) : Nat := (x >>> (28 - 4 * i)) &&& 0xF

/-- The `SE_word` function of aes.cpp: applies the AES S-box to all four
bytes of a word via the bit-sliced circuit. -/
def SE_word (x : Nat) : Nat :=
  let x := bit_permute_step x 0x00aa00aa 7
  let x := bit_permute_step x 0x0000cccc 14
  let x := bit_permute_step x 0x00f000f0 4
  let x := bit_permute_step x 0x0000ff00 8
  let s := AES_SBOX (nibble x 0) (nibble x 1) (nibble x 2) (nibble x 3)
    (nibble x 4) (nibble x 5) (nibble x 6) (nibble x 7)
  let x := ((((((((s.1 &&& 0xF) <<< 4) + (s.2.1 &&& 0xF)) <<< 4) +
    (s.2.2.1 &&& 0xF)) <<< 4) + (s.2.2.2.1 &&& 0xF)) <<< 4)
  let x := ((((((((x + (s.2.2.2.2.1 &&& 0xF)) <<< 4) + (s.2.2.2.2.2.1 &&& 0xF)) <<< 4) +
    (s.2.2.2.2.2.2.1 &&& 0xF)) <<< 4) + (s.2.2.2.2.2.2.2 &&& 0xF)))
  let x := bit_permute_step x 0x0a0a0a0a 3
  let x := bit_permute_step x 0x00cc00cc 6
  let x := bit_permute_step x 0x0000f0f0 12
  let x := bit_permute_step x 0x0000ff00 8
  x

/-- The round-function macro `AES_T(T, K, V0, V1, V2, V3)` of aes.cpp. -/
def AES_T (T : List Nat) (K V0 V1 V2 V3 : Nat) : Nat :=
  K ^^^ T.getD (get_byte 0 V0) 0 ^^^
  rotr 8 (T.getD (get_byte 1 V1) 0) ^^^
  rotr 16 (T.getD (get_byte 2 V2) 0) ^^^
  rotr 24 (T.getD (get_byte 3 V3) 0)

/-- Modelled from the spec: `load_be<uint32_t>(in, i)` of loadstor.h (not in
src/); big-endian load of 32-bit word `i` from a byte buffer. -/
def load_be32 (buf : List Nat) (i : Nat) : Nat :=
  make_uint32 (buf.getD (4 * i) 0) (buf.getD (4 * i + 1) 0)
    (buf.getD (4 * i + 2) 0) (buf.getD (4 * i + 3) 0)

/-- Modelled from the spec: `store_be(w, out)` of loadstor.h (not in src/);
big-endian store of a 32-bit word as four bytes. -/
def store_be32 (w : Nat) : List Nat :=
  [get_byte 0 w, get_byte 1 w, get_byte 2 w, get_byte 3 w]

/-- One AES state: the four 32-bit column words `(T0, T1, T2, T3)`. -/
abbrev State := Nat × Nat × Nat × Nat

/-- One forward round on the state with four round-key words, exactly the
four `AES_T(TE, ...)` lines of aes.cpp. -/
def encRound (k0 k1 k2 k3 : Nat) (st : State) : State :=
  let (b0, b1, b2, b3) := st
  (AES_T AES_TE k0 b0 b1 b2 b3,
   AES_T AES_TE k1 b1 b2 b3 b0,
   AES_T AES_TE k2 b2 b3 b0 b1,
   AES_T AES_TE k3 b3 b0 b1 b2)

/-- The main loop of `aes_encrypt_n`: two rounds per iteration, consuming
eight key words, until fewer than eight words remain. -/
def encLoop : List Nat → State → State
  | k0 :: k1 :: k2 :: k3 :: k4 :: k5 :: k6 :: k7 :: rest, st =>
      encLoop rest (encRound k4 k5 k6 k7 (encRound k0 k1 k2 k3 st))
  | _, st => st

/-- One inverse round on the state, exactly the four `AES_T(TD, ...)` lines
of aes.cpp (note the reversed word rotation). -/
def decRound (k0 k1 k2 k3 : Nat) (st : State) : State :=
  let (b0, b1, b2, b3) := st
  (AES_T AES_TD k0 b0 b3 b2 b1,
   AES_T AES_TD k1 b1 b0 b3 b2,
   AES_T AES_TD k2 b2 b1 b0 b3,
   AES_T AES_TD k3 b3 b2 b1 b0)

/-- The main loop of `aes_decrypt_n`: two inverse rounds per iteration. -/
def decLoop : List Nat → State → State
  | k0 :: k1 :: k2 :: k3 :: k4 :: k5 :: k6 :: k7 :: rest, st =>
      decLoop rest (decRound k4 k5 k6 k7 (decRound k0 k1 k2 k3 st))
  | _, st => st

/-- The cache-line sweep accumulator of aes.cpp: OR of every table entry at
indices `0, stride, 2·stride, ...` below 256 (`stride = cache_line_size /
sizeof(uint32_t)` for the word tables, `cache_line_size` for `SD`). -/
def sweep (T : List Nat) (stride : Nat) : Nat :=
  ((List.range 256).filter (fun i => i % stride = 0)).foldl
    (fun z i => z ||| T.getD i 0) 0

/-- The final-round output of `aes_encrypt_n`: byte `uint8_t(TE[x] >> 8)`
is the plain S-box value; `ME` masking is XORed in. -/
def encFinalByte (x m : Nat) : Nat :=
  ((AES_TE.getD x 0 >>> 8) % 256) ^^^ m

/-- Encryption of a single 16-byte block by `aes_encrypt_n` of aes.cpp,
with the swept accumulator value `Z` passed explicitly. -/
def aes_encrypt_block (EK ME : List Nat) (Z : Nat) (inb : List Nat) : List Nat :=
  let t0 := load_be32 inb 0 ^^^ EK.getD 0 0
  let t1 := load_be32 inb 1 ^^^ EK.getD 1 0
  let t2 := load_be32 inb 2 ^^^ EK.getD 2 0
  let t3 := load_be32 inb 3 ^^^ EK.getD 3 0
  let t0 := t0 ^^^ Z
  let st := encRound (EK.getD 4 0) (EK.getD 5 0) (EK.getD 6 0) (EK.getD 7 0)
    (t0, t1, t2, t3)
  let (b0, b1, b2, b3) := encLoop (EK.drop 8) st
  [encFinalByte (get_byte 0 b0) (ME.getD 0 0),
   encFinalByte (get_byte 1 b1) (ME.getD 1 0),
   encFinalByte (get_byte 2 b2) (ME.getD 2 0),
   encFinalByte (get_byte 3 b3) (ME.getD 3 0),
   encFinalByte (get_byte 0 b1) (ME.getD 4 0),
   encFinalByte (get_byte 1 b2) (ME.getD 5 0),
   encFinalByte (get_byte 2 b3) (ME.getD 6 0),
   encFinalByte (get_byte 3 b0) (ME.getD 7 0),
   encFinalByte (get_byte 0 b2) (ME.getD 8 0),
   encFinalByte (get_byte 1 b3) (ME.getD 9 0),
   encFinalByte (get_byte 2 b0) (ME.getD 10 0),
   encFinalByte (get_byte 3 b1) (ME.getD 11 0),
   encFinalByte (get_byte 0 b3) (ME.getD 12 0),
   encFinalByte (get_byte 1 b0) (ME.getD 13 0),
   encFinalByte (get_byte 2 b1) (ME.getD 14 0),
   encFinalByte (get_byte 3 b2) (ME.getD 15 0)]

/-- Decryption of a single 16-byte block by `aes_decrypt_n` of aes.cpp,
with the swept accumulator value `Z` passed explicitly. -/
def aes_decrypt_block (DK MD : List Nat) (Z : Nat) (inb : List Nat) : List Nat :=
  let t0 := load_be32 inb 0 ^^^ DK.getD 0 0
  let t1 := load_be32 inb 1 ^^^ DK.getD 1 0
  let t2 := load_be32 inb 2 ^^^ DK.getD 2 0
  let t3 := load_be32 inb 3 ^^^ DK.getD 3 0
  let t0 := t0 ^^^ Z
  let st := decRound (DK.getD 4 0) (DK.getD 5 0) (DK.getD 6 0) (DK.getD 7 0)
    (t0, t1, t2, t3)
  let (b0, b1, b2, b3) := decLoop (DK.drop 8) st
  [SD.getD (get_byte 0 b0) 0 ^^^ MD.getD 0 0,
   SD.getD (get_byte 1 b3) 0 ^^^ MD.getD 1 0,
   SD.getD (get_byte 2 b2) 0 ^^^ MD.getD 2 0,
   SD.getD (get_byte 3 b1) 0 ^^^ MD.getD 3 0,
   SD.getD (get_byte 0 b1) 0 ^^^ MD.getD 4 0,
   SD.getD (get_byte 1 b0) 0 ^^^ MD.getD 5 0,
   SD.getD (get_byte 2 b3) 0 ^^^ MD.getD 6 0,
   SD.getD (get_byte 3 b2) 0 ^^^ MD.getD 7 0,
   SD.getD (get_byte 0 b2) 0 ^^^ MD.getD 8 0,
   SD.getD (get_byte 1 b1) 0 ^^^ MD.getD 9 0,
   SD.getD (get_byte 2 b0) 0 ^^^ MD.getD 10 0,
   SD.getD (get_byte 3 b3) 0 ^^^ MD.getD 11 0,
   SD.getD (get_byte 0 b3) 0 ^^^ MD.getD 12 0,
   SD.getD (get_byte 1 b2) 0 ^^^ MD.getD 13 0,
   SD.getD (get_byte 2 b1) 0 ^^^ MD.getD 14 0,
   SD.getD (get_byte 3 b0) 0 ^^^ MD.getD 15 0]

/-- The `aes_encrypt_n` entry of aes.cpp on a sequence of 16-byte blocks:
computes the cache sweep once (masked by `TE[82]`), then processes each
block. `cls` is `CPUID::cache_line_size()`. -/
def aes_encrypt_n (blocks : List (List Nat)) (EK ME : List Nat) (cls : Nat) :
    List (List Nat) :=
  let Z := sweep AES_TE (cls / 4) &&& AES_TE.getD 82 0
  blocks.map (aes_encrypt_block EK ME Z)

/-- The `aes_decrypt_n` entry of aes.cpp: the sweep also touches `SD` and
is masked by `TD[99]`. -/
def aes_decrypt_n (blocks : List (List Nat)) (DK MD : List Nat) (cls : Nat) :
    List (List Nat) :=
  let Z := (sweep AES_TD (cls / 4) ||| sweep SD cls) &&& AES_TD.getD 99 0
  blocks.map (aes_decrypt_block DK MD Z)

/-- The round-constant table `RC` of `aes_key_schedule`. -/
def RC : List Nat := [0x01000000, 0x02000000, 0x04000000, 0x08000000,
  0x10000000, 0x20000000, 0x40000000, 0x80000000, 0x1B000000, 0x36000000]

/-- Modelled from the spec: `rotl<8>` of rotate.h (not in src/); 32-bit
rotate left by 8 bits. -/
def rotl8 (w : Nat) : Nat := ((w <<< 8) ||| (w >>> 24)) % 2 ^ 32

/-- The expanded-key entry recurrence of `aes_key_schedule` of aes.cpp:
entry `n` of `XEK` as a function of the preceding entries `prev`
(`X = length / 4` words per key block). -/
def xekEntry (key : List Nat) (X : Nat) (prev : List Nat) (n : Nat) : Nat :=
  if n < X then load_be32 key n
  else if n % X = 0 then
    prev.getD (n - X) 0 ^^^ RC.getD ((n - X) / X) 0 ^^^
      rotl8 (SE_word (prev.getD (n - 1) 0))
  else if X = 8 ∧ n % X = 4 then
    prev.getD (n - X) 0 ^^^ SE_word (prev.getD (n - 1) 0)
  else
    prev.getD (n - X) 0 ^^^ prev.getD (n - 1) 0

/-- The first `n` entries of the `XEK` array of `aes_key_schedule`. -/
def xekFill (key : List Nat) (X : Nat) : Nat → List Nat
  | 0 => []
  | n + 1 =>
    let prev := xekFill key X n
    prev ++ [xekEntry key X prev n]

/-- The word combination applied to `XDK[i]` for `4 ≤ i < length + 24` in
`aes_key_schedule`: `InvMixColumn` on each byte, rotated back together. -/
def imcWord (w : Nat) : Nat :=
  InvMixColumn (get_byte 0 w) ^^^
  rotr 8 (InvMixColumn (get_byte 1 w)) ^^^
  rotr 16 (InvMixColumn (get_byte 2 w)) ^^^
  rotr 24 (InvMixColumn (get_byte 3 w))

/-- The outputs `(EK, DK, ME, MD)` of `aes_key_schedule`. -/
structure KeySchedule where
  EK : List Nat
  DK : List Nat
  ME : List Nat
  MD : List Nat
  deriving Repr

/-- The `aes_key_schedule` function of aes.cpp for a key of `length` bytes
(`length` is 16, 24 or 32; `X = length / 4`; `rounds = length / 4 + 6`).
`XDK[i] = XEK[4 rounds - 4 (i / 4) + i % 4]`, with `InvMixColumn` mixing on
all of `DK` but its first four words; `EK`, `DK` keep `length + 24` words;
`ME`, `MD` are the big-endian bytes of the last resp. first four `XEK`
words. -/
def aes_key_schedule (key : List Nat) (length : Nat) : KeySchedule :=
  let X := length / 4
  let rounds := length / 4 + 6
  let XEK := xekFill key X (4 * (rounds + 1))
  let xdkRaw := fun i => XEK.getD (4 * rounds - 4 * (i / 4) + i % 4) 0
  let DK := (List.range (length + 24)).map
    (fun i => if i < 4 then xdkRaw i else imcWord (xdkRaw i))
  let EK := XEK.take (length + 24)
  let ME := (List.range 4).flatMap (fun i => store_be32 (XEK.getD (i + 4 * rounds) 0))
  let MD := (List.range 4).flatMap (fun i => store_be32 (XEK.getD i 0))
  ⟨EK, DK, ME, MD⟩


/-- GF(2^8) multiplication by 9 as computed in `InvMixColumn` (`s9 = s8 ^ s1`). -/
def mul9 (s : Nat) : Nat := xtime (xtime (xtime s)) ^^^ s


/-- GF(2^8) multiplication by 11 (`s11 = s9 ^ s2`). -/
def mul11 (s : Nat) : Nat := mul9 s ^^^ xtime s


/-- GF(2^8) multiplication by 13 (`s13 = s9 ^ s4`). -/
def mul13 (s : Nat) : Nat := mul9 s ^^^ xtime (xtime s)


/-- GF(2^8) multiplication by 14 (`s14 = s8 ^ s4 ^ s2`). -/
def mul14 (s : Nat) : Nat := xtime (xtime (xtime s)) ^^^ xtime (xtime s) ^^^ xtime s


/-- The MixColumns word on four input bytes (column `(2,1,1,3)` pattern). -/
def mix4 (a b c d : Nat) : Nat :=
  make_uint32 (xtime a ^^^ xtime3 b ^^^ c ^^^ d) (a ^^^ xtime b ^^^ xtime3 c ^^^ d)
    (a ^^^ b ^^^ xtime c ^^^ xtime3 d) (xtime3 a ^^^ b ^^^ c ^^^ xtime d)


/-- The InvMixColumns word on four input bytes (column `(14,9,13,11)` pattern). -/
def imix4 (a b c d : Nat) : Nat :=
  make_uint32 (mul14 a ^^^ mul11 b ^^^ mul13 c ^^^ mul9 d)
    (mul9 a ^^^ mul14 b ^^^ mul11 c ^^^ mul13 d)
    (mul13 a ^^^ mul9 b ^^^ mul14 c ^^^ mul11 d)
    (mul11 a ^^^ mul13 b ^^^ mul9 c ^^^ mul14 d)


/-- Abbreviation: the forward S-box lookup. -/
def seb (x : Nat) : Nat := SE.getD x 0


/-- Abbreviation: the inverse S-box lookup. -/
def sdb (x : Nat) : Nat := SD.getD x 0


/-- InvMixColumns applied to the bytes of one word. -/
def imixw (w : Nat) : Nat :=
  imix4 (get_byte 0 w) (get_byte 1 w) (get_byte 2 w) (get_byte 3 w)


/-- `SubBytes` followed by `ShiftRows` on a four-word state, words packed
big-endian: the byte access pattern of the AES final round. -/
def subShift (st : State) : State :=
  (make_uint32 (seb (get_byte 0 st.1)) (seb (get_byte 1 st.2.1))
    (seb (get_byte 2 st.2.2.1)) (seb (get_byte 3 st.2.2.2)),
   make_uint32 (seb (get_byte 0 st.2.1)) (seb (get_byte 1 st.2.2.1))
    (seb (get_byte 2 st.2.2.2)) (seb (get_byte 3 st.1)),
   make_uint32 (seb (get_byte 0 st.2.2.1)) (seb (get_byte 1 st.2.2.2))
    (seb (get_byte 2 st.1)) (seb (get_byte 3 st.2.1)),
   make_uint32 (seb (get_byte 0 st.2.2.2)) (seb (get_byte 1 st.1))
    (seb (get_byte 2 st.2.1)) (seb (get_byte 3 st.2.2.1)))


/-- Fold a list of round-key quadruples through the forward round. -/
def encRounds (Ks : List State) (st : State) : State :=
  Ks.foldl (fun s Q => encRound Q.1 Q.2.1 Q.2.2.1 Q.2.2.2 s) st


/-- Fold a list of round-key quadruples through the inverse round. -/
def decRounds (Ks : List State) (st : State) : State :=
  Ks.foldl (fun s Q => decRound Q.1 Q.2.1 Q.2.2.1 Q.2.2.2 s) st


/-- `imcWord` on each word of a quadruple. -/
def imcW4 (Q : State) : State :=
  (imcWord Q.1, imcWord Q.2.1, imcWord Q.2.2.1, imcWord Q.2.2.2)


/-- Flatten a list of word quadruples to a word list. -/
def flatQ (L : List State) : List Nat :=
  L.flatMap (fun Q => [Q.1, Q.2.1, Q.2.2.1, Q.2.2.2])


/-- Quadruple `g` of a word list. -/
def quadAt (l : List Nat) (g : Nat) : State :=
  (l.getD (4 * g) 0, l.getD (4 * g + 1) 0, l.getD (4 * g + 2) 0, l.getD (4 * g + 3) 0)


/-- Quadruples `a, a+1, ..., a+n-1` of a word list. -/
def quadsOf (l : List Nat) (a n : Nat) : List State :=
  (List.range n).map (fun g => quadAt l (a + g))


end AES

/-! Big-integer kernel (bigint.cpp).  A machine word is 64 bits. -/

/-- All-ones 64-bit word. -/
def wordMask : Nat := 2 ^ 64 - 1

/-- Modelled from the spec: `CT::expand_mask` of ct_utils.h (not in src/);
widens a boolean to `0` or all-ones. -/
def expand_mask (p : Bool) : Nat := if p then wordMask else 0

/-- Modelled from the spec: `CT::select(mask, a, b) = (a & mask) | (b & ~mask)`
of ct_utils.h (not in src/). -/
def ct_select (mask a b : Nat) : Nat :=
  (a &&& mask) ||| (b &&& (mask ^^^ wordMask))

/-- Modelled from the spec: `CT::is_equal(x, y)` of ct_utils.h (not in
src/); all-ones if the words are equal, else zero. -/
def ct_is_equal (x y : Nat) : Nat := if x = y then wordMask else 0

/-- Sign of a `BigInt` (`Positive`/`Negative`). -/
inductive Sign where
  | Positive
  | Negative
  deriving DecidableEq, Repr

/-- A `BigInt`: a sign plus the little-endian word sequence of the
magnitude. -/
structure BigInt where
  sign : Sign
  words : List Nat
  deriving Repr

namespace BigInt

/-- Modelled from the spec: `BigInt::size()` of bigint.h (not in src/);
number of stored words. -/
def size (a : BigInt) : Nat := a.words.length

/-- Modelled from the spec: `BigInt::word_at(i)` of bigint.h (not in
src/); stored word `i`, zero beyond the stored length. -/
def word_at (a : BigInt) (i : Nat) : Nat := a.words.getD i 0

/-- Modelled from the spec: `BigInt::set_word_at(i, w)` of bigint.h (not
in src/); grows the register with zero words as necessary, then stores
`w` at index `i`. -/
def set_word_at (a : BigInt) (i : Nat) (w : Nat) : BigInt :=
  { a with words := (a.words ++ List.replicate (i + 1 - a.words.length) 0).set i w }

/-- The `BigInt::ct_cond_assign(predicate, other)` function of bigint.cpp:
for each index below `max(size, other.size)` stores
`CT::select(mask, other.word_at(i), word_at(i))` with
`mask = CT::expand_mask(predicate)`. -/
def ct_cond_assign (a : BigInt) (predicate : Bool) (other : BigInt) : BigInt :=
  let r_words := max a.size other.size
  let mask := expand_mask predicate
  (List.range r_words).foldl
    (fun acc i => acc.set_word_at i (ct_select mask (other.word_at i) (acc.word_at i)))
    a

/-- The per-entry loop of `BigInt::const_time_lookup` of bigint.cpp:
`i` is the running index, `out` the accumulated output; raises
`Internal_Error` (via `BOTAN_ASSERT`) if an entry is shorter than the
output. -/
def ctl_loop (words : Nat) (vec : List BigInt) (idx i : Nat) (out : List Nat) :
    Except ErrKind (List Nat) :=
  match vec with
  | [] => .ok out
  | v :: rest =>
    if v.size < words then .error .internalError
    else
      let mask := ct_is_equal i idx
      ctl_loop words rest idx (i + 1)
        ((List.range words).map (fun w => out.getD w 0 ||| ct_select mask (v.word_at w) 0))

/-- The `BigInt::const_time_lookup(output, vec, idx)` function of
bigint.cpp: clears `output`, then for every entry of `vec` ORs in its
words under a mask that is all-ones only at `idx`. -/
def const_time_lookup (output : List Nat) (vec : List BigInt) (idx : Nat) :
    Except ErrKind (List Nat) :=
  ctl_loop output.length vec idx 0 (List.replicate output.length 0)

end BigInt

/-- Binary modular exponentiation with explicit structural fuel
(kernel-evaluable stand-in for `b ^ e % m`). -/
def powMod (m b e fuel : Nat) : Nat :=
  match fuel with
  | 0 => 1 % m
  | fuel + 1 =>
    if e = 0 then 1 % m
    else
      let h := powMod m (b * b % m) (e / 2) fuel
      if e % 2 = 1 then h * b % m else h

/-- The Ed448 field modulus `p = 2^448 − 2^224 − 1` (Goldilocks prime). -/
def p448 : Nat := 2 ^ 448 - 2 ^ 224 - 1

/-! Ed448 (ed448_internal.cpp).  The field and scalar layers
(`Gf448Elem`, `Scalar448`, gf448_elem.cpp, curve448_scalar.cpp) and the
SHAKE-256 XOF are not in src/ and are modelled from the spec; the point
operations, decode/encode, dom4 and sign/verify are translated from
ed448_internal.cpp. -/

namespace Ed448

/-- Byte length of an Ed448 key or field element encoding (`ED448_LEN`). -/
def ED448_LEN : Nat := 57

/-- The Ed448 group order `L` (RFC 8032 §5.2). -/
def L448 : Nat :=
  2 ^ 446 - 13818066809895115352007386748515426880336692474882178609894547503885

/-- `MINUS_D = 39081` of ed448_internal.cpp: the negated curve constant. -/
def MINUS_D : Nat := 39081

/-- Modelled from the spec: `Gf448Elem` of gf448_elem.h (not in src/), a
field element modulo `p = 2^448 − 2^224 − 1`, kept in canonical form. -/
abbrev Gf448Elem := ZMod p448

/-- Little-endian byte-string value. -/
def fromBytesLE : List Nat → Nat
  | [] => 0
  | b :: rest => b + 256 * fromBytesLE rest

/-- Little-endian encoding of `x` into `n` bytes. -/
def toBytesLE (n x : Nat) : List Nat :=
  (List.range n).map (fun i => x / 2 ^ (8 * i) % 256)

/-- Modelled from the spec: `Gf448Elem::bytes_are_canonical_representation`
(not in src/), the data-independent check that a little-endian byte string
is smaller than `p`. -/
def bytes_are_canonical_representation (b : List Nat) : Prop :=
  fromBytesLE b < p448

instance (b : List Nat) : Decidable (bytes_are_canonical_representation b) :=
  Nat.decLt _ _

/-- `square` of a field element. -/
def square (x : Gf448Elem) : Gf448Elem := x * x

/-- Modelled from the spec: `Gf448Elem::root`, the `(p − 3)/4` power used
in point decoding (not in src/); computed with modular exponentiation. -/
def root (x : Gf448Elem) : Gf448Elem :=
  ((powMod p448 x.val ((p448 - 3) / 4) 460 : Nat) : ZMod p448)

/-- Modelled from the spec: `Gf448Elem::inverse` (not in src/); the
Fermat inverse `x^(p − 2)`. -/
def inverse (x : Gf448Elem) : Gf448Elem :=
  ((powMod p448 x.val (p448 - 2) 460 : Nat) : ZMod p448)

/-- Parity of the canonical representation (`Gf448Elem::is_odd`). -/
def gf_is_odd (x : Gf448Elem) : Bool := x.val % 2 = 1

/-- Modelled from the spec: `Scalar448` (not in src/), an integer modulo
the group order `L`; construction from little-endian bytes reduces mod
`L`. -/
abbrev Scalar448 := ZMod L448

/-- `Scalar448` construction from a little-endian byte string (reduces
modulo `L`). -/
def scalarFromBytes (b : List Nat) : Scalar448 := (fromBytesLE b : ZMod L448)

/-- `Scalar448::get_bit`. -/
def get_bit (s : Scalar448) (i : Nat) : Bool := s.val / 2 ^ i % 2 = 1

/-- Modelled from the spec: `Scalar448::bytes_are_reduced` (not in src/):
the little-endian value is `< L`. -/
def bytes_are_reduced (b : List Nat) : Prop := fromBytesLE b < L448

instance (b : List Nat) : Decidable (bytes_are_reduced b) := Nat.decLt _ _

/-- An Ed448 point in projective coordinates `(X, Y, Z)`
(`Ed448Point` of ed448_internal.h/cpp). -/
structure Ed448Point where
  m_x : Gf448Elem
  m_y : Gf448Elem
  m_z : Gf448Elem

/-- Modelled from the spec: the affine x-accessor `Ed448Point::x()`
(header not in src/), `X/Z` via the Fermat inverse. -/
def xAff (P : Ed448Point) : Gf448Elem := P.m_x * inverse P.m_z

/-- Modelled from the spec: the affine y-accessor `Ed448Point::y()`. -/
def yAff (P : Ed448Point) : Gf448Elem := P.m_y * inverse P.m_z

/-- The curve constant `d = −39081` used in `Ed448Point::decode`. -/
def dconst : Gf448Elem := -((MINUS_D : Nat) : ZMod p448)

/-- The numerator `u = y² − 1` of `Ed448Point::decode`. -/
def decode_u (y : Gf448Elem) : Gf448Elem := square y - 1

/-- The denominator `v = d·y² − 1` of `Ed448Point::decode`. -/
def decode_v (y : Gf448Elem) : Gf448Elem := dconst * square y - 1

/-- The candidate root assigned by `Ed448Point::decode`:
`(u * square(u)) * v * root((square(square(u)) * u) * square(v) * v)`. -/
def decode_candidate (y : Gf448Elem) : Gf448Elem :=
  let u := decode_u y
  let v := decode_v y
  (u * square u) * v * root ((square (square u) * u) * square v * v)

/-- The candidate root as the specification text states it:
`x = (u v) · (u^5 v^3)^((p−3)/4)`, the power taken by `Gf448Elem::root`. -/
def decode_candidate_spec (y : Gf448Elem) : Gf448Elem :=
  let u := decode_u y
  let v := decode_v y
  (u * v) * root (u ^ 5 * v ^ 3)

/-- `Ed448Point::decode` of ed448_internal.cpp (RFC 8032 §5.2.3). -/
def decode (enc : List Nat) : Except ErrKind Ed448Point :=
  if enc.getD 56 0 &&& 0x7F ≠ 0 then .error .decodingError
  else
    let x_distinguisher : Bool := enc.getD 56 0 ≠ 0
    let y_data := enc.take 56
    if h : ¬ bytes_are_canonical_representation y_data then .error .decodingError
    else
      let y : Gf448Elem := (fromBytesLE y_data : ZMod p448)
      let maybe_x := decode_candidate y
      if decode_v y * square maybe_x ≠ decode_u y then .error .decodingError
      else if maybe_x = 0 ∧ x_distinguisher then .error .decodingError
      else
        let x := if gf_is_odd maybe_x = x_distinguisher then maybe_x else -maybe_x
        .ok ⟨x, y, 1⟩

/-- Little-endian word-array value (64-bit limbs, least significant
first), as used by the `Ed448Point::base_point` constants. -/
def fromWordsLE : List Nat → Nat
  | [] => 0
  | w :: rest => w + 2 ^ 64 * fromWordsLE rest

/-- `Ed448Point::base_point` of ed448_internal.cpp. -/
def base_point : Ed448Point :=
  ⟨((fromWordsLE [0x2626a82bc70cc05e, 0x433b80e18b00938e, 0x12ae1af72ab66511,
      0xea6de324a3d3a464, 0x9e146570470f1767, 0x221d15a622bf36da,
      0x4f1970c66bed0ded] : Nat) : ZMod p448),
   ((fromWordsLE [0x9808795bf230fa14, 0xfdbd132c4ed7c8ad, 0x3ad3ff1ce67c39c4,
      0x87789c1e05a0c2d7, 0x4bea73736ca39840, 0x8876203756c9c762,
      0x693f46716eb6bc24] : Nat) : ZMod p448),
   1⟩

/-- `Ed448Point::encode` of ed448_internal.cpp: 56 little-endian bytes of
the affine y, then a final byte carrying the parity of the affine x in
bit 7. -/
def encode (P : Ed448Point) : List Nat :=
  toBytesLE 56 (yAff P).val ++ [(if gf_is_odd (xAff P) then 1 else 0) <<< 7]

/-- `Ed448Point::operator+` of ed448_internal.cpp (RFC 8032 §5.2.4
point addition). -/
def pointAdd (P Q : Ed448Point) : Ed448Point :=
  let A := P.m_z * Q.m_z
  let B := square A
  let C := P.m_x * Q.m_x
  let D := P.m_y * Q.m_y
  let E := (-((MINUS_D : Nat) : ZMod p448)) * C * D
  let F := B - E
  let G := B + E
  let H := (P.m_x + P.m_y) * (Q.m_x + Q.m_y)
  let X3 := A * F * (H - C - D)
  let Y3 := A * G * (D - C)
  let Z3 := F * G
  ⟨X3, Y3, Z3⟩

instance : Add Ed448Point := ⟨pointAdd⟩

/-- `Ed448Point::double_point` of ed448_internal.cpp. -/
def double_point (P : Ed448Point) : Ed448Point :=
  let B := square (P.m_x + P.m_y)
  let C := square P.m_x
  let D := square P.m_y
  let E := C + D
  let H := square P.m_z
  let J := E - (H + H)
  let X3 := (B - E) * J
  let Y3 := E * (C - D)
  let Z3 := E * J
  ⟨X3, Y3, Z3⟩

/-- `Ed448Point::ct_conditional_assign` of ed448_internal.cpp (the
constant-time conditional select, modelled as a conditional). -/
def ct_conditional_assign (P : Ed448Point) (cond : Bool) (other : Ed448Point) :
    Ed448Point :=
  if cond then other else P

/-- `Ed448Point::scalar_mul` of ed448_internal.cpp: constant-time double
and add over bit positions 445 down to 0. -/
def scalar_mul (P : Ed448Point) (s : Scalar448) : Ed448Point :=
  (List.range 446).foldl
    (fun res j =>
      let res2 := double_point res
      let add_sum := res2 + P
      ct_conditional_assign res2 (get_bit s (445 - j)) add_sum)
    ⟨0, 1, 1⟩

/-- `Ed448Point::operator==` of ed448_internal.cpp: compares the affine
coordinates. -/
def pointEq (P Q : Ed448Point) : Bool :=
  decide (xAff P = xAff Q) && decide (yAff P = yAff Q)

/-- The byte stream of a SHAKE-256 XOF absorbing a given input.
Modelled from the spec: SHAKE-256 itself (shake_xof, not in src/) is left
abstract; every Ed448 operation is parametrised by the XOF. -/
def XofStream : Type := List Nat → Nat → Nat

/-- An XOF stream produces bytes. -/
def ValidXof (xof : XofStream) : Prop := ∀ inp i, xof inp i < 256

/-- The `dom4(x, y)` prefix of ed448_internal.cpp:
`"SigEd448" || octet(x) || octet(|y|) || y`, rejecting `|y| ≥ 256` via
`BOTAN_ARG_CHECK` (`Invalid_Argument`). -/
def dom4 (x : Nat) (y : List Nat) : Except ErrKind (List Nat) :=
  if y.length < 256 then
    .ok ([0x53, 0x69, 0x67, 0x45, 0x64, 0x34, 0x34, 0x38] ++ [x] ++ [y.length] ++ y)
  else .error .invalidArgument

/-- The `shake` helper of ed448_internal.cpp: absorb `dom4(f, context)`
then the given byte strings, output 114 bytes. -/
def shake (xof : XofStream) (f : Bool) (context : List Nat) (xs : List (List Nat)) :
    Except ErrKind (List Nat) :=
  (dom4 (if f then 1 else 0) context).map
    (fun d => (List.range 114).map (xof (d ++ xs.flatten)))

/-- The `scalar_from_xof` pruning of ed448_internal.cpp: take 57 bytes,
clear the low 2 bits of byte 0, set bit 7 of byte 55, zero byte 56, and
reduce the little-endian value modulo `L`. -/
def scalar_from_xof (stream : Nat → Nat) : Scalar448 :=
  let raw := (List.range 57).map stream
  let raw := ((raw.set 0 (raw.getD 0 0 &&& 0xFC)).set 55
    (raw.getD 55 0 ||| 0x80)).set 56 0
  scalarFromBytes raw

/-- `create_pk_from_sk` of ed448_internal.cpp (RFC 8032 §5.2.5). -/
def create_pk_from_sk (xof : XofStream) (sk : List Nat) : List Nat :=
  let s := scalar_from_xof (xof sk)
  encode (scalar_mul base_point s)

/-- `sign_message` of ed448_internal.cpp (RFC 8032 §5.2.6). -/
def sign_message (xof : XofStream) (sk pk : List Nat) (pgflag : Bool)
    (context msg : List Nat) : Except ErrKind (List Nat) :=
  let stream := xof sk
  let s := scalar_from_xof stream
  let pfx := (List.range 57).map (fun i => stream (57 + i))
  match shake xof pgflag context [pfx, msg] with
  | .error e => .error e
  | .ok h1 =>
    let r : Scalar448 := scalarFromBytes h1
    let big_r := encode (scalar_mul base_point r)
    match shake xof pgflag context [big_r, pk, msg] with
    | .error e => .error e
    | .ok h2 =>
      let k : Scalar448 := scalarFromBytes h2
      let big_s := r + k * s
      .ok (big_r ++ toBytesLE 57 big_s.val)

/-- `verify_signature` of ed448_internal.cpp (RFC 8032 §5.2.7). -/
def verify_signature (xof : XofStream) (pk : List Nat) (phflag : Bool)
    (context sig msg : List Nat) : Except ErrKind Bool :=
  if sig.length ≠ 2 * ED448_LEN then .error .decodingError
  else
    let big_r_bytes := sig.take 57
    let big_s_bytes := sig.drop 57
    match decode big_r_bytes with
    | .error e => .error e
    | .ok big_r =>
      if h : ¬ bytes_are_reduced big_s_bytes then .error .decodingError
      else
        let big_s : Scalar448 := scalarFromBytes big_s_bytes
        match shake xof phflag context [big_r_bytes, pk, msg] with
        | .error e => .error e
        | .ok h2 =>
          let k : Scalar448 := scalarFromBytes h2
          match decode pk with
          | .error e => .error e
          | .ok pkP =>
            .ok (pointEq (scalar_mul base_point big_s)
              (big_r + scalar_mul pkP k))

end Ed448

/-! XMSS parameter sets (xmss_parameters.cpp). -/

namespace XMSS

/-- The `xmss_algorithm_t` identifiers.  Modelled from the spec for the
header xmss_parameters.h (not in src/): the six SHA-2 identifiers of the
name table plus the commented-out SHAKE identifiers, which the switch of
the constructor maps to its `default` branch. -/
inductive xmss_algorithm_t where
  | XMSS_SHA2_256_W16_H10
  | XMSS_SHA2_256_W16_H16
  | XMSS_SHA2_256_W16_H20
  | XMSS_SHA2_512_W16_H10
  | XMSS_SHA2_512_W16_H16
  | XMSS_SHA2_512_W16_H20
  | XMSS_SHAKE128_W16_H10
  | XMSS_SHAKE128_W16_H16
  | XMSS_SHAKE128_W16_H20
  | XMSS_SHAKE256_W16_H10
  | XMSS_SHAKE256_W16_H16
  | XMSS_SHAKE256_W16_H20
  deriving DecidableEq, Repr

/-- The WOTS+ identifiers used inside the parameter records. -/
inductive ots_algorithm_t where
  | WOTSP_SHA2_256_W16
  | WOTSP_SHA2_512_W16
  deriving DecidableEq, Repr

/-- The frozen `XMSS_Parameters` record. -/
structure XMSS_Parameters where
  oid : xmss_algorithm_t
  element_size : Nat
  w : Nat
  len : Nat
  tree_height : Nat
  name : String
  hash_name : String
  strength : Nat
  wots_oid : ots_algorithm_t
  deriving DecidableEq, Repr

/-- The `m_oid_name_lut` name table of xmss_parameters.cpp (the SHAKE
entries are commented out in the source). -/
def m_oid_name_lut : List (String × xmss_algorithm_t) := [
  ("XMSS_SHA2-256_W16_H10", .XMSS_SHA2_256_W16_H10),
  ("XMSS_SHA2-256_W16_H16", .XMSS_SHA2_256_W16_H16),
  ("XMSS_SHA2-256_W16_H20", .XMSS_SHA2_256_W16_H20),
  ("XMSS_SHA2-512_W16_H10", .XMSS_SHA2_512_W16_H10),
  ("XMSS_SHA2-512_W16_H16", .XMSS_SHA2_512_W16_H16),
  ("XMSS_SHA2-512_W16_H20", .XMSS_SHA2_512_W16_H20)]

/-- The `XMSS_Parameters(xmss_algorithm_t)` constructor of
xmss_parameters.cpp: the six SHA-2 identifiers yield their frozen record;
every other identifier reaches the `default` branch, which throws
`Unsupported_Argument` (a subclass of `Invalid_Argument`). -/
def XMSS_Parameters_from_oid (oid : xmss_algorithm_t) :
    Except ErrKind XMSS_Parameters :=
  match oid with
  | .XMSS_SHA2_256_W16_H10 => .ok ⟨oid, 32, 16, 67, 10, "XMSS_SHA2-256_W16_H10",
      "SHA-256", 256, .WOTSP_SHA2_256_W16⟩
  | .XMSS_SHA2_256_W16_H16 => .ok ⟨oid, 32, 16, 67, 16, "XMSS_SHA2-256_W16_H16",
      "SHA-256", 256, .WOTSP_SHA2_256_W16⟩
  | .XMSS_SHA2_256_W16_H20 => .ok ⟨oid, 32, 16, 67, 20, "XMSS_SHA2-256_W16_H20",
      "SHA-256", 256, .WOTSP_SHA2_256_W16⟩
  | .XMSS_SHA2_512_W16_H10 => .ok ⟨oid, 64, 16, 131, 10, "XMSS_SHA2-512_W16_H10",
      "SHA-512", 512, .WOTSP_SHA2_512_W16⟩
  | .XMSS_SHA2_512_W16_H16 => .ok ⟨oid, 64, 16, 131, 16, "XMSS_SHA2-512_W16_H16",
      "SHA-512", 512, .WOTSP_SHA2_512_W16⟩
  | .XMSS_SHA2_512_W16_H20 => .ok ⟨oid, 64, 16, 131, 20, "XMSS_SHA2-512_W16_H20",
      "SHA-512", 512, .WOTSP_SHA2_512_W16⟩
  | _ => .error .invalidArgument

/-- The `XMSS_Parameters(const std::string&)` constructor of
xmss_parameters.cpp: `m_oid_name_lut.at(algo_name)` — `std::map::at`
raises `std::out_of_range` when the name is absent — then delegates to
the identifier constructor. -/
def XMSS_Parameters_from_string (algo_name : String) :
    Except ErrKind XMSS_Parameters :=
  match m_oid_name_lut.find? (fun p => p.1 = algo_name) with
  | none => .error .stdOutOfRange
  | some p => XMSS_Parameters_from_oid p.2

end XMSS

end Botan

/-! ### Theorems -/

namespace Botan

namespace AES

theorem xekFill_length (key : List Nat) (X n : Nat) : (xekFill key X n).length = n := by
  induction n with
  | zero => rfl
  | succ n ih => simp [xekFill, ih]

theorem ek_length (key : List Nat) (len : Nat) (h4 : len % 4 = 0) :
    (aes_key_schedule key len).EK.length = len + 24 := by
  simp [aes_key_schedule, xekFill_length]
  omega

theorem dk_length (key : List Nat) (len : Nat) :
    (aes_key_schedule key len).DK.length = len + 24 := by
  simp [aes_key_schedule]

end AES

/-- C5: the masking entries of the AES T-tables are zero — `SE[82] = 0`
forces `TE[82] = make_uint32(xtime 0, 0, 0, xtime3 0) = 0` and `SD[99] = 0`
forces `TD[99] = InvMixColumn 0 = 0` — hence for every key schedule, cache
line size and block sequence, the swept accumulator `Z` is `0` and
`aes_encrypt_n` / `aes_decrypt_n` compute exactly the `Z = 0` results. -/
theorem claim_C5_sweep_mask_zero :
    (AES.SE.getD 82 0 = 0 ∧
      AES.AES_TE.getD 82 0 = make_uint32 (AES.xtime 0) 0 0 (AES.xtime3 0) ∧
      AES.AES_TE.getD 82 0 = 0) ∧
    (AES.SD.getD 99 0 = 0 ∧
      AES.AES_TD.getD 99 0 = AES.InvMixColumn 0 ∧
      AES.AES_TD.getD 99 0 = 0) ∧
    (∀ blocks EK ME cls, AES.aes_encrypt_n blocks EK ME cls =
      blocks.map (AES.aes_encrypt_block EK ME 0)) ∧
    (∀ blocks DK MD cls, AES.aes_decrypt_n blocks DK MD cls =
      blocks.map (AES.aes_decrypt_block DK MD 0)) := by
  have hTE : AES.AES_TE.getD 82 0 = 0 := by decide
  have hTD : AES.AES_TD.getD 99 0 = 0 := by decide
  refine ⟨⟨by decide, by decide, hTE⟩, ⟨by decide, by decide, hTD⟩, ?_, ?_⟩
  · intro blocks EK ME cls
    simp only [AES.aes_encrypt_n]
    rw [hTE]
    simp
  · intro blocks DK MD cls
    simp only [AES.aes_decrypt_n]
    rw [hTD]
    simp

/-- C6 (amended): after a key-schedule call with a valid key length of
`len` bytes (16, 24 or 32), `EK` and `DK` each hold `len + 24` words —
that is `4 · (len/4 + 6)` words — not `len/4 + 24` words. -/
theorem claim_C6_ek_dk_length (key : List Nat) (len : Nat)
    (h : len = 16 ∨ len = 24 ∨ len = 32) :
    (AES.aes_key_schedule key len).EK.length = len + 24 ∧
    (AES.aes_key_schedule key len).DK.length = len + 24 := by
  refine ⟨AES.ek_length key len ?_, AES.dk_length key len⟩
  rcases h with h | h | h <;> omega

/-- C6 witness: the amended statement instantiated at a 16-byte key. -/
theorem claim_C6_witness :
    (16 = 16 ∨ 16 = 24 ∨ 16 = 32) ∧
    ((AES.aes_key_schedule (List.replicate 16 0) 16).EK.length = 16 + 24 ∧
     (AES.aes_key_schedule (List.replicate 16 0) 16).DK.length = 16 + 24) :=
  ⟨Or.inl rfl, claim_C6_ek_dk_length (List.replicate 16 0) 16 (Or.inl rfl)⟩

/-- C6 counterexample: for a 16-byte key the stored `EK` has 40 words,
not `16/4 + 24 = 28` as the claim states. -/
theorem claim_C6_counterexample :
    ¬ ((AES.aes_key_schedule (List.replicate 16 0) 16).EK.length
      = 16 / 4 + 24) := by
  rw [AES.ek_length (List.replicate 16 0) 16 (by decide)]
  decide

end Botan

namespace Botan

theorem getD_lt_of_forall {l : List Nat} {B : Nat} (h : ∀ w ∈ l, w < B) (hB : 0 < B)
    (i : Nat) : l.getD i 0 < B := by
  by_cases hi : i < l.length
  · simp only [List.getD_eq_getElem?_getD, List.getElem?_eq_getElem hi, Option.getD_some]
    exact h _ (l.getElem_mem hi)
  · simp [List.getD_eq_getElem?_getD, List.getElem?_eq_none (by omega : l.length ≤ i), hB]

theorem map_range_getD (l : List Nat) : (List.range l.length).map (fun w => l.getD w 0) = l := by
  apply List.ext_getElem
  · simp
  · intro i h1 h2
    simp [List.getElem?_eq_getElem h2]

namespace BigInt

theorem sign_set_word_at (a : BigInt) (i w : Nat) : (a.set_word_at i w).sign = a.sign := rfl

theorem word_at_set_word_at (a : BigInt) (i j w : Nat) :
    (a.set_word_at i w).word_at j = if j = i then w else a.word_at j := by
  unfold set_word_at word_at
  have hpad : i < (a.words ++ List.replicate (i + 1 - a.words.length) 0).length := by
    simp; omega
  by_cases hji : j = i
  · subst hji
    simp [List.getElem?_set_self hpad]
  · simp only [List.getD_eq_getElem?_getD, List.getElem?_set_ne (fun h => hji h.symm)]
    rcases Nat.lt_or_ge j a.words.length with hj | hj
    · rw [List.getElem?_append_left hj]
      simp [hji]
    · have hnone : a.words[j]? = none := List.getElem?_eq_none (by omega)
      rw [hnone, List.getElem?_append_right hj]
      simp only [List.getElem?_replicate]
      by_cases hj2 : j - a.words.length < i + 1 - a.words.length <;> simp [hj2, hji]

end BigInt
end Botan
namespace Botan

theorem ct_select_allones {a : Nat} (b : Nat) (ha : a < 2 ^ 64) :
    ct_select wordMask a b = a := by
  unfold ct_select wordMask
  rw [Nat.xor_self]
  simp [Nat.and_pow_two_sub_one_of_lt_two_pow ha]

theorem ct_select_zero (a : Nat) {b : Nat} (hb : b < 2 ^ 64) :
    ct_select 0 a b = b := by
  unfold ct_select wordMask
  simp [Nat.and_pow_two_sub_one_of_lt_two_pow hb]

theorem ct_select_zero_zero (a : Nat) : ct_select 0 a 0 = 0 := by
  simp [ct_select]

namespace BigInt

theorem ct_cond_assign_fold (a other : BigInt) (mask : Nat) (n : Nat) :
    ((List.range n).foldl
      (fun acc i => acc.set_word_at i (ct_select mask (other.word_at i) (acc.word_at i)))
      a).sign = a.sign ∧
    ∀ j, ((List.range n).foldl
      (fun acc i => acc.set_word_at i (ct_select mask (other.word_at i) (acc.word_at i)))
      a).word_at j =
      if j < n then ct_select mask (other.word_at j) (a.word_at j) else a.word_at j := by
  induction n with
  | zero => simp
  | succ n ih =>
    rw [List.range_succ, List.foldl_append]
    simp only [List.foldl_cons, List.foldl_nil]
    refine ⟨by rw [sign_set_word_at]; exact ih.1, fun j => ?_⟩
    rw [word_at_set_word_at, ih.2 n, ih.2 j]
    by_cases hj : j = n
    · subst hj; simp
    · by_cases hj2 : j < n
      · simp [hj, hj2, Nat.lt_succ_of_lt hj2]
      · have hj3 : ¬ j < n + 1 := by omega
        simp [hj, hj2, hj3]

theorem word_at_lt {a : BigInt} (h : ∀ w ∈ a.words, w < 2 ^ 64) (i : Nat) :
    a.word_at i < 2 ^ 64 :=
  getD_lt_of_forall h (by norm_num) i

theorem word_at_eq_zero_of_le {a : BigInt} {i : Nat} (h : a.size ≤ i) :
    a.word_at i = 0 := by
  unfold word_at
  simp [List.getElem?_eq_none (by exact h)]

theorem ct_cond_assign_spec (a b : BigInt) (p : Bool)
    (ha : ∀ w ∈ a.words, w < 2 ^ 64) (hb : ∀ w ∈ b.words, w < 2 ^ 64) :
    (a.ct_cond_assign p b).sign = a.sign ∧
    ∀ i, (a.ct_cond_assign p b).word_at i =
      if p then b.word_at i else a.word_at i := by
  unfold ct_cond_assign
  obtain ⟨hs, hw⟩ := ct_cond_assign_fold a b (expand_mask p) (max a.size b.size)
  refine ⟨hs, fun i => ?_⟩
  rw [hw i]
  by_cases hi : i < max a.size b.size
  · rw [if_pos hi]
    cases p with
    | true =>
      have hm : expand_mask true = wordMask := rfl
      rw [hm, ct_select_allones _ (word_at_lt hb i)]
      simp
    | false =>
      have hm : expand_mask false = 0 := rfl
      rw [hm, ct_select_zero _ (word_at_lt ha i)]
      simp
  · have h1 : a.word_at i = 0 := word_at_eq_zero_of_le (by unfold size at *; omega)
    have h2 : b.word_at i = 0 := word_at_eq_zero_of_le (by unfold size at *; omega)
    simp [hi, h1, h2]

end BigInt
end Botan
namespace Botan
namespace BigInt

theorem ctl_loop_spec (words : Nat) (vec : List BigInt) (idx : Nat) :
    ∀ (i : Nat) (out : List Nat), out.length = words →
    (∀ v ∈ vec, words ≤ v.size) →
    (∀ v ∈ vec, ∀ w ∈ v.words, w < 2 ^ 64) →
    ctl_loop words vec idx i out =
      .ok ((List.range words).map (fun w => out.getD w 0 |||
        (if i ≤ idx ∧ idx < i + vec.length
          then (vec.getD (idx - i) ⟨Sign.Positive, []⟩).word_at w else 0))) := by
  induction vec with
  | nil =>
    intro i out hlen _ _
    simp only [ctl_loop, List.length_nil]
    congr 1
    have h1 : (List.range words).map (fun w => out.getD w 0 |||
        (if i ≤ idx ∧ idx < i + 0 then
          (([] : List BigInt).getD (idx - i) ⟨Sign.Positive, []⟩).word_at w else 0)) =
        (List.range words).map (fun w => out.getD w 0) := by
      apply List.map_congr_left
      intro w _
      rw [if_neg (by omega)]
      exact Nat.or_zero _
    rw [h1, ← hlen, map_range_getD]
  | cons v rest ih =>
    intro i out hlen hsz hbd
    have hv : ¬ v.size < words := by
      have := hsz v (List.mem_cons_self v rest)
      omega
    simp only [ctl_loop, if_neg hv]
    rw [ih (i + 1) _ (by simp) (fun u hu => hsz u (List.mem_cons_of_mem v hu))
      (fun u hu => hbd u (List.mem_cons_of_mem v hu))]
    congr 1
    apply List.ext_getElem (by simp)
    intro w h1 h2
    have hw : w < words := by simpa using h1
    simp only [List.getElem_map, List.getElem_range]
    have hgetD : ((List.range words).map (fun w2 => out.getD w2 0 |||
        ct_select (ct_is_equal i idx) (v.word_at w2) 0)).getD w 0 =
        out.getD w 0 ||| ct_select (ct_is_equal i idx) (v.word_at w) 0 := by
      simp only [List.getD_eq_getElem?_getD, List.getElem?_map, List.getElem?_range, hw,
        if_pos hw]
      simp [hw]
    rw [hgetD]
    by_cases hii : i = idx
    · subst hii
      have hm : ct_is_equal i i = wordMask := by simp [ct_is_equal]
      rw [hm, ct_select_allones _ (word_at_lt (hbd v (List.mem_cons_self v rest)) w)]
      rw [if_neg (show ¬(i + 1 ≤ i ∧ i < i + 1 + rest.length) by omega),
        if_pos (show i ≤ i ∧ i < i + (v :: rest).length by simp only [List.length_cons]; omega)]
      rw [Nat.sub_self]
      simp [Nat.or_assoc]
    · have hm : ct_is_equal i idx = 0 := by simp [ct_is_equal, hii]
      rw [hm, ct_select_zero_zero, Nat.or_zero]
      by_cases hcond : i + 1 ≤ idx ∧ idx < i + 1 + rest.length
      · rw [if_pos hcond, if_pos (show i ≤ idx ∧ idx < i + (v :: rest).length by
          simp only [List.length_cons]; omega)]
        have h3 : idx - i = (idx - (i + 1)) + 1 := by omega
        rw [h3]
        simp
      · rw [if_neg hcond, if_neg (show ¬(i ≤ idx ∧ idx < i + (v :: rest).length) by
          simp only [List.length_cons]; omega)]

end BigInt
end Botan

namespace Botan
namespace BigInt

/-- C10: `ct_cond_assign(p, b)` changes only the magnitude words of `a` —
they become `b`'s words when `p` is true and stay unchanged when `p` is
false — and never changes `a`'s sign. -/
theorem claim_C10_ct_cond_assign (a b : BigInt) (p : Bool)
    (ha : ∀ w ∈ a.words, w < 2 ^ 64) (hb : ∀ w ∈ b.words, w < 2 ^ 64) :
    (a.ct_cond_assign p b).sign = a.sign ∧
    ∀ i, (a.ct_cond_assign p b).word_at i =
      if p then b.word_at i else a.word_at i :=
  ct_cond_assign_spec a b p ha hb

/-- C10 witness: assigning a negative two-word value into a positive
one-word value under a true predicate keeps the `Positive` sign and takes
the other magnitude. -/
theorem claim_C10_witness :
    (∀ w ∈ ({ sign := Sign.Positive, words := [5] } : BigInt).words, w < 2 ^ 64) ∧
    (∀ w ∈ ({ sign := Sign.Negative, words := [7, 8] } : BigInt).words, w < 2 ^ 64) ∧
    ((BigInt.ct_cond_assign ⟨Sign.Positive, [5]⟩ true ⟨Sign.Negative, [7, 8]⟩).sign
        = Sign.Positive ∧
      ∀ i, (BigInt.ct_cond_assign ⟨Sign.Positive, [5]⟩ true ⟨Sign.Negative, [7, 8]⟩).word_at i
        = if true then (⟨Sign.Negative, [7, 8]⟩ : BigInt).word_at i
          else (⟨Sign.Positive, [5]⟩ : BigInt).word_at i) :=
  ⟨by decide, by decide,
    claim_C10_ct_cond_assign ⟨Sign.Positive, [5]⟩ ⟨Sign.Negative, [7, 8]⟩ true
      (by decide) (by decide)⟩

/-- C9: `const_time_lookup(output, vec, idx)` raises no exception when
every entry has at least `output.size()` words; it fills `output` with the
low words of `vec[idx]` when `idx < |vec|` and with zeros when
`idx ≥ |vec|`. -/
theorem claim_C9_const_time_lookup (output : List Nat) (vec : List BigInt) (idx : Nat)
    (hsz : ∀ v ∈ vec, output.length ≤ v.size)
    (hbd : ∀ v ∈ vec, ∀ w ∈ v.words, w < 2 ^ 64) :
    const_time_lookup output vec idx =
      .ok ((List.range output.length).map (fun w =>
        if idx < vec.length
          then (vec.getD idx ⟨Sign.Positive, []⟩).word_at w else 0)) := by
  unfold const_time_lookup
  rw [ctl_loop_spec output.length vec idx 0 _ (by simp) hsz hbd]
  congr 1
  apply List.map_congr_left
  intro w _
  have h0 : (List.replicate output.length 0).getD w 0 = 0 := by
    by_cases hw : w < output.length
    · simp [List.getD_eq_getElem?_getD, List.getElem?_replicate, hw]
    · simp [List.getD_eq_getElem?_getD, List.getElem?_eq_none
        (show (List.replicate output.length (0 : Nat)).length ≤ w by simpa using by omega)]
  rw [h0, Nat.zero_or, Nat.sub_zero]
  by_cases hc : idx < vec.length
  · rw [if_pos ⟨Nat.zero_le idx, by omega⟩, if_pos hc]
  · rw [if_neg (by omega), if_neg hc]

/-- C9 witness: looking up index 1 in a two-entry table yields the low
two words of the second entry, and no exception. -/
theorem claim_C9_witness :
    (∀ v ∈ [(⟨Sign.Positive, [3, 4, 5]⟩ : BigInt), ⟨Sign.Negative, [6, 7]⟩],
      ([0, 0] : List Nat).length ≤ v.size) ∧
    (∀ v ∈ [(⟨Sign.Positive, [3, 4, 5]⟩ : BigInt), ⟨Sign.Negative, [6, 7]⟩],
      ∀ w ∈ v.words, w < 2 ^ 64) ∧
    const_time_lookup [0, 0] [⟨Sign.Positive, [3, 4, 5]⟩, ⟨Sign.Negative, [6, 7]⟩] 1 =
      .ok ((List.range ([0, 0] : List Nat).length).map (fun w =>
        if 1 < ([(⟨Sign.Positive, [3, 4, 5]⟩ : BigInt), ⟨Sign.Negative, [6, 7]⟩]).length
          then (([(⟨Sign.Positive, [3, 4, 5]⟩ : BigInt), ⟨Sign.Negative, [6, 7]⟩]).getD 1
            ⟨Sign.Positive, []⟩).word_at w else 0)) :=
  ⟨by decide, by decide,
    claim_C9_const_time_lookup [0, 0] [⟨Sign.Positive, [3, 4, 5]⟩, ⟨Sign.Negative, [6, 7]⟩] 1
      (by decide) (by decide)⟩

end BigInt
end Botan

namespace Botan
namespace XMSS

/-- C8 (amended): a string that is not one of the six supported algorithm
names makes `XMSS_Parameters` construction fail with `std::out_of_range`
(raised by `std::map::at` on the name table), which is not the library's
`Invalid_Argument`; each of the six supported names yields its frozen
parameter record. -/
theorem claim_C8_parameters_from_string :
    (∀ nm : String, nm ∉ ["XMSS_SHA2-256_W16_H10", "XMSS_SHA2-256_W16_H16",
        "XMSS_SHA2-256_W16_H20", "XMSS_SHA2-512_W16_H10", "XMSS_SHA2-512_W16_H16",
        "XMSS_SHA2-512_W16_H20"] →
      XMSS_Parameters_from_string nm = .error .stdOutOfRange) ∧
    XMSS_Parameters_from_string "XMSS_SHA2-256_W16_H10" =
      .ok ⟨.XMSS_SHA2_256_W16_H10, 32, 16, 67, 10, "XMSS_SHA2-256_W16_H10",
        "SHA-256", 256, .WOTSP_SHA2_256_W16⟩ ∧
    XMSS_Parameters_from_string "XMSS_SHA2-256_W16_H16" =
      .ok ⟨.XMSS_SHA2_256_W16_H16, 32, 16, 67, 16, "XMSS_SHA2-256_W16_H16",
        "SHA-256", 256, .WOTSP_SHA2_256_W16⟩ ∧
    XMSS_Parameters_from_string "XMSS_SHA2-256_W16_H20" =
      .ok ⟨.XMSS_SHA2_256_W16_H20, 32, 16, 67, 20, "XMSS_SHA2-256_W16_H20",
        "SHA-256", 256, .WOTSP_SHA2_256_W16⟩ ∧
    XMSS_Parameters_from_string "XMSS_SHA2-512_W16_H10" =
      .ok ⟨.XMSS_SHA2_512_W16_H10, 64, 16, 131, 10, "XMSS_SHA2-512_W16_H10",
        "SHA-512", 512, .WOTSP_SHA2_512_W16⟩ ∧
    XMSS_Parameters_from_string "XMSS_SHA2-512_W16_H16" =
      .ok ⟨.XMSS_SHA2_512_W16_H16, 64, 16, 131, 16, "XMSS_SHA2-512_W16_H16",
        "SHA-512", 512, .WOTSP_SHA2_512_W16⟩ ∧
    XMSS_Parameters_from_string "XMSS_SHA2-512_W16_H20" =
      .ok ⟨.XMSS_SHA2_512_W16_H20, 64, 16, 131, 20, "XMSS_SHA2-512_W16_H20",
        "SHA-512", 512, .WOTSP_SHA2_512_W16⟩ := by
  refine ⟨?_, rfl, rfl, rfl, rfl, rfl, rfl⟩
  intro nm h
  simp only [List.mem_cons, List.not_mem_nil, or_false, not_or] at h
  obtain ⟨h1, h2, h3, h4, h5, h6⟩ := h
  unfold XMSS_Parameters_from_string
  have hf : m_oid_name_lut.find? (fun p => p.1 = nm) = none := by
    rw [List.find?_eq_none]
    intro p hp
    fin_cases hp <;> simp only [] <;>
      [skip; skip; skip; skip; skip; skip] <;> simp <;>
      [exact fun hh => h1 hh.symm; exact fun hh => h2 hh.symm;
       exact fun hh => h3 hh.symm; exact fun hh => h4 hh.symm;
       exact fun hh => h5 hh.symm; exact fun hh => h6 hh.symm]
  rw [hf]

/-- C8 witness: the amended statement instantiated at the unsupported
name XMSS_Foo. -/
theorem claim_C8_witness :
    ("XMSS_Foo" ∉ ["XMSS_SHA2-256_W16_H10", "XMSS_SHA2-256_W16_H16",
      "XMSS_SHA2-256_W16_H20", "XMSS_SHA2-512_W16_H10", "XMSS_SHA2-512_W16_H16",
      "XMSS_SHA2-512_W16_H20"]) ∧
    XMSS_Parameters_from_string "XMSS_Foo" = .error .stdOutOfRange :=
  ⟨by decide, claim_C8_parameters_from_string.1 "XMSS_Foo" (by decide)⟩

/-- C8 counterexample: for the unsupported name XMSS_Foo the constructor
fails with `std::out_of_range`, not with `Invalid_Argument` as claimed. -/
theorem claim_C8_counterexample :
    XMSS_Parameters_from_string "XMSS_Foo" = .error .stdOutOfRange ∧
    XMSS_Parameters_from_string "XMSS_Foo" ≠ .error .invalidArgument := by
  refine ⟨rfl, fun hcon => ?_⟩
  rw [show XMSS_Parameters_from_string "XMSS_Foo" = .error .stdOutOfRange from rfl] at hcon
  exact absurd (Except.error.inj hcon) (by decide)

end XMSS
end Botan

namespace Botan

theorem powMod_eq (m b e fuel : Nat) (he : e < 2 ^ fuel) :
    powMod m b e fuel = b ^ e % m := by
  induction fuel generalizing b e with
  | zero =>
    have h0 : e = 0 := by simpa using he
    subst h0
    simp [powMod]
  | succ fuel ih =>
    by_cases he0 : e = 0
    · subst he0; simp [powMod]
    · have h2 : e / 2 < 2 ^ fuel := by
        have hp : (2:Nat) ^ (fuel+1) = 2 * 2 ^ fuel := by ring
        omega
      simp only [powMod, if_neg he0]
      rw [ih _ _ h2]
      have hA : (b * b % m) ^ (e / 2) % m = b ^ (2 * (e / 2)) % m := by
        rw [← Nat.pow_mod, ← pow_two, ← pow_mul]
      by_cases hodd : e % 2 = 1
      · simp only [if_pos hodd]
        rw [hA, Nat.mod_mul_mod, ← pow_succ]
        have h3 : 2 * (e / 2) + 1 = e := by omega
        rw [h3]
      · simp only [if_neg hodd]
        rw [hA]
        have h3 : 2 * (e / 2) = e := by omega
        rw [h3]

theorem zmod_pow_eq_one (fuel : Nat) {n a e : Nat} (he : e < 2 ^ fuel)
    (h : powMod n a e fuel = 1 % n) : (a : ZMod n) ^ e = 1 := by
  have h2 := powMod_eq n a e fuel he
  rw [h] at h2
  have h3 := congrArg (fun x : Nat => (x : ZMod n)) h2
  simpa [ZMod.natCast_mod] using h3.symm

theorem zmod_pow_ne_one (fuel : Nat) {n a e : Nat} (he : e < 2 ^ fuel)
    (h : powMod n a e fuel ≠ 1 % n) : (a : ZMod n) ^ e ≠ 1 := by
  intro hcon
  apply h
  rw [powMod_eq n a e fuel he]
  have h4 : ((a ^ e % n : Nat) : ZMod n) = ((1 % n : Nat) : ZMod n) := by
    rw [ZMod.natCast_mod, ZMod.natCast_mod]
    push_cast
    exact hcon
  have h5 := congrArg ZMod.val h4
  rw [ZMod.val_natCast, ZMod.val_natCast,
    Nat.mod_mod_of_dvd _ (dvd_refl n), Nat.mod_mod_of_dvd _ (dvd_refl n)] at h5
  exact h5

end Botan
namespace Botan

/-- Pocklington-style N−1 primality criterion: if a fully factored divisor
`F` of `N − 1` satisfies `F² > N` and every prime `q` of `F` has a witness
`a` with `a^(N−1) ≡ 1 (mod N)` and `gcd(a^((N−1)/q) − 1, N) = 1`, then `N`
is prime. -/
theorem pocklington (N F : Nat) (hN : 2 ≤ N) (hFdvd : F ∣ N - 1) (hF0 : 0 < F)
    (hFF : N < F * F)
    (hw : ∀ q : Nat, q.Prime → q ∣ F →
      ∃ a : Nat, (a : ZMod N) ^ (N - 1) = 1 ∧
        Nat.gcd ((a ^ ((N - 1) / q) % N + (N - 1)) % N) N = 1) :
    N.Prime := by
  by_contra hnp
  have hrp : (N.minFac).Prime := Nat.minFac_prime (by omega : N ≠ 1)
  set r := N.minFac with hrdef
  have hrdvd : r ∣ N := Nat.minFac_dvd N
  have hrsq : r * r ≤ N := by
    have h := Nat.minFac_sq_le_self (by omega : 0 < N) hnp
    rwa [pow_two] at h
  have hN1 : N - 1 ≠ 0 := by omega
  have hr2 : 2 ≤ r := hrp.two_le
  have hr1 : r - 1 ≠ 0 := by omega
  haveI : Fact r.Prime := ⟨hrp⟩
  haveI : Fact (1 < r) := ⟨hrp.one_lt⟩
  have key : F ∣ r - 1 := by
    rw [← Nat.factorization_le_iff_dvd (by omega : F ≠ 0) hr1, Finsupp.le_def]
    intro q
    by_cases hq0 : F.factorization q = 0
    · simp [hq0]
    · have hqmem : q ∈ F.primeFactors := by
        rw [← Nat.support_factorization]
        exact Finsupp.mem_support_iff.mpr hq0
      have hqp : q.Prime := Nat.prime_of_mem_primeFactors hqmem
      have hqF : q ∣ F := Nat.dvd_of_mem_primeFactors hqmem
      obtain ⟨a, ha1, hgcd⟩ := hw q hqp hqF
      have hqN1 : q ∣ N - 1 := hqF.trans hFdvd
      -- transfer the witness into ZMod r
      have hα1 : (a : ZMod r) ^ (N - 1) = 1 := by
        have h := congrArg (ZMod.castHom hrdvd (ZMod r)) ha1
        rw [map_pow, map_natCast, map_one] at h
        exact h
      have hα0 : (a : ZMod r) ≠ 0 := by
        intro h0
        rw [h0, zero_pow hN1] at hα1
        exact zero_ne_one hα1
      have hd1 : orderOf (a : ZMod r) ∣ N - 1 := orderOf_dvd_of_pow_eq_one hα1
      have hd0 : orderOf (a : ZMod r) ≠ 0 := by
        intro h0
        rw [h0] at hd1
        exact hN1 (Nat.eq_zero_of_zero_dvd hd1)
      have hdr : orderOf (a : ZMod r) ∣ r - 1 :=
        orderOf_dvd_of_pow_eq_one (ZMod.pow_card_sub_one_eq_one hα0)
      -- the order does not divide (N-1)/q
      have hndvd : ¬ orderOf (a : ZMod r) ∣ (N - 1) / q := by
        intro hd
        have hpow1 : (a : ZMod r) ^ ((N - 1) / q) = 1 := orderOf_dvd_iff_pow_eq_one.mp hd
        have hmodcast : ∀ x : Nat, ((x % N : Nat) : ZMod r) = (x : ZMod r) := by
          intro x
          have h7 : ((x % N + N * (x / N) : Nat) : ZMod r) = ((x : Nat) : ZMod r) := by
            rw [Nat.mod_add_div]
          push_cast at h7
          rw [(ZMod.natCast_zmod_eq_zero_iff_dvd N r).mpr hrdvd] at h7
          simpa using h7
        have hG : (((a ^ ((N - 1) / q) % N + (N - 1)) % N : Nat) : ZMod r) = 0 := by
          rw [hmodcast]
          push_cast
          rw [hmodcast]
          push_cast
          rw [hpow1]
          have hNm1 : ((N - 1 : Nat) : ZMod r) = -1 := by
            have hsum : ((N - 1 : Nat) : ZMod r) + 1 = 0 := by
              have h9 : ((N - 1 + 1 : Nat) : ZMod r) = 0 := by
                rw [show N - 1 + 1 = N from by omega]
                exact (ZMod.natCast_zmod_eq_zero_iff_dvd N r).mpr hrdvd
              rw [← h9]
              push_cast
              ring
            exact eq_neg_of_add_eq_zero_left hsum
          rw [hNm1]
          ring
        have hrG : r ∣ Nat.gcd ((a ^ ((N - 1) / q) % N + (N - 1)) % N) N :=
          Nat.dvd_gcd ((ZMod.natCast_zmod_eq_zero_iff_dvd _ r).mp hG) hrdvd
        rw [hgcd] at hrG
        exact Nat.Prime.one_lt hrp |>.ne' (Nat.dvd_one.mp hrG)
      -- hence q^(v_q(N-1)) divides the order
      have hkle : (N - 1).factorization q ≤ (orderOf (a : ZMod r)).factorization q := by
        by_contra hlt
        push_neg at hlt
        apply hndvd
        have hq1 : (N - 1) / q ≠ 0 := by
          have := Nat.le_of_dvd (by omega) hqN1
          have := Nat.div_pos this hqp.pos
          omega
        rw [← Nat.factorization_le_iff_dvd hd0 hq1, Finsupp.le_def]
        intro p
        rw [Nat.factorization_div hqN1]
        rw [Finsupp.tsub_apply]
        have hdle : (orderOf (a : ZMod r)).factorization ≤ (N - 1).factorization :=
          (Nat.factorization_le_iff_dvd hd0 hN1).mpr hd1
        have hdlep := Finsupp.le_def.mp hdle p
        by_cases hpq : p = q
        · subst hpq
          rw [hqp.factorization]
          simp only [Finsupp.single_eq_same]
          omega
        · rw [hqp.factorization, Finsupp.single_eq_of_ne (fun h => hpq h.symm)]
          omega
      have hqk : q ^ ((N - 1).factorization q) ∣ r - 1 :=
        dvd_trans ((Nat.Prime.pow_dvd_iff_le_factorization hqp hd0).mpr hkle) hdr
      have hFle : F.factorization q ≤ (N - 1).factorization q :=
        Finsupp.le_def.mp ((Nat.factorization_le_iff_dvd (by omega) hN1).mpr hFdvd) q
      have := (Nat.Prime.pow_dvd_iff_le_factorization hqp hr1).mp hqk
      omega
  have hFler : F ≤ r - 1 := Nat.le_of_dvd (by omega) key
  have hmul : F * F ≤ (r - 1) * (r - 1) := Nat.mul_le_mul hFler hFler
  obtain ⟨s, hs⟩ : ∃ s, r = s + 1 := ⟨r - 1, by omega⟩
  have hmul2 : F * F ≤ s * s := by
    rw [hs] at hmul
    simpa using hmul
  have hrsq2 : (s + 1) * (s + 1) ≤ N := by
    rw [hs] at hrsq
    exact hrsq
  nlinarith [hmul2, hrsq2, hFF]

end Botan
namespace Botan

theorem prime_1609403 : Nat.Prime 1609403 := by norm_num

theorem prime_217003 : Nat.Prime 217003 := by norm_num

theorem prime_411743 : Nat.Prime 411743 := by norm_num

theorem prime_3402277943 : Nat.Prime 3402277943 := by
  refine lucas_primality 3402277943 ((5 : Nat) : ZMod 3402277943) ?_ ?_
  · exact zmod_pow_eq_one 64 (by norm_num) (by decide)
  · intro q hq hqdvd
    have h1 : (3402277943 - 1 : Nat) = 2 * (7 * (151 * 1609403)) := by norm_num
    rw [h1] at hqdvd
    have hcases : q = 2 ∨ q = 7 ∨ q = 151 ∨ q = 1609403 := by
      rcases (Nat.Prime.dvd_mul hq).mp hqdvd with h | h
      · exact Or.inl ((Nat.prime_dvd_prime_iff_eq hq (by norm_num)).mp h)
      rcases (Nat.Prime.dvd_mul hq).mp h with h | h
      · exact Or.inr (Or.inl ((Nat.prime_dvd_prime_iff_eq hq (by norm_num)).mp h))
      rcases (Nat.Prime.dvd_mul hq).mp h with h | h
      · exact Or.inr (Or.inr (Or.inl ((Nat.prime_dvd_prime_iff_eq hq (by norm_num)).mp h)))
      · exact Or.inr (Or.inr (Or.inr ((Nat.prime_dvd_prime_iff_eq hq prime_1609403).mp h)))
    rcases hcases with rfl | rfl | rfl | rfl <;>
      exact zmod_pow_ne_one 64 (by norm_num) (by decide)

end Botan
namespace Botan

theorem prime_1764234391 : Nat.Prime 1764234391 := by
  refine lucas_primality 1764234391 ((3 : Nat) : ZMod 1764234391) ?_ ?_
  · exact zmod_pow_eq_one 64 (by norm_num) (by decide)
  · intro q hq hqdvd
    have h1 : (1764234391 - 1 : Nat) = 2 * (3 * (5 * (271 * 217003))) := by norm_num
    rw [h1] at hqdvd
    have hcases : q = 2 ∨ q = 3 ∨ q = 5 ∨ q = 271 ∨ q = 217003 := by
      rcases (Nat.Prime.dvd_mul hq).mp hqdvd with h | h
      · exact Or.inl ((Nat.prime_dvd_prime_iff_eq hq (by norm_num)).mp h)
      rcases (Nat.Prime.dvd_mul hq).mp h with h | h
      · exact Or.inr (Or.inl ((Nat.prime_dvd_prime_iff_eq hq (by norm_num)).mp h))
      rcases (Nat.Prime.dvd_mul hq).mp h with h | h
      · exact Or.inr (Or.inr (Or.inl ((Nat.prime_dvd_prime_iff_eq hq (by norm_num)).mp h)))
      rcases (Nat.Prime.dvd_mul hq).mp h with h | h
      · exact Or.inr (Or.inr (Or.inr (Or.inl ((Nat.prime_dvd_prime_iff_eq hq
          (by norm_num)).mp h))))
      · exact Or.inr (Or.inr (Or.inr (Or.inr ((Nat.prime_dvd_prime_iff_eq hq
          prime_217003).mp h))))
    rcases hcases with rfl | rfl | rfl | rfl | rfl <;>
      exact zmod_pow_ne_one 64 (by norm_num) (by decide)

theorem prime_34741861125639557 : Nat.Prime 34741861125639557 := by
  refine lucas_primality 34741861125639557 ((13 : Nat) : ZMod 34741861125639557) ?_ ?_
  · exact zmod_pow_eq_one 64 (by norm_num) (by decide)
  · intro q hq hqdvd
    have h1 : (34741861125639557 - 1 : Nat) = 2 ^ 2 * (7 ^ 3 * (31 * (463 * 1764234391))) := by
      norm_num
    rw [h1] at hqdvd
    have hcases : q = 2 ∨ q = 7 ∨ q = 31 ∨ q = 463 ∨ q = 1764234391 := by
      rcases (Nat.Prime.dvd_mul hq).mp hqdvd with h | h
      · exact Or.inl ((Nat.prime_dvd_prime_iff_eq hq (by norm_num)).mp
          (hq.dvd_of_dvd_pow h))
      rcases (Nat.Prime.dvd_mul hq).mp h with h | h
      · exact Or.inr (Or.inl ((Nat.prime_dvd_prime_iff_eq hq (by norm_num)).mp
          (hq.dvd_of_dvd_pow h)))
      rcases (Nat.Prime.dvd_mul hq).mp h with h | h
      · exact Or.inr (Or.inr (Or.inl ((Nat.prime_dvd_prime_iff_eq hq (by norm_num)).mp h)))
      rcases (Nat.Prime.dvd_mul hq).mp h with h | h
      · exact Or.inr (Or.inr (Or.inr (Or.inl ((Nat.prime_dvd_prime_iff_eq hq
          (by norm_num)).mp h))))
      · exact Or.inr (Or.inr (Or.inr (Or.inr ((Nat.prime_dvd_prime_iff_eq hq
          prime_1764234391).mp h))))
    rcases hcases with rfl | rfl | rfl | rfl | rfl <;>
      exact zmod_pow_ne_one 64 (by norm_num) (by decide)

theorem prime_36131535570665139281 : Nat.Prime 36131535570665139281 := by
  refine lucas_primality 36131535570665139281 ((3 : Nat) : ZMod 36131535570665139281) ?_ ?_
  · exact zmod_pow_eq_one 70 (by norm_num) (by decide)
  · intro q hq hqdvd
    have h1 : (36131535570665139281 - 1 : Nat) =
        2 ^ 4 * (5 * (13 * 34741861125639557)) := by norm_num
    rw [h1] at hqdvd
    have hcases : q = 2 ∨ q = 5 ∨ q = 13 ∨ q = 34741861125639557 := by
      rcases (Nat.Prime.dvd_mul hq).mp hqdvd with h | h
      · exact Or.inl ((Nat.prime_dvd_prime_iff_eq hq (by norm_num)).mp
          (hq.dvd_of_dvd_pow h))
      rcases (Nat.Prime.dvd_mul hq).mp h with h | h
      · exact Or.inr (Or.inl ((Nat.prime_dvd_prime_iff_eq hq (by norm_num)).mp h))
      rcases (Nat.Prime.dvd_mul hq).mp h with h | h
      · exact Or.inr (Or.inr (Or.inl ((Nat.prime_dvd_prime_iff_eq hq (by norm_num)).mp h)))
      · exact Or.inr (Or.inr (Or.inr ((Nat.prime_dvd_prime_iff_eq hq
          prime_34741861125639557).mp h)))
    rcases hcases with rfl | rfl | rfl | rfl <;>
      exact zmod_pow_ne_one 70 (by norm_num) (by decide)

theorem prime_596242599987116128415063 : Nat.Prime 596242599987116128415063 := by
  refine lucas_primality 596242599987116128415063
    ((5 : Nat) : ZMod 596242599987116128415063) ?_ ?_
  · exact zmod_pow_eq_one 80 (by norm_num) (by decide)
  · intro q hq hqdvd
    have h1 : (596242599987116128415063 - 1 : Nat) =
        2 * (37 * (223 * 36131535570665139281)) := by norm_num
    rw [h1] at hqdvd
    have hcases : q = 2 ∨ q = 37 ∨ q = 223 ∨ q = 36131535570665139281 := by
      rcases (Nat.Prime.dvd_mul hq).mp hqdvd with h | h
      · exact Or.inl ((Nat.prime_dvd_prime_iff_eq hq (by norm_num)).mp h)
      rcases (Nat.Prime.dvd_mul hq).mp h with h | h
      · exact Or.inr (Or.inl ((Nat.prime_dvd_prime_iff_eq hq (by norm_num)).mp h))
      rcases (Nat.Prime.dvd_mul hq).mp h with h | h
      · exact Or.inr (Or.inr (Or.inl ((Nat.prime_dvd_prime_iff_eq hq (by norm_num)).mp h)))
      · exact Or.inr (Or.inr (Or.inr ((Nat.prime_dvd_prime_iff_eq hq
          prime_36131535570665139281).mp h)))
    rcases hcases with rfl | rfl | rfl | rfl <;>
      exact zmod_pow_ne_one 80 (by norm_num) (by decide)

theorem prime_1469495262398780123809 : Nat.Prime 1469495262398780123809 := by
  refine lucas_primality 1469495262398780123809
    ((17 : Nat) : ZMod 1469495262398780123809) ?_ ?_
  · exact zmod_pow_eq_one 80 (by norm_num) (by decide)
  · intro q hq hqdvd
    have h1 : (1469495262398780123809 - 1 : Nat) =
        2 ^ 5 * (3 * (7 ^ 2 * (223 * (411743 * 3402277943)))) := by norm_num
    rw [h1] at hqdvd
    have hcases : q = 2 ∨ q = 3 ∨ q = 7 ∨ q = 223 ∨ q = 411743 ∨ q = 3402277943 := by
      rcases (Nat.Prime.dvd_mul hq).mp hqdvd with h | h
      · exact Or.inl ((Nat.prime_dvd_prime_iff_eq hq (by norm_num)).mp
          (hq.dvd_of_dvd_pow h))
      rcases (Nat.Prime.dvd_mul hq).mp h with h | h
      · exact Or.inr (Or.inl ((Nat.prime_dvd_prime_iff_eq hq (by norm_num)).mp h))
      rcases (Nat.Prime.dvd_mul hq).mp h with h | h
      · exact Or.inr (Or.inr (Or.inl ((Nat.prime_dvd_prime_iff_eq hq (by norm_num)).mp
          (hq.dvd_of_dvd_pow h))))
      rcases (Nat.Prime.dvd_mul hq).mp h with h | h
      · exact Or.inr (Or.inr (Or.inr (Or.inl ((Nat.prime_dvd_prime_iff_eq hq
          (by norm_num)).mp h))))
      rcases (Nat.Prime.dvd_mul hq).mp h with h | h
      · exact Or.inr (Or.inr (Or.inr (Or.inr (Or.inl ((Nat.prime_dvd_prime_iff_eq hq
          prime_411743).mp h)))))
      · exact Or.inr (Or.inr (Or.inr (Or.inr (Or.inr ((Nat.prime_dvd_prime_iff_eq hq
          prime_3402277943).mp h)))))
    rcases hcases with rfl | rfl | rfl | rfl | rfl | rfl <;>
      exact zmod_pow_ne_one 80 (by norm_num) (by decide)

end Botan
namespace Botan

/-- The Ed448 field modulus `p = 2^448 − 2^224 − 1` is prime, by the
Pocklington criterion with `F = 2 · 641 · (2^223 − 1)`. -/
theorem p448_prime : Nat.Prime p448 := by
  apply pocklington p448 (2 * 641 * (2 ^ 223 - 1))
  · norm_num [p448]
  · exact ⟨(p448 - 1) / (2 * 641 * (2 ^ 223 - 1)), by decide⟩
  · norm_num
  · decide
  · intro q hq hqdvd
    have h1 : 2 * 641 * (2 ^ 223 - 1) =
        2 * (641 * (18287 * (196687 * (1466449 * (2916841 *
          (1469495262398780123809 * 596242599987116128415063)))))) := by norm_num
    rw [h1] at hqdvd
    have hcases : q = 2 ∨ q = 641 ∨ q = 18287 ∨ q = 196687 ∨ q = 1466449 ∨
        q = 2916841 ∨ q = 1469495262398780123809 ∨ q = 596242599987116128415063 := by
      rcases (Nat.Prime.dvd_mul hq).mp hqdvd with h | h
      · exact Or.inl ((Nat.prime_dvd_prime_iff_eq hq (by norm_num)).mp h)
      rcases (Nat.Prime.dvd_mul hq).mp h with h | h
      · exact Or.inr (Or.inl ((Nat.prime_dvd_prime_iff_eq hq (by norm_num)).mp h))
      rcases (Nat.Prime.dvd_mul hq).mp h with h | h
      · exact Or.inr (Or.inr (Or.inl ((Nat.prime_dvd_prime_iff_eq hq (by norm_num)).mp h)))
      rcases (Nat.Prime.dvd_mul hq).mp h with h | h
      · exact Or.inr (Or.inr (Or.inr (Or.inl ((Nat.prime_dvd_prime_iff_eq hq
          (by norm_num)).mp h))))
      rcases (Nat.Prime.dvd_mul hq).mp h with h | h
      · exact Or.inr (Or.inr (Or.inr (Or.inr (Or.inl ((Nat.prime_dvd_prime_iff_eq hq
          (by norm_num)).mp h)))))
      rcases (Nat.Prime.dvd_mul hq).mp h with h | h
      · exact Or.inr (Or.inr (Or.inr (Or.inr (Or.inr (Or.inl ((Nat.prime_dvd_prime_iff_eq hq
          (by norm_num)).mp h))))))
      rcases (Nat.Prime.dvd_mul hq).mp h with h | h
      · exact Or.inr (Or.inr (Or.inr (Or.inr (Or.inr (Or.inr (Or.inl
          ((Nat.prime_dvd_prime_iff_eq hq prime_1469495262398780123809).mp h)))))))
      · exact Or.inr (Or.inr (Or.inr (Or.inr (Or.inr (Or.inr (Or.inr
          ((Nat.prime_dvd_prime_iff_eq hq prime_596242599987116128415063).mp h)))))))
    have hb : p448 - 1 < 2 ^ 460 := by norm_num [p448]
    rcases hcases with rfl | rfl | rfl | rfl | rfl | rfl | rfl | rfl
    · exact ⟨7, zmod_pow_eq_one 460 hb (by decide), by
        rw [← powMod_eq p448 7 ((p448 - 1) / 2) 460 (by norm_num [p448])]
        decide⟩
    · exact ⟨2, zmod_pow_eq_one 460 hb (by decide), by
        rw [← powMod_eq p448 2 ((p448 - 1) / 641) 460 (by norm_num [p448])]
        decide⟩
    · exact ⟨2, zmod_pow_eq_one 460 hb (by decide), by
        rw [← powMod_eq p448 2 ((p448 - 1) / 18287) 460 (by norm_num [p448])]
        decide⟩
    · exact ⟨2, zmod_pow_eq_one 460 hb (by decide), by
        rw [← powMod_eq p448 2 ((p448 - 1) / 196687) 460 (by norm_num [p448])]
        decide⟩
    · exact ⟨2, zmod_pow_eq_one 460 hb (by decide), by
        rw [← powMod_eq p448 2 ((p448 - 1) / 1466449) 460 (by norm_num [p448])]
        decide⟩
    · exact ⟨2, zmod_pow_eq_one 460 hb (by decide), by
        rw [← powMod_eq p448 2 ((p448 - 1) / 2916841) 460 (by norm_num [p448])]
        decide⟩
    · exact ⟨2, zmod_pow_eq_one 460 hb (by decide), by
        rw [← powMod_eq p448 2 ((p448 - 1) / 1469495262398780123809) 460
          (by norm_num [p448])]
        decide⟩
    · exact ⟨2, zmod_pow_eq_one 460 hb (by decide), by
        rw [← powMod_eq p448 2 ((p448 - 1) / 596242599987116128415063) 460
          (by norm_num [p448])]
        decide⟩

end Botan

namespace Botan
namespace Ed448

theorem decode_error_eq {enc : List Nat} {e : ErrKind}
    (h : decode enc = .error e) : e = .decodingError := by
  unfold decode at h
  split at h
  · cases h; rfl
  · simp only [] at h
    split at h
    · cases h; rfl
    · split at h
      · cases h; rfl
      · split at h
        · cases h; rfl
        · cases h

/-- C7: `dom4(x, y)` returns exactly
`"SigEd448" || octet(x) || octet(|y|) || y` (length `10 + |y|`) for
`|y| < 256` and raises `Invalid_Argument` for `|y| ≥ 256`; consequently
`sign_message` succeeds exactly when the context is shorter than 256
bytes, and `verify_signature` never returns a result for a 256-byte
context while a context below 256 bytes is never rejected with
`Invalid_Argument`. -/
theorem claim_C7_dom4 :
    (∀ (x : Nat) (y : List Nat), y.length < 256 →
      dom4 x y = .ok ([0x53, 0x69, 0x67, 0x45, 0x64, 0x34, 0x34, 0x38] ++
        [x] ++ [y.length] ++ y) ∧
      ∀ d, dom4 x y = .ok d → d.length = 10 + y.length) ∧
    (∀ (x : Nat) (y : List Nat), 256 ≤ y.length →
      dom4 x y = .error .invalidArgument) ∧
    (∀ (xof : XofStream) (sk pk : List Nat) (f : Bool) (c m : List Nat),
      (sign_message xof sk pk f c m).isOk ↔ c.length < 256) ∧
    (∀ (xof : XofStream) (pk : List Nat) (f : Bool) (c sig m : List Nat),
      256 ≤ c.length → ∀ b, verify_signature xof pk f c sig m ≠ .ok b) ∧
    (∀ (xof : XofStream) (pk : List Nat) (f : Bool) (c sig m : List Nat),
      c.length < 256 → verify_signature xof pk f c sig m ≠ .error .invalidArgument) := by
  refine ⟨?_, ?_, ?_, ?_, ?_⟩
  · intro x y hy
    refine ⟨by simp [dom4, hy], fun d hd => ?_⟩
    rw [dom4, if_pos hy] at hd
    cases hd
    simp
    omega
  · intro x y hy
    rw [dom4, if_neg (by omega)]
  · intro xof sk pk f c m
    by_cases hc : c.length < 256
    · simp [sign_message, shake, dom4, hc, Except.isOk, Except.toBool, Except.map]
    · simp [sign_message, shake, dom4, hc, Except.isOk, Except.toBool, Except.map]
  · intro xof pk f c sig m hc b
    unfold verify_signature
    split
    · simp
    · cases hdec : decode (sig.take 57) with
      | error e => simp [hdec]
      | ok R =>
        simp only [hdec]
        split
        · simp
        · have hsh : shake xof f c [sig.take 57, pk, m] = .error .invalidArgument := by
            simp [shake, dom4, show ¬ c.length < 256 by omega, Except.map]
          rw [hsh]
          simp
  · intro xof pk f c sig m hc
    unfold verify_signature
    split
    · simp
    · cases hdec : decode (sig.take 57) with
      | error e =>
        have he := decode_error_eq hdec
        simp [hdec, he]
      | ok R =>
        simp only [hdec]
        split
        · simp
        · have hsh : shake xof f c [sig.take 57, pk, m] =
              .ok ((List.range 114).map (xof (([0x53, 0x69, 0x67, 0x45, 0x64, 0x34,
                0x34, 0x38] ++ [if f then 1 else 0] ++ [c.length] ++ c) ++
                  [sig.take 57, pk, m].flatten))) := by
            simp [shake, dom4, hc, Except.map]
          rw [hsh]
          cases hdec2 : decode pk with
          | error e =>
            have he := decode_error_eq hdec2
            simp [hdec2, he]
          | ok P => simp [hdec2]

end Ed448
end Botan

namespace Botan
namespace Ed448

/-- C7 witness: the dom4 component instantiated at `x = 0`, `y = [7]`. -/
theorem claim_C7_witness :
    ([7] : List Nat).length < 256 ∧
    (dom4 0 [7] = .ok ([0x53, 0x69, 0x67, 0x45, 0x64, 0x34, 0x34, 0x38] ++
        [0] ++ [([7] : List Nat).length] ++ [7]) ∧
      ∀ d, dom4 0 [7] = .ok d → d.length = 10 + ([7] : List Nat).length) :=
  ⟨by decide, claim_C7_dom4.1 0 [7] (by decide)⟩

end Ed448
end Botan

namespace Botan

instance : NeZero p448 := ⟨by norm_num [p448]⟩

namespace Ed448

theorem zmod_pow_val {n : Nat} [NeZero n] (x : ZMod n) (e fuel : Nat)
    (he : e < 2 ^ fuel) : x ^ e = ((powMod n x.val e fuel : Nat) : ZMod n) := by
  rw [powMod_eq n x.val e fuel he, ZMod.natCast_mod]
  push_cast
  rw [ZMod.natCast_val, ZMod.cast_id]

theorem root_eq (x : Gf448Elem) : root x = x ^ ((p448 - 3) / 4) := by
  unfold root
  rw [zmod_pow_val x ((p448 - 3) / 4) 460 (by norm_num [p448])]

theorem inverse_eq (x : Gf448Elem) : inverse x = x ^ (p448 - 2) := by
  unfold inverse
  rw [zmod_pow_val x (p448 - 2) 460 (by norm_num [p448])]

theorem fermat {x : Gf448Elem} (hx : x ≠ 0) : x ^ (p448 - 1) = 1 := by
  haveI : Fact (Nat.Prime p448) := ⟨p448_prime⟩
  exact ZMod.pow_card_sub_one_eq_one hx

theorem inverse_mul {x : Gf448Elem} (hx : x ≠ 0) : x * inverse x = 1 := by
  rw [inverse_eq]
  have h : p448 - 2 + 1 = p448 - 1 := by norm_num [p448]
  rw [← pow_succ', h, fermat hx]

theorem cast_p448_sub_one : ((p448 - 1 : Nat) : Gf448Elem) = -1 := by
  apply eq_neg_of_add_eq_zero_left
  have h9 : ((p448 - 1 + 1 : Nat) : Gf448Elem) = 0 := by
    rw [show p448 - 1 + 1 = p448 from by norm_num [p448]]
    exact (ZMod.natCast_zmod_eq_zero_iff_dvd p448 p448).mpr dvd_rfl
  rw [← h9]
  push_cast
  ring

theorem two_ne_zero_gf : (2 : Gf448Elem) ≠ 0 := by
  intro h2
  have h3 : ((2 : Nat) : Gf448Elem) = 0 := by push_cast; exact h2
  rw [ZMod.natCast_zmod_eq_zero_iff_dvd] at h3
  have := Nat.le_of_dvd (by norm_num) h3
  norm_num [p448] at this

theorem dconst_ne_zero : dconst ≠ 0 := by
  unfold dconst MINUS_D
  intro h
  have h2 : ((39081 : Nat) : ZMod p448) = 0 := by
    have h3 := congrArg Neg.neg h
    simpa using h3
  rw [ZMod.natCast_zmod_eq_zero_iff_dvd] at h2
  have := Nat.le_of_dvd (by norm_num) h2
  norm_num [p448] at this

theorem dconst_euler : dconst ^ ((p448 - 1) / 2) = -1 := by
  rw [zmod_pow_val dconst ((p448 - 1) / 2) 460 (by norm_num [p448])]
  have hval : dconst.val = p448 - 39081 := by decide
  rw [hval]
  rw [show powMod p448 (p448 - 39081) ((p448 - 1) / 2) 460 = p448 - 1 from by decide]
  exact cast_p448_sub_one

theorem dconst_not_square : ¬ ∃ t : Gf448Elem, t ^ 2 = dconst := by
  rintro ⟨t, ht⟩
  have ht0 : t ≠ 0 := by
    intro h0
    rw [h0] at ht
    simp at ht
    exact dconst_ne_zero ht.symm
  have hcontra : t ^ (p448 - 1) = -1 := by
    have hexp : p448 - 1 = 2 * ((p448 - 1) / 2) := by norm_num [p448]
    rw [hexp, pow_mul, ht, dconst_euler]
  rw [fermat ht0] at hcontra
  exact two_ne_zero_gf (by linear_combination hcontra)

theorem decode_v_ne_zero (y : Gf448Elem) : decode_v y ≠ 0 := by
  intro hv
  unfold decode_v square at hv
  by_cases hy : y = 0
  · rw [hy] at hv
    have h3 : ((1 : Nat) : Gf448Elem) = 0 := by
      push_cast
      linear_combination -hv
    rw [ZMod.natCast_zmod_eq_zero_iff_dvd] at h3
    have h4 := Nat.le_of_dvd (by norm_num) h3
    norm_num [p448] at h4
  · apply dconst_not_square
    refine ⟨inverse y, ?_⟩
    have h1 : dconst * (y * y) = 1 := by linear_combination hv
    have h2 : y * inverse y = 1 := inverse_mul hy
    calc inverse y ^ 2 = dconst * (y * y) * inverse y ^ 2 := by rw [h1]; ring
    _ = dconst * (y * inverse y) * (y * inverse y) := by ring
    _ = dconst := by rw [h2]; ring

end Ed448
end Botan
namespace Botan
namespace Ed448

theorem pow_p448_sub_one_helper {x : Gf448Elem} (hx : x ≠ 0) :
    x ^ (4 * ((p448 - 3) / 4) + 2) = 1 := by
  rw [show 4 * ((p448 - 3) / 4) + 2 = p448 - 1 from by norm_num [p448]]
  exact fermat hx

theorem candidate_algebra (u v s : Gf448Elem) (hu : u ≠ 0) (hv : v ≠ 0) (hs : s ≠ 0)
    (huv : u * v = s ^ 2) :
    v * (u ^ 3 * v * (u ^ 5 * v ^ 3) ^ ((p448 - 3) / 4)) ^ 2 = u := by
  have h1u := pow_p448_sub_one_helper hu
  have h1v := pow_p448_sub_one_helper hv
  have h1s := pow_p448_sub_one_helper hs
  calc v * (u ^ 3 * v * (u ^ 5 * v ^ 3) ^ ((p448 - 3) / 4)) ^ 2
      = (u * (u * v) ^ (2 * ((p448 - 3) / 4) + 1)) *
        ((u ^ (4 * ((p448 - 3) / 4) + 2)) ^ 2 * v ^ (4 * ((p448 - 3) / 4) + 2)) := by
        ring
    _ = (u * (s ^ 2) ^ (2 * ((p448 - 3) / 4) + 1)) * (1 ^ 2 * 1) := by
        rw [huv, h1u, h1v]
    _ = u * s ^ (4 * ((p448 - 3) / 4) + 2) := by ring
    _ = u := by rw [h1s]; ring

theorem decode_candidate_eq (y : Gf448Elem) :
    decode_candidate y = (decode_u y) ^ 3 * decode_v y *
      ((decode_u y) ^ 5 * (decode_v y) ^ 3) ^ ((p448 - 3) / 4) := by
  simp only [decode_candidate]
  rw [root_eq]
  rw [show (square (square (decode_u y)) * decode_u y) * square (decode_v y) *
    decode_v y = (decode_u y) ^ 5 * (decode_v y) ^ 3 from by unfold square; ring]
  unfold square
  ring

theorem candidate_correct (y : Gf448Elem)
    (hex : ∃ x : Gf448Elem, decode_v y * square x = decode_u y) :
    decode_v y * square (decode_candidate y) = decode_u y := by
  haveI : Fact (Nat.Prime p448) := ⟨p448_prime⟩
  rw [decode_candidate_eq]
  have hv := decode_v_ne_zero y
  by_cases hu : decode_u y = 0
  · rw [hu]
    simp [square]
  · obtain ⟨x, hx⟩ := hex
    have hx0 : x ≠ 0 := by
      intro h0
      rw [h0] at hx
      unfold square at hx
      rw [mul_zero] at hx
      simp at hx
      exact hu hx.symm
    have huv : decode_u y * decode_v y = (x * decode_v y) ^ 2 := by
      unfold square at hx
      linear_combination (-(decode_v y)) * hx
    simp only [square, ← pow_two]
    exact candidate_algebra _ _ _ hu hv (mul_ne_zero hx0 hv) huv

end Ed448
end Botan
namespace Botan
namespace Ed448

/-- C4 counterexample: at `y = 2` the candidate root the code computes
differs from the specification's formula `(u v) · (u^5 v^3)^((p−3)/4)`. -/
theorem claim_C4_counterexample :
    decode_candidate (2 : Gf448Elem) ≠ decode_candidate_spec (2 : Gf448Elem) := by
  decide

/-- C4 (amended): in Ed448 point decoding the candidate x-coordinate is
computed as `x = u³ · v · (u^5 v^3)^((p−3)/4)` in GF(p), with
`u = y² − 1` and `v = d·y² − 1`; the value the code assigns to the
candidate root equals this formula for every input `y`. -/
theorem claim_C4_candidate_formula (y : Gf448Elem) :
    decode_candidate y = (decode_u y) ^ 3 * decode_v y *
      ((decode_u y) ^ 5 * (decode_v y) ^ 3) ^ ((p448 - 3) / 4) :=
  decode_candidate_eq y

end Ed448
end Botan
namespace Botan
namespace Ed448

theorem fromBytesLE_div_mod (b : List Nat) (hb : ∀ x ∈ b, x < 256) (i : Nat)
    (hi : i < b.length) : fromBytesLE b / 2 ^ (8 * i) % 256 = b.getD i 0 := by
  induction b generalizing i with
  | nil => simp at hi
  | cons x rest ih =>
    have hx : x < 256 := hb x (List.mem_cons_self x rest)
    cases i with
    | zero =>
      simp only [fromBytesLE, Nat.mul_zero, pow_zero, Nat.div_one, List.getD_cons_zero]
      omega
    | succ i =>
      have h1 : (8 * (i + 1)) = 8 + 8 * i := by ring
      rw [h1, pow_add, show (2:Nat)^8 = 256 from by norm_num]
      simp only [fromBytesLE, List.getD_cons_succ]
      rw [← Nat.div_div_eq_div_mul]
      have h2 : (x + 256 * fromBytesLE rest) / 256 = fromBytesLE rest := by omega
      rw [h2]
      exact ih (fun z hz => hb z (List.mem_cons_of_mem x hz)) i (by simpa using hi)

theorem toBytesLE_fromBytesLE (b : List Nat) (hb : ∀ x ∈ b, x < 256) :
    toBytesLE b.length (fromBytesLE b) = b := by
  apply List.ext_getElem (by simp [toBytesLE])
  intro i h1 h2
  simp only [toBytesLE, List.getElem_map, List.getElem_range]
  rw [fromBytesLE_div_mod b hb i h2]
  simp [List.getD_eq_getElem?_getD, List.getElem?_eq_getElem h2]

theorem fromBytesLE_lt (b : List Nat) (hb : ∀ x ∈ b, x < 256) :
    fromBytesLE b < 256 ^ b.length := by
  induction b with
  | nil => simp [fromBytesLE]
  | cons x rest ih =>
    have hx : x < 256 := hb x (List.mem_cons_self x rest)
    have hr := ih (fun z hz => hb z (List.mem_cons_of_mem x hz))
    simp only [fromBytesLE, List.length_cons, pow_succ]
    calc x + 256 * fromBytesLE rest < 256 + 256 * fromBytesLE rest := by omega
    _ ≤ 256 * (fromBytesLE rest + 1) := by ring_nf; omega
    _ ≤ 256 * 256 ^ rest.length := by
        have : fromBytesLE rest + 1 ≤ 256 ^ rest.length := hr
        exact Nat.mul_le_mul_left 256 this
    _ = 256 ^ rest.length * 256 := by ring

theorem inverse_one : inverse (1 : Gf448Elem) = 1 := by
  rw [inverse_eq, one_pow]

theorem xAff_affine (x y : Gf448Elem) : xAff ⟨x, y, 1⟩ = x := by
  unfold xAff
  simp [inverse_one]

theorem yAff_affine (x y : Gf448Elem) : yAff ⟨x, y, 1⟩ = y := by
  unfold yAff
  simp [inverse_one]

theorem val_neg_parity {m : Gf448Elem} (hm : m ≠ 0) :
    (-m).val % 2 = 1 - m.val % 2 := by
  haveI : Fact (Nat.Prime p448) := ⟨p448_prime⟩
  have h1 : (-m).val = p448 - m.val := by
    rw [ZMod.neg_val m, if_neg hm]
  have h2 : m.val < p448 := ZMod.val_lt m
  have h3 : m.val ≠ 0 := fun h0 => hm ((ZMod.val_eq_zero m).mp h0)
  have h4 : p448 % 2 = 1 := by norm_num [p448]
  omega

end Ed448
end Botan
namespace Botan
namespace Ed448

theorem decode_ok_complete (enc : List Nat)
    (h1 : ¬ (enc.getD 56 0 &&& 0x7F ≠ 0))
    (h2 : fromBytesLE (enc.take 56) < p448)
    (h3 : decode_v ((fromBytesLE (enc.take 56) : Nat) : Gf448Elem) *
      square (decode_candidate ((fromBytesLE (enc.take 56) : Nat) : Gf448Elem)) =
        decode_u ((fromBytesLE (enc.take 56) : Nat) : Gf448Elem))
    (h4 : ¬ (decode_candidate ((fromBytesLE (enc.take 56) : Nat) : Gf448Elem) = 0 ∧
      enc.getD 56 0 ≠ 0)) :
    decode enc = .ok
      ⟨(if gf_is_odd (decode_candidate ((fromBytesLE (enc.take 56) : Nat) : Gf448Elem))
          = decide (enc.getD 56 0 ≠ 0)
        then decode_candidate ((fromBytesLE (enc.take 56) : Nat) : Gf448Elem)
        else -decode_candidate ((fromBytesLE (enc.take 56) : Nat) : Gf448Elem)),
       ((fromBytesLE (enc.take 56) : Nat) : Gf448Elem), 1⟩ := by
  simp only [decode]
  rw [if_neg h1, dif_neg (show ¬ ¬ bytes_are_canonical_representation (enc.take 56)
    from not_not_intro h2)]
  rw [if_neg (not_not_intro h3)]
  rw [if_neg (show ¬ (decode_candidate ((fromBytesLE (enc.take 56) : Nat) : Gf448Elem) = 0 ∧
    (decide (enc.getD 56 0 ≠ 0) : Bool) = true) from by simpa using h4)]

theorem decode_err_a (enc : List Nat) (h1 : enc.getD 56 0 &&& 0x7F ≠ 0) :
    decode enc = .error .decodingError := by
  simp only [decode]
  rw [if_pos h1]

theorem decode_err_b (enc : List Nat) (h1 : ¬ (enc.getD 56 0 &&& 0x7F ≠ 0))
    (h2 : ¬ fromBytesLE (enc.take 56) < p448) :
    decode enc = .error .decodingError := by
  simp only [decode]
  rw [if_neg h1, dif_pos (show ¬ bytes_are_canonical_representation (enc.take 56) from h2)]

theorem decode_err_c (enc : List Nat) (h1 : ¬ (enc.getD 56 0 &&& 0x7F ≠ 0))
    (h2 : fromBytesLE (enc.take 56) < p448)
    (h3 : decode_v ((fromBytesLE (enc.take 56) : Nat) : Gf448Elem) *
      square (decode_candidate ((fromBytesLE (enc.take 56) : Nat) : Gf448Elem)) ≠
        decode_u ((fromBytesLE (enc.take 56) : Nat) : Gf448Elem)) :
    decode enc = .error .decodingError := by
  simp only [decode]
  rw [if_neg h1, dif_neg (not_not_intro (show bytes_are_canonical_representation
    (enc.take 56) from h2))]
  rw [if_pos h3]

theorem decode_err_d (enc : List Nat) (h1 : ¬ (enc.getD 56 0 &&& 0x7F ≠ 0))
    (h2 : fromBytesLE (enc.take 56) < p448)
    (h3 : decode_v ((fromBytesLE (enc.take 56) : Nat) : Gf448Elem) *
      square (decode_candidate ((fromBytesLE (enc.take 56) : Nat) : Gf448Elem)) =
        decode_u ((fromBytesLE (enc.take 56) : Nat) : Gf448Elem))
    (h4 : decode_candidate ((fromBytesLE (enc.take 56) : Nat) : Gf448Elem) = 0 ∧
      enc.getD 56 0 ≠ 0) :
    decode enc = .error .decodingError := by
  simp only [decode]
  rw [if_neg h1, dif_neg (not_not_intro (show bytes_are_canonical_representation
    (enc.take 56) from h2))]
  rw [if_neg (not_not_intro h3)]
  rw [if_pos (show decode_candidate ((fromBytesLE (enc.take 56) : Nat) : Gf448Elem) = 0 ∧
    (decide (enc.getD 56 0 ≠ 0) : Bool) = true from by simpa using h4)]

end Ed448
end Botan
namespace Botan
namespace Ed448

theorem take_append_last (enc : List Nat) (hlen : enc.length = 57) :
    enc.take 56 ++ [enc.getD 56 0] = enc := by
  apply List.ext_getElem (by simp [hlen])
  intro i hi1 hi2
  by_cases hc : i < 56
  · rw [List.getElem_append_left (by simp [hlen]; omega)]
    simp [List.getElem_take]
  · have h56 : i = 56 := by simp [hlen] at hi2 ⊢; omega
    subst h56
    rw [List.getElem_append_right (by simp [hlen])]
    simp [hlen, List.getD_eq_getElem?_getD, List.getElem?_eq_getElem hi2]

theorem byte_class_aux : ∀ b < 256, b &&& 127 = 0 → b = 0 ∨ b = 128 := by decide

theorem byte_class (b : Nat) (hb : b < 256) (h : b &&& 127 = 0) : b = 0 ∨ b = 128 :=
  byte_class_aux b hb h

end Ed448
end Botan
namespace Botan
namespace Ed448

theorem gf_is_odd_neg {m : Gf448Elem} (hm : m ≠ 0) : gf_is_odd (-m) = !gf_is_odd m := by
  unfold gf_is_odd
  have h := val_neg_parity hm
  rcases Nat.mod_two_eq_zero_or_one m.val with h2 | h2 <;> simp [h, h2]

theorem gf_is_odd_zero : gf_is_odd (0 : Gf448Elem) = false := by
  unfold gf_is_odd
  simp

/-- C3: for every 57-byte input, `Ed448Point::decode` raises
`Decoding_Error` exactly when (a) a bit other than bit 7 is set in the
last byte, or (b) the encoded y is not below `p`, or (c) no `x` satisfies
`v·x² = u`, or (d) the candidate root is zero while the parity bit is
set; in every other case it returns a point whose encoding is the
input. -/
theorem claim_C3_decode (enc : List Nat) (hlen : enc.length = 57)
    (hbytes : ∀ x ∈ enc, x < 256) :
    ((∃ e, decode enc = .error e) ↔
      (enc.getD 56 0 &&& 0x7F ≠ 0 ∨
       p448 ≤ fromBytesLE (enc.take 56) ∨
       ¬ (∃ x : Gf448Elem,
         decode_v ((fromBytesLE (enc.take 56) : Nat) : Gf448Elem) * square x =
           decode_u ((fromBytesLE (enc.take 56) : Nat) : Gf448Elem)) ∨
       (decode_candidate ((fromBytesLE (enc.take 56) : Nat) : Gf448Elem) = 0 ∧
         enc.getD 56 0 ≠ 0))) ∧
    (∀ P, decode enc = .ok P → encode P = enc) := by
  constructor
  · constructor
    · rintro ⟨e, he⟩
      by_contra hno
      push_neg at hno
      obtain ⟨h1, h2, h3, h4⟩ := hno
      rw [decode_ok_complete enc (by omega) (by omega) (candidate_correct _ h3)
        (fun hc => hc.2 (h4 hc.1))] at he
      simp at he
    · intro hcond
      by_cases h1 : enc.getD 56 0 &&& 0x7F ≠ 0
      · exact ⟨_, decode_err_a enc h1⟩
      by_cases h2 : ¬ fromBytesLE (enc.take 56) < p448
      · exact ⟨_, decode_err_b enc h1 h2⟩
      push_neg at h2
      by_cases h3 : decode_v ((fromBytesLE (enc.take 56) : Nat) : Gf448Elem) *
          square (decode_candidate ((fromBytesLE (enc.take 56) : Nat) : Gf448Elem)) ≠
            decode_u ((fromBytesLE (enc.take 56) : Nat) : Gf448Elem)
      · exact ⟨_, decode_err_c enc h1 h2 h3⟩
      rw [not_not] at h3
      have h4 : decode_candidate ((fromBytesLE (enc.take 56) : Nat) : Gf448Elem) = 0 ∧
          enc.getD 56 0 ≠ 0 := by
        rcases hcond with hc | hc | hc | hc
        · exact absurd hc h1
        · omega
        · exact absurd ⟨_, h3⟩ hc
        · exact hc
      exact ⟨_, decode_err_d enc h1 h2 h3 h4⟩
  · intro P hP
    by_cases h1 : enc.getD 56 0 &&& 0x7F ≠ 0
    · rw [decode_err_a enc h1] at hP
      simp at hP
    by_cases h2 : ¬ fromBytesLE (enc.take 56) < p448
    · rw [decode_err_b enc h1 h2] at hP
      simp at hP
    push_neg at h2
    by_cases h3 : decode_v ((fromBytesLE (enc.take 56) : Nat) : Gf448Elem) *
        square (decode_candidate ((fromBytesLE (enc.take 56) : Nat) : Gf448Elem)) ≠
          decode_u ((fromBytesLE (enc.take 56) : Nat) : Gf448Elem)
    · rw [decode_err_c enc h1 h2 h3] at hP
      simp at hP
    rw [not_not] at h3
    by_cases h4 : decode_candidate ((fromBytesLE (enc.take 56) : Nat) : Gf448Elem) = 0 ∧
        enc.getD 56 0 ≠ 0
    · rw [decode_err_d enc h1 h2 h3 h4] at hP
      simp at hP
    rw [decode_ok_complete enc h1 h2 h3 h4] at hP
    injection hP with hP2
    subst hP2
    unfold encode
    rw [xAff_affine, yAff_affine]
    have hYval : ((fromBytesLE (enc.take 56) : Nat) : Gf448Elem).val =
        fromBytesLE (enc.take 56) := ZMod.val_natCast_of_lt h2
    have htlen : (enc.take 56).length = 56 := by simp [hlen]
    have htake : toBytesLE 56 ((fromBytesLE (enc.take 56) : Nat) : Gf448Elem).val =
        enc.take 56 := by
      rw [hYval]
      have h5 := toBytesLE_fromBytesLE (enc.take 56)
        (fun x hx => hbytes x (List.mem_of_mem_take hx))
      rw [htlen] at h5
      exact h5
    rw [htake]
    have hb56 : enc.getD 56 0 < 256 := by
      have hmem : enc.getD 56 0 ∈ enc := by
        rw [List.getD_eq_getElem _ _ (by omega)]
        exact List.getElem_mem _
      exact hbytes _ hmem
    have hlast : (if gf_is_odd (if gf_is_odd (decode_candidate
        ((fromBytesLE (enc.take 56) : Nat) : Gf448Elem)) = decide (enc.getD 56 0 ≠ 0)
          then decode_candidate ((fromBytesLE (enc.take 56) : Nat) : Gf448Elem)
          else -decode_candidate ((fromBytesLE (enc.take 56) : Nat) : Gf448Elem))
        then 1 else 0) <<< 7 = enc.getD 56 0 := by
      rcases byte_class _ hb56 (by omega) with hb | hb <;> rw [hb]
      · by_cases hpar : gf_is_odd (decode_candidate
            ((fromBytesLE (enc.take 56) : Nat) : Gf448Elem)) = false
        · simp [hpar]
        · have hpar2 : gf_is_odd (decode_candidate
              ((fromBytesLE (enc.take 56) : Nat) : Gf448Elem)) = true := by
            revert hpar
            cases gf_is_odd (decode_candidate
              ((fromBytesLE (enc.take 56) : Nat) : Gf448Elem)) <;> simp
          have hc0 : decode_candidate ((fromBytesLE (enc.take 56) : Nat) : Gf448Elem) ≠ 0 := by
            intro hz
            rw [hz, gf_is_odd_zero] at hpar2
            cases hpar2
          simp [hpar2, gf_is_odd_neg hc0]
      · have hc0 : decode_candidate ((fromBytesLE (enc.take 56) : Nat) : Gf448Elem) ≠ 0 := by
          intro hz
          exact h4 ⟨hz, by omega⟩
        by_cases hpar : gf_is_odd (decode_candidate
            ((fromBytesLE (enc.take 56) : Nat) : Gf448Elem)) = true
        · norm_num [hpar, Nat.shiftLeft_eq]
        · have hpar2 : gf_is_odd (decode_candidate
              ((fromBytesLE (enc.take 56) : Nat) : Gf448Elem)) = false := by
            revert hpar
            cases gf_is_odd (decode_candidate
              ((fromBytesLE (enc.take 56) : Nat) : Gf448Elem)) <;> simp
          norm_num [hpar2, gf_is_odd_neg hc0, Nat.shiftLeft_eq]
    rw [hlast]
    exact take_append_last enc hlen


/-- C3 witness: the decode characterization instantiated at the encoding
of the identity point (y = 1, parity 0). -/
theorem claim_C3_witness :
    (([1] ++ List.replicate 55 0 ++ [0] : List Nat).length = 57) ∧
    (∀ x ∈ ([1] ++ List.replicate 55 0 ++ [0] : List Nat), x < 256) ∧
    (((∃ e, decode ([1] ++ List.replicate 55 0 ++ [0] : List Nat) = .error e) ↔
      (([1] ++ List.replicate 55 0 ++ [0] : List Nat).getD 56 0 &&& 0x7F ≠ 0 ∨
       p448 ≤ fromBytesLE (([1] ++ List.replicate 55 0 ++ [0] : List Nat).take 56) ∨
       ¬ (∃ x : Gf448Elem,
         decode_v ((fromBytesLE (([1] ++ List.replicate 55 0 ++ [0] : List Nat).take 56) : Nat) : Gf448Elem) * square x =
           decode_u ((fromBytesLE (([1] ++ List.replicate 55 0 ++ [0] : List Nat).take 56) : Nat) : Gf448Elem)) ∨
       (decode_candidate ((fromBytesLE (([1] ++ List.replicate 55 0 ++ [0] : List Nat).take 56) : Nat) : Gf448Elem) = 0 ∧
         ([1] ++ List.replicate 55 0 ++ [0] : List Nat).getD 56 0 ≠ 0))) ∧
    (∀ P, decode ([1] ++ List.replicate 55 0 ++ [0] : List Nat) = .ok P → encode P = ([1] ++ List.replicate 55 0 ++ [0] : List Nat))) :=
  ⟨by decide, by decide, claim_C3_decode ([1] ++ List.replicate 55 0 ++ [0] : List Nat) (by decide) (by decide)⟩

end Ed448
end Botan

namespace Botan

theorem shiftLeft_xor_distrib (a b n : Nat) : (a ^^^ b) <<< n = a <<< n ^^^ b <<< n := by
  apply Nat.eq_of_testBit_eq
  intro i
  simp only [Nat.testBit_shiftLeft, Nat.testBit_xor]
  by_cases h : n ≤ i <;> simp [h]


theorem shiftRight_xor_distrib (a b n : Nat) : (a ^^^ b) >>> n = a >>> n ^^^ b >>> n := by
  apply Nat.eq_of_testBit_eq
  intro i
  simp [Nat.testBit_shiftRight, Nat.testBit_xor]


theorem xor_mod_two_pow (a b n : Nat) : (a ^^^ b) % 2 ^ n = a % 2 ^ n ^^^ b % 2 ^ n := by
  apply Nat.eq_of_testBit_eq
  intro i
  simp only [Nat.testBit_mod_two_pow, Nat.testBit_xor]
  by_cases h : i < n <;> simp [h]


theorem lor_eq_add {x y k : Nat} (hx : x % 2 ^ k = 0) (hy : y < 2 ^ k) :
    x ||| y = x + y := by
  obtain ⟨m, hm⟩ := Nat.dvd_of_mod_eq_zero hx
  subst hm
  apply Nat.eq_of_testBit_eq
  intro i
  rw [Nat.testBit_or, Nat.testBit_mul_pow_two_add m hy i]
  have h0 : 2 ^ k * m = 2 ^ k * m + 0 := rfl
  conv_lhs => rw [h0]
  rw [Nat.testBit_mul_pow_two_add m (Nat.two_pow_pos k) i]
  by_cases h : i < k
  · simp [h]
  · have hyi : y.testBit i = false :=
      Nat.testBit_lt_two_pow
        (lt_of_lt_of_le hy (Nat.pow_le_pow_right (by norm_num) (Nat.le_of_not_lt h)))
    simp [h, hyi]


end Botan

namespace Botan

theorem xor_mix (p q r s : Nat) : (p ^^^ q) ^^^ (r ^^^ s) = (p ^^^ r) ^^^ (q ^^^ s) := by
  apply Nat.eq_of_testBit_eq
  intro i
  simp only [Nat.testBit_xor]
  cases p.testBit i <;> cases q.testBit i <;> cases r.testBit i <;> cases s.testBit i <;> rfl


theorem xor_left_cancel (a b : Nat) : a ^^^ (a ^^^ b) = b := by
  rw [← Nat.xor_assoc, Nat.xor_self, Nat.zero_xor]


theorem make_uint32_eq {a b c d : Nat} (ha : a < 256) (hb : b < 256) (hc : c < 256)
    (hd : d < 256) :
    make_uint32 a b c d = a * 2 ^ 24 + b * 2 ^ 16 + c * 2 ^ 8 + d := by
  unfold make_uint32
  rw [Nat.shiftLeft_eq, Nat.shiftLeft_eq, Nat.shiftLeft_eq]
  have h1 : a * 2 ^ 24 ||| b * 2 ^ 16 = a * 2 ^ 24 + b * 2 ^ 16 :=
    lor_eq_add (k := 24) (Nat.mul_mod_left a (2 ^ 24)) (by omega)
  have h2 : a * 2 ^ 24 + b * 2 ^ 16 ||| c * 2 ^ 8 =
      a * 2 ^ 24 + b * 2 ^ 16 + c * 2 ^ 8 :=
    lor_eq_add (k := 16) (by omega) (by omega)
  have h3 : a * 2 ^ 24 + b * 2 ^ 16 + c * 2 ^ 8 ||| d =
      a * 2 ^ 24 + b * 2 ^ 16 + c * 2 ^ 8 + d :=
    lor_eq_add (k := 8) (by omega) (by omega)
  rw [h1, h2, h3]


theorem make_uint32_lt {a b c d : Nat} (ha : a < 256) (hb : b < 256) (hc : c < 256)
    (hd : d < 256) : make_uint32 a b c d < 2 ^ 32 := by
  rw [make_uint32_eq ha hb hc hd]; omega


theorem get_byte_lt (n w : Nat) : get_byte n w < 256 :=
  Nat.mod_lt _ (by norm_num)


theorem get_byte_mk0 {a b c d : Nat} (ha : a < 256) (hb : b < 256) (hc : c < 256)
    (hd : d < 256) : get_byte 0 (make_uint32 a b c d) = a := by
  show (make_uint32 a b c d >>> 24) % 256 = a
  rw [make_uint32_eq ha hb hc hd, Nat.shiftRight_eq_div_pow]
  omega


theorem get_byte_mk1 {a b c d : Nat} (ha : a < 256) (hb : b < 256) (hc : c < 256)
    (hd : d < 256) : get_byte 1 (make_uint32 a b c d) = b := by
  show (make_uint32 a b c d >>> 16) % 256 = b
  rw [make_uint32_eq ha hb hc hd, Nat.shiftRight_eq_div_pow]
  omega


theorem get_byte_mk2 {a b c d : Nat} (ha : a < 256) (hb : b < 256) (hc : c < 256)
    (hd : d < 256) : get_byte 2 (make_uint32 a b c d) = c := by
  show (make_uint32 a b c d >>> 8) % 256 = c
  rw [make_uint32_eq ha hb hc hd, Nat.shiftRight_eq_div_pow]
  omega


theorem get_byte_mk3 {a b c d : Nat} (ha : a < 256) (hb : b < 256) (hc : c < 256)
    (hd : d < 256) : get_byte 3 (make_uint32 a b c d) = d := by
  show (make_uint32 a b c d >>> 0) % 256 = d
  rw [make_uint32_eq ha hb hc hd, Nat.shiftRight_eq_div_pow]
  omega


theorem mk_get_byte {w : Nat} (hw : w < 2 ^ 32) :
    make_uint32 (get_byte 0 w) (get_byte 1 w) (get_byte 2 w) (get_byte 3 w) = w := by
  show make_uint32 (w >>> 24 % 256) (w >>> 16 % 256) (w >>> 8 % 256) (w >>> 0 % 256) = w
  rw [make_uint32_eq (Nat.mod_lt _ (by norm_num)) (Nat.mod_lt _ (by norm_num))
    (Nat.mod_lt _ (by norm_num)) (Nat.mod_lt _ (by norm_num))]
  simp only [Nat.shiftRight_eq_div_pow]
  omega


theorem word_ext {x y : Nat} (hx : x < 2 ^ 32) (hy : y < 2 ^ 32)
    (h0 : get_byte 0 x = get_byte 0 y) (h1 : get_byte 1 x = get_byte 1 y)
    (h2 : get_byte 2 x = get_byte 2 y) (h3 : get_byte 3 x = get_byte 3 y) : x = y := by
  conv_lhs => rw [← mk_get_byte hx]
  conv_rhs => rw [← mk_get_byte hy]
  rw [h0, h1, h2, h3]


theorem get_byte_xor (n x y : Nat) :
    get_byte n (x ^^^ y) = get_byte n x ^^^ get_byte n y := by
  have h256 : (256 : Nat) = 2 ^ 8 := rfl
  simp only [get_byte, h256]
  rw [shiftRight_xor_distrib, xor_mod_two_pow]


theorem xor_lt_256 {a b : Nat} (ha : a < 256) (hb : b < 256) : a ^^^ b < 256 :=
  Nat.xor_lt_two_pow (n := 8) ha hb


theorem xor_lt_32 {a b : Nat} (ha : a < 2 ^ 32) (hb : b < 2 ^ 32) : a ^^^ b < 2 ^ 32 :=
  Nat.xor_lt_two_pow ha hb


theorem rotr8_mk {a b c d : Nat} (ha : a < 256) (hb : b < 256) (hc : c < 256)
    (hd : d < 256) : rotr 8 (make_uint32 a b c d) = make_uint32 d a b c := by
  have he := make_uint32_eq ha hb hc hd
  have he2 := make_uint32_eq hd ha hb hc
  show ((make_uint32 a b c d >>> 8) ||| (make_uint32 a b c d <<< 24)) % 2 ^ 32 =
    make_uint32 d a b c
  rw [he, he2, Nat.lor_comm]
  have hx : ((a * 2 ^ 24 + b * 2 ^ 16 + c * 2 ^ 8 + d) <<< 24) % 2 ^ 24 = 0 := by
    rw [Nat.shiftLeft_eq]; omega
  have hy : (a * 2 ^ 24 + b * 2 ^ 16 + c * 2 ^ 8 + d) >>> 8 < 2 ^ 24 := by
    rw [Nat.shiftRight_eq_div_pow]; omega
  rw [lor_eq_add hx hy, Nat.shiftLeft_eq, Nat.shiftRight_eq_div_pow]
  have hdiv : (a * 2 ^ 24 + b * 2 ^ 16 + c * 2 ^ 8 + d) / 2 ^ 8 =
      a * 2 ^ 16 + b * 2 ^ 8 + c := by omega
  rw [hdiv]
  have hsplit : (a * 2 ^ 24 + b * 2 ^ 16 + c * 2 ^ 8 + d) * 2 ^ 24 +
      (a * 2 ^ 16 + b * 2 ^ 8 + c) =
      2 ^ 32 * (a * 2 ^ 16 + b * 2 ^ 8 + c) +
        (d * 2 ^ 24 + a * 2 ^ 16 + b * 2 ^ 8 + c) := by ring
  rw [hsplit, Nat.mul_add_mod]
  exact Nat.mod_eq_of_lt (by omega)


theorem rotr16_mk {a b c d : Nat} (ha : a < 256) (hb : b < 256) (hc : c < 256)
    (hd : d < 256) : rotr 16 (make_uint32 a b c d) = make_uint32 c d a b := by
  have he := make_uint32_eq ha hb hc hd
  have he2 := make_uint32_eq hc hd ha hb
  show ((make_uint32 a b c d >>> 16) ||| (make_uint32 a b c d <<< 16)) % 2 ^ 32 =
    make_uint32 c d a b
  rw [he, he2, Nat.lor_comm]
  have hx : ((a * 2 ^ 24 + b * 2 ^ 16 + c * 2 ^ 8 + d) <<< 16) % 2 ^ 16 = 0 := by
    rw [Nat.shiftLeft_eq]; omega
  have hy : (a * 2 ^ 24 + b * 2 ^ 16 + c * 2 ^ 8 + d) >>> 16 < 2 ^ 16 := by
    rw [Nat.shiftRight_eq_div_pow]; omega
  rw [lor_eq_add hx hy, Nat.shiftLeft_eq, Nat.shiftRight_eq_div_pow]
  have hdiv : (a * 2 ^ 24 + b * 2 ^ 16 + c * 2 ^ 8 + d) / 2 ^ 16 =
      a * 2 ^ 8 + b := by omega
  rw [hdiv]
  have hsplit : (a * 2 ^ 24 + b * 2 ^ 16 + c * 2 ^ 8 + d) * 2 ^ 16 +
      (a * 2 ^ 8 + b) =
      2 ^ 32 * (a * 2 ^ 8 + b) +
        (c * 2 ^ 24 + d * 2 ^ 16 + a * 2 ^ 8 + b) := by ring
  rw [hsplit, Nat.mul_add_mod]
  exact Nat.mod_eq_of_lt (by omega)


theorem rotr24_mk {a b c d : Nat} (ha : a < 256) (hb : b < 256) (hc : c < 256)
    (hd : d < 256) : rotr 24 (make_uint32 a b c d) = make_uint32 b c d a := by
  have he := make_uint32_eq ha hb hc hd
  have he2 := make_uint32_eq hb hc hd ha
  show ((make_uint32 a b c d >>> 24) ||| (make_uint32 a b c d <<< 8)) % 2 ^ 32 =
    make_uint32 b c d a
  rw [he, he2, Nat.lor_comm]
  have hx : ((a * 2 ^ 24 + b * 2 ^ 16 + c * 2 ^ 8 + d) <<< 8) % 2 ^ 8 = 0 := by
    rw [Nat.shiftLeft_eq]; omega
  have hy : (a * 2 ^ 24 + b * 2 ^ 16 + c * 2 ^ 8 + d) >>> 24 < 2 ^ 8 := by
    rw [Nat.shiftRight_eq_div_pow]; omega
  rw [lor_eq_add hx hy, Nat.shiftLeft_eq, Nat.shiftRight_eq_div_pow]
  have hdiv : (a * 2 ^ 24 + b * 2 ^ 16 + c * 2 ^ 8 + d) / 2 ^ 24 = a := by omega
  rw [hdiv]
  have hsplit : (a * 2 ^ 24 + b * 2 ^ 16 + c * 2 ^ 8 + d) * 2 ^ 8 + a =
      2 ^ 32 * a + (b * 2 ^ 24 + c * 2 ^ 16 + d * 2 ^ 8 + a) := by ring
  rw [hsplit, Nat.mul_add_mod]
  exact Nat.mod_eq_of_lt (by omega)


theorem make_uint32_xor {a b c d e f g h : Nat} (ha : a < 256) (hb : b < 256)
    (hc : c < 256) (hd : d < 256) (he : e < 256) (hf : f < 256) (hg : g < 256)
    (hh : h < 256) :
    make_uint32 a b c d ^^^ make_uint32 e f g h =
      make_uint32 (a ^^^ e) (b ^^^ f) (c ^^^ g) (d ^^^ h) := by
  apply word_ext (xor_lt_32 (make_uint32_lt ha hb hc hd) (make_uint32_lt he hf hg hh))
    (make_uint32_lt (xor_lt_256 ha he) (xor_lt_256 hb hf) (xor_lt_256 hc hg)
      (xor_lt_256 hd hh))
  · rw [get_byte_xor, get_byte_mk0 ha hb hc hd, get_byte_mk0 he hf hg hh,
      get_byte_mk0 (xor_lt_256 ha he) (xor_lt_256 hb hf) (xor_lt_256 hc hg) (xor_lt_256 hd hh)]
  · rw [get_byte_xor, get_byte_mk1 ha hb hc hd, get_byte_mk1 he hf hg hh,
      get_byte_mk1 (xor_lt_256 ha he) (xor_lt_256 hb hf) (xor_lt_256 hc hg) (xor_lt_256 hd hh)]
  · rw [get_byte_xor, get_byte_mk2 ha hb hc hd, get_byte_mk2 he hf hg hh,
      get_byte_mk2 (xor_lt_256 ha he) (xor_lt_256 hb hf) (xor_lt_256 hc hg) (xor_lt_256 hd hh)]
  · rw [get_byte_xor, get_byte_mk3 ha hb hc hd, get_byte_mk3 he hf hg hh,
      get_byte_mk3 (xor_lt_256 ha he) (xor_lt_256 hb hf) (xor_lt_256 hc hg) (xor_lt_256 hd hh)]


end Botan

namespace Botan

namespace AES

theorem xtime_lt {s : Nat} (hs : s < 256) : xtime s < 256 := by
  apply xor_lt_256 (Nat.mod_lt _ (by norm_num))
  rw [Nat.shiftRight_eq_div_pow]
  omega


theorem xtime3_lt {s : Nat} (hs : s < 256) : xtime3 s < 256 :=
  xor_lt_256 (xtime_lt hs) hs


theorem mul9_lt {s : Nat} (hs : s < 256) : mul9 s < 256 :=
  xor_lt_256 (xtime_lt (xtime_lt (xtime_lt hs))) hs


theorem mul11_lt {s : Nat} (hs : s < 256) : mul11 s < 256 :=
  xor_lt_256 (mul9_lt hs) (xtime_lt hs)


theorem mul13_lt {s : Nat} (hs : s < 256) : mul13 s < 256 :=
  xor_lt_256 (mul9_lt hs) (xtime_lt (xtime_lt hs))


theorem mul14_lt {s : Nat} (hs : s < 256) : mul14 s < 256 :=
  xor_lt_256 (xor_lt_256 (xtime_lt (xtime_lt (xtime_lt hs))) (xtime_lt (xtime_lt hs)))
    (xtime_lt hs)


theorem InvMixColumn_eq (s : Nat) :
    InvMixColumn s = make_uint32 (mul14 s) (mul9 s) (mul13 s) (mul11 s) := rfl


theorem map_getD_lt (l : List Nat) (f : Nat → Nat) (i : Nat) (h : i < l.length) :
    (l.map f).getD i 0 = f (l.getD i 0) := by
  rw [List.getD_eq_getElem?_getD, List.getD_eq_getElem?_getD, List.getElem?_map,
    List.getElem?_eq_getElem h]
  rfl


theorem SE_length : SE.length = 256 := rfl


theorem SD_length : SD.length = 256 := rfl


theorem se_lt (x : Nat) : SE.getD x 0 < 256 := by
  by_cases h : x < 256
  · exact (by decide : ∀ x < 256, SE.getD x 0 < 256) x h
  · rw [List.getD_eq_default _ _ (by rw [SE_length]; omega)]
    norm_num


theorem sd_lt (x : Nat) : SD.getD x 0 < 256 := by
  by_cases h : x < 256
  · exact (by decide : ∀ x < 256, SD.getD x 0 < 256) x h
  · rw [List.getD_eq_default _ _ (by rw [SD_length]; omega)]
    norm_num


theorem sd_se (x : Nat) (h : x < 256) : SD.getD (SE.getD x 0) 0 = x :=
  (by decide : ∀ x < 256, SD.getD (SE.getD x 0) 0 = x) x h


theorem TE_getD {x : Nat} (h : x < 256) :
    AES_TE.getD x 0 = make_uint32 (xtime (SE.getD x 0)) (SE.getD x 0) (SE.getD x 0)
      (xtime3 (SE.getD x 0)) :=
  map_getD_lt SE _ x (by rw [SE_length]; omega)


theorem TD_getD {x : Nat} (h : x < 256) :
    AES_TD.getD x 0 = make_uint32 (mul14 (SD.getD x 0)) (mul9 (SD.getD x 0))
      (mul13 (SD.getD x 0)) (mul11 (SD.getD x 0)) := by
  rw [show AES_TD.getD x 0 = InvMixColumn (SD.getD x 0) from
    map_getD_lt SD _ x (by rw [SD_length]; omega), InvMixColumn_eq]


theorem basis_a (a : Nat) (h : a < 256) :
    imix4 (xtime a) a a (xtime3 a) = make_uint32 a 0 0 0 :=
  (by decide : ∀ a < 256, imix4 (xtime a) a a (xtime3 a) = make_uint32 a 0 0 0) a h


theorem basis_b (b : Nat) (h : b < 256) :
    imix4 (xtime3 b) (xtime b) b b = make_uint32 0 b 0 0 :=
  (by decide : ∀ b < 256, imix4 (xtime3 b) (xtime b) b b = make_uint32 0 b 0 0) b h


theorem basis_c (c : Nat) (h : c < 256) :
    imix4 c (xtime3 c) (xtime c) c = make_uint32 0 0 c 0 :=
  (by decide : ∀ c < 256, imix4 c (xtime3 c) (xtime c) c = make_uint32 0 0 c 0) c h


theorem basis_d (d : Nat) (h : d < 256) :
    imix4 d d (xtime3 d) (xtime d) = make_uint32 0 0 0 d :=
  (by decide : ∀ d < 256, imix4 d d (xtime3 d) (xtime d) = make_uint32 0 0 0 d) d h


end AES

end Botan

namespace Botan

namespace AES

theorem xtime_xor {a b : Nat} (ha : a < 256) (hb : b < 256) :
    xtime (a ^^^ b) = xtime a ^^^ xtime b := by
  unfold xtime
  rw [shiftLeft_xor_distrib]
  have h256 : (256 : Nat) = 2 ^ 8 := rfl
  rw [h256, xor_mod_two_pow, shiftRight_xor_distrib]
  have hx1 : a >>> 7 = 0 ∨ a >>> 7 = 1 := by rw [Nat.shiftRight_eq_div_pow]; omega
  have hx2 : b >>> 7 = 0 ∨ b >>> 7 = 1 := by rw [Nat.shiftRight_eq_div_pow]; omega
  have hmul : (a >>> 7 ^^^ b >>> 7) * 0x1B = a >>> 7 * 0x1B ^^^ b >>> 7 * 0x1B := by
    rcases hx1 with h1 | h1 <;> rcases hx2 with h2 | h2 <;> rw [h1, h2] <;> decide
  rw [hmul, xor_mix]


theorem xtime3_xor {a b : Nat} (ha : a < 256) (hb : b < 256) :
    xtime3 (a ^^^ b) = xtime3 a ^^^ xtime3 b := by
  unfold xtime3
  rw [xtime_xor ha hb, xor_mix]


theorem xtime2_xor {a b : Nat} (ha : a < 256) (hb : b < 256) :
    xtime (xtime (a ^^^ b)) = xtime (xtime a) ^^^ xtime (xtime b) := by
  rw [xtime_xor ha hb, xtime_xor (xtime_lt ha) (xtime_lt hb)]


theorem xtime3x_xor {a b : Nat} (ha : a < 256) (hb : b < 256) :
    xtime (xtime (xtime (a ^^^ b))) =
      xtime (xtime (xtime a)) ^^^ xtime (xtime (xtime b)) := by
  rw [xtime2_xor ha hb, xtime_xor (xtime_lt (xtime_lt ha)) (xtime_lt (xtime_lt hb))]


theorem mul9_xor {a b : Nat} (ha : a < 256) (hb : b < 256) :
    mul9 (a ^^^ b) = mul9 a ^^^ mul9 b := by
  unfold mul9
  rw [xtime3x_xor ha hb, xor_mix]


theorem mul11_xor {a b : Nat} (ha : a < 256) (hb : b < 256) :
    mul11 (a ^^^ b) = mul11 a ^^^ mul11 b := by
  unfold mul11
  rw [mul9_xor ha hb, xtime_xor ha hb, xor_mix]


theorem mul13_xor {a b : Nat} (ha : a < 256) (hb : b < 256) :
    mul13 (a ^^^ b) = mul13 a ^^^ mul13 b := by
  unfold mul13
  rw [mul9_xor ha hb, xtime2_xor ha hb, xor_mix]


theorem mul14_xor {a b : Nat} (ha : a < 256) (hb : b < 256) :
    mul14 (a ^^^ b) = mul14 a ^^^ mul14 b := by
  unfold mul14
  rw [xtime3x_xor ha hb, xtime2_xor ha hb, xtime_xor ha hb,
    xor_mix (xtime (xtime (xtime a))) (xtime (xtime (xtime b))) (xtime (xtime a))
      (xtime (xtime b)),
    xor_mix (xtime (xtime (xtime a)) ^^^ xtime (xtime a))
      (xtime (xtime (xtime b)) ^^^ xtime (xtime b)) (xtime a) (xtime b)]


theorem imix4_xor {a b c d e f g h : Nat} (ha : a < 256) (hb : b < 256)
    (hc : c < 256) (hd : d < 256) (he : e < 256) (hf : f < 256) (hg : g < 256)
    (hh : h < 256) :
    imix4 (a ^^^ e) (b ^^^ f) (c ^^^ g) (d ^^^ h) =
      imix4 a b c d ^^^ imix4 e f g h := by
  unfold imix4
  rw [make_uint32_xor
    (xor_lt_256 (xor_lt_256 (xor_lt_256 (mul14_lt ha) (mul11_lt hb)) (mul13_lt hc)) (mul9_lt hd))
    (xor_lt_256 (xor_lt_256 (xor_lt_256 (mul9_lt ha) (mul14_lt hb)) (mul11_lt hc)) (mul13_lt hd))
    (xor_lt_256 (xor_lt_256 (xor_lt_256 (mul13_lt ha) (mul9_lt hb)) (mul14_lt hc)) (mul11_lt hd))
    (xor_lt_256 (xor_lt_256 (xor_lt_256 (mul11_lt ha) (mul13_lt hb)) (mul9_lt hc)) (mul14_lt hd))
    (xor_lt_256 (xor_lt_256 (xor_lt_256 (mul14_lt he) (mul11_lt hf)) (mul13_lt hg)) (mul9_lt hh))
    (xor_lt_256 (xor_lt_256 (xor_lt_256 (mul9_lt he) (mul14_lt hf)) (mul11_lt hg)) (mul13_lt hh))
    (xor_lt_256 (xor_lt_256 (xor_lt_256 (mul13_lt he) (mul9_lt hf)) (mul14_lt hg)) (mul11_lt hh))
    (xor_lt_256 (xor_lt_256 (xor_lt_256 (mul11_lt he) (mul13_lt hf)) (mul9_lt hg)) (mul14_lt hh))]
  rw [mul14_xor ha he, mul11_xor hb hf, mul13_xor hc hg, mul9_xor hd hh,
    mul9_xor ha he, mul14_xor hb hf, mul11_xor hc hg, mul13_xor hd hh,
    mul13_xor ha he, mul9_xor hb hf, mul14_xor hc hg, mul11_xor hd hh,
    mul11_xor ha he, mul13_xor hb hf, mul9_xor hc hg, mul14_xor hd hh]
  rw [xor_mix (mul14 a) (mul14 e) (mul11 b) (mul11 f),
    xor_mix (mul14 a ^^^ mul11 b) (mul14 e ^^^ mul11 f) (mul13 c) (mul13 g),
    xor_mix (mul14 a ^^^ mul11 b ^^^ mul13 c) (mul14 e ^^^ mul11 f ^^^ mul13 g)
      (mul9 d) (mul9 h)]
  rw [xor_mix (mul9 a) (mul9 e) (mul14 b) (mul14 f),
    xor_mix (mul9 a ^^^ mul14 b) (mul9 e ^^^ mul14 f) (mul11 c) (mul11 g),
    xor_mix (mul9 a ^^^ mul14 b ^^^ mul11 c) (mul9 e ^^^ mul14 f ^^^ mul11 g)
      (mul13 d) (mul13 h)]
  rw [xor_mix (mul13 a) (mul13 e) (mul9 b) (mul9 f),
    xor_mix (mul13 a ^^^ mul9 b) (mul13 e ^^^ mul9 f) (mul14 c) (mul14 g),
    xor_mix (mul13 a ^^^ mul9 b ^^^ mul14 c) (mul13 e ^^^ mul9 f ^^^ mul14 g)
      (mul11 d) (mul11 h)]
  rw [xor_mix (mul11 a) (mul11 e) (mul13 b) (mul13 f),
    xor_mix (mul11 a ^^^ mul13 b) (mul11 e ^^^ mul13 f) (mul9 c) (mul9 g),
    xor_mix (mul11 a ^^^ mul13 b ^^^ mul9 c) (mul11 e ^^^ mul13 f ^^^ mul9 g)
      (mul14 d) (mul14 h)]


end AES

end Botan

namespace Botan

namespace AES

theorem imix4_mix4 {a b c d : Nat} (ha : a < 256) (hb : b < 256) (hc : c < 256)
    (hd : d < 256) :
    imix4 (xtime a ^^^ xtime3 b ^^^ c ^^^ d) (a ^^^ xtime b ^^^ xtime3 c ^^^ d)
      (a ^^^ b ^^^ xtime c ^^^ xtime3 d) (xtime3 a ^^^ b ^^^ c ^^^ xtime d) =
    make_uint32 a b c d := by
  have h0 : (0 : Nat) < 256 := by norm_num
  have g1 : xtime a ^^^ xtime3 b < 256 := xor_lt_256 (xtime_lt ha) (xtime3_lt hb)
  have g2 : a ^^^ xtime b < 256 := xor_lt_256 ha (xtime_lt hb)
  have g3 : a ^^^ b < 256 := xor_lt_256 ha hb
  have g4 : xtime3 a ^^^ b < 256 := xor_lt_256 (xtime3_lt ha) hb
  have h1 : xtime a ^^^ xtime3 b ^^^ c < 256 := xor_lt_256 g1 hc
  have h2 : a ^^^ xtime b ^^^ xtime3 c < 256 := xor_lt_256 g2 (xtime3_lt hc)
  have h3 : a ^^^ b ^^^ xtime c < 256 := xor_lt_256 g3 (xtime_lt hc)
  have h4 : xtime3 a ^^^ b ^^^ c < 256 := xor_lt_256 g4 hc
  rw [imix4_xor h1 h2 h3 h4 hd hd (xtime3_lt hd) (xtime_lt hd)]
  rw [imix4_xor g1 g2 g3 g4 hc (xtime3_lt hc) (xtime_lt hc) hc]
  rw [imix4_xor (xtime_lt ha) ha ha (xtime3_lt ha) (xtime3_lt hb) (xtime_lt hb) hb hb]
  rw [basis_a a ha, basis_b b hb, basis_c c hc, basis_d d hd]
  rw [make_uint32_xor ha h0 h0 h0 h0 hb h0 h0]
  simp only [Nat.xor_zero, Nat.zero_xor]
  rw [make_uint32_xor ha hb h0 h0 h0 h0 hc h0]
  simp only [Nat.xor_zero, Nat.zero_xor]
  rw [make_uint32_xor ha hb hc h0 h0 h0 h0 hd]
  simp only [Nat.xor_zero, Nat.zero_xor]


end AES

end Botan

namespace Botan

namespace AES

theorem seb_lt (x : Nat) : seb x < 256 := se_lt x


theorem sdb_lt (x : Nat) : sdb x < 256 := sd_lt x


theorem sdb_seb {x : Nat} (h : x < 256) : sdb (seb x) = x := sd_se x h


theorem imcWord_eq (w : Nat) :
    imcWord w = imix4 (get_byte 0 w) (get_byte 1 w) (get_byte 2 w) (get_byte 3 w) := by
  unfold imcWord
  rw [InvMixColumn_eq, InvMixColumn_eq, InvMixColumn_eq, InvMixColumn_eq]
  rw [rotr8_mk (mul14_lt (get_byte_lt 1 w)) (mul9_lt (get_byte_lt 1 w))
    (mul13_lt (get_byte_lt 1 w)) (mul11_lt (get_byte_lt 1 w))]
  rw [rotr16_mk (mul14_lt (get_byte_lt 2 w)) (mul9_lt (get_byte_lt 2 w))
    (mul13_lt (get_byte_lt 2 w)) (mul11_lt (get_byte_lt 2 w))]
  rw [rotr24_mk (mul14_lt (get_byte_lt 3 w)) (mul9_lt (get_byte_lt 3 w))
    (mul13_lt (get_byte_lt 3 w)) (mul11_lt (get_byte_lt 3 w))]
  rw [make_uint32_xor (mul14_lt (get_byte_lt 0 w)) (mul9_lt (get_byte_lt 0 w))
    (mul13_lt (get_byte_lt 0 w)) (mul11_lt (get_byte_lt 0 w))
    (mul11_lt (get_byte_lt 1 w)) (mul14_lt (get_byte_lt 1 w))
    (mul9_lt (get_byte_lt 1 w)) (mul13_lt (get_byte_lt 1 w))]
  rw [make_uint32_xor
    (xor_lt_256 (mul14_lt (get_byte_lt 0 w)) (mul11_lt (get_byte_lt 1 w)))
    (xor_lt_256 (mul9_lt (get_byte_lt 0 w)) (mul14_lt (get_byte_lt 1 w)))
    (xor_lt_256 (mul13_lt (get_byte_lt 0 w)) (mul9_lt (get_byte_lt 1 w)))
    (xor_lt_256 (mul11_lt (get_byte_lt 0 w)) (mul13_lt (get_byte_lt 1 w)))
    (mul13_lt (get_byte_lt 2 w)) (mul11_lt (get_byte_lt 2 w))
    (mul14_lt (get_byte_lt 2 w)) (mul9_lt (get_byte_lt 2 w))]
  rw [make_uint32_xor
    (xor_lt_256 (xor_lt_256 (mul14_lt (get_byte_lt 0 w)) (mul11_lt (get_byte_lt 1 w)))
      (mul13_lt (get_byte_lt 2 w)))
    (xor_lt_256 (xor_lt_256 (mul9_lt (get_byte_lt 0 w)) (mul14_lt (get_byte_lt 1 w)))
      (mul11_lt (get_byte_lt 2 w)))
    (xor_lt_256 (xor_lt_256 (mul13_lt (get_byte_lt 0 w)) (mul9_lt (get_byte_lt 1 w)))
      (mul14_lt (get_byte_lt 2 w)))
    (xor_lt_256 (xor_lt_256 (mul11_lt (get_byte_lt 0 w)) (mul13_lt (get_byte_lt 1 w)))
      (mul9_lt (get_byte_lt 2 w)))
    (mul9_lt (get_byte_lt 3 w)) (mul13_lt (get_byte_lt 3 w))
    (mul11_lt (get_byte_lt 3 w)) (mul14_lt (get_byte_lt 3 w))]
  rfl


theorem xor_assoc4 (k a b c d : Nat) :
    (((k ^^^ a) ^^^ b) ^^^ c) ^^^ d = k ^^^ (((a ^^^ b) ^^^ c) ^^^ d) := by
  simp [Nat.xor_assoc]


theorem te_combine {s0 s1 s2 s3 : Nat} (h0 : s0 < 256) (h1 : s1 < 256)
    (h2 : s2 < 256) (h3 : s3 < 256) :
    make_uint32 (xtime s0) s0 s0 (xtime3 s0) ^^^
      make_uint32 (xtime3 s1) (xtime s1) s1 s1 ^^^
      make_uint32 s2 (xtime3 s2) (xtime s2) s2 ^^^
      make_uint32 s3 s3 (xtime3 s3) (xtime s3) = mix4 s0 s1 s2 s3 := by
  rw [make_uint32_xor (xtime_lt h0) h0 h0 (xtime3_lt h0) (xtime3_lt h1) (xtime_lt h1) h1 h1]
  rw [make_uint32_xor (xor_lt_256 (xtime_lt h0) (xtime3_lt h1))
    (xor_lt_256 h0 (xtime_lt h1)) (xor_lt_256 h0 h1) (xor_lt_256 (xtime3_lt h0) h1)
    h2 (xtime3_lt h2) (xtime_lt h2) h2]
  rw [make_uint32_xor (xor_lt_256 (xor_lt_256 (xtime_lt h0) (xtime3_lt h1)) h2)
    (xor_lt_256 (xor_lt_256 h0 (xtime_lt h1)) (xtime3_lt h2))
    (xor_lt_256 (xor_lt_256 h0 h1) (xtime_lt h2))
    (xor_lt_256 (xor_lt_256 (xtime3_lt h0) h1) h2)
    h3 h3 (xtime3_lt h3) (xtime_lt h3)]
  rfl


theorem td_combine {s0 s1 s2 s3 : Nat} (h0 : s0 < 256) (h1 : s1 < 256)
    (h2 : s2 < 256) (h3 : s3 < 256) :
    make_uint32 (mul14 s0) (mul9 s0) (mul13 s0) (mul11 s0) ^^^
      make_uint32 (mul11 s1) (mul14 s1) (mul9 s1) (mul13 s1) ^^^
      make_uint32 (mul13 s2) (mul11 s2) (mul14 s2) (mul9 s2) ^^^
      make_uint32 (mul9 s3) (mul13 s3) (mul11 s3) (mul14 s3) = imix4 s0 s1 s2 s3 := by
  rw [make_uint32_xor (mul14_lt h0) (mul9_lt h0) (mul13_lt h0) (mul11_lt h0)
    (mul11_lt h1) (mul14_lt h1) (mul9_lt h1) (mul13_lt h1)]
  rw [make_uint32_xor (xor_lt_256 (mul14_lt h0) (mul11_lt h1))
    (xor_lt_256 (mul9_lt h0) (mul14_lt h1)) (xor_lt_256 (mul13_lt h0) (mul9_lt h1))
    (xor_lt_256 (mul11_lt h0) (mul13_lt h1))
    (mul13_lt h2) (mul11_lt h2) (mul14_lt h2) (mul9_lt h2)]
  rw [make_uint32_xor
    (xor_lt_256 (xor_lt_256 (mul14_lt h0) (mul11_lt h1)) (mul13_lt h2))
    (xor_lt_256 (xor_lt_256 (mul9_lt h0) (mul14_lt h1)) (mul11_lt h2))
    (xor_lt_256 (xor_lt_256 (mul13_lt h0) (mul9_lt h1)) (mul14_lt h2))
    (xor_lt_256 (xor_lt_256 (mul11_lt h0) (mul13_lt h1)) (mul9_lt h2))
    (mul9_lt h3) (mul13_lt h3) (mul11_lt h3) (mul14_lt h3)]
  rfl


theorem aes_t_te (K V0 V1 V2 V3 : Nat) :
    AES_T AES_TE K V0 V1 V2 V3 =
      K ^^^ mix4 (seb (get_byte 0 V0)) (seb (get_byte 1 V1)) (seb (get_byte 2 V2))
        (seb (get_byte 3 V3)) := by
  unfold AES_T
  rw [TE_getD (get_byte_lt 0 V0), TE_getD (get_byte_lt 1 V1), TE_getD (get_byte_lt 2 V2),
    TE_getD (get_byte_lt 3 V3)]
  rw [rotr8_mk (xtime_lt (se_lt _)) (se_lt _) (se_lt _) (xtime3_lt (se_lt _))]
  rw [rotr16_mk (xtime_lt (se_lt _)) (se_lt _) (se_lt _) (xtime3_lt (se_lt _))]
  rw [rotr24_mk (xtime_lt (se_lt _)) (se_lt _) (se_lt _) (xtime3_lt (se_lt _))]
  rw [xor_assoc4, te_combine (se_lt _) (se_lt _) (se_lt _) (se_lt _)]
  rfl


theorem aes_t_td (K V0 V1 V2 V3 : Nat) :
    AES_T AES_TD K V0 V1 V2 V3 =
      K ^^^ imix4 (sdb (get_byte 0 V0)) (sdb (get_byte 1 V1)) (sdb (get_byte 2 V2))
        (sdb (get_byte 3 V3)) := by
  unfold AES_T
  rw [TD_getD (get_byte_lt 0 V0), TD_getD (get_byte_lt 1 V1), TD_getD (get_byte_lt 2 V2),
    TD_getD (get_byte_lt 3 V3)]
  rw [rotr8_mk (mul14_lt (sd_lt _)) (mul9_lt (sd_lt _)) (mul13_lt (sd_lt _))
    (mul11_lt (sd_lt _))]
  rw [rotr16_mk (mul14_lt (sd_lt _)) (mul9_lt (sd_lt _)) (mul13_lt (sd_lt _))
    (mul11_lt (sd_lt _))]
  rw [rotr24_mk (mul14_lt (sd_lt _)) (mul9_lt (sd_lt _)) (mul13_lt (sd_lt _))
    (mul11_lt (sd_lt _))]
  rw [xor_assoc4, td_combine (sd_lt _) (sd_lt _) (sd_lt _) (sd_lt _)]
  rfl


end AES

end Botan

namespace Botan

namespace AES

theorem encRound_tuple (q0 q1 q2 q3 w0 w1 w2 w3 : Nat) :
    encRound q0 q1 q2 q3 (w0, w1, w2, w3) =
      (AES_T AES_TE q0 w0 w1 w2 w3, AES_T AES_TE q1 w1 w2 w3 w0,
       AES_T AES_TE q2 w2 w3 w0 w1, AES_T AES_TE q3 w3 w0 w1 w2) := rfl


theorem decRound_tuple (k0 k1 k2 k3 u0 u1 u2 u3 : Nat) :
    decRound k0 k1 k2 k3 (u0, u1, u2, u3) =
      (AES_T AES_TD k0 u0 u3 u2 u1, AES_T AES_TD k1 u1 u0 u3 u2,
       AES_T AES_TD k2 u2 u1 u0 u3, AES_T AES_TD k3 u3 u2 u1 u0) := rfl


theorem subShift_tuple (E0 E1 E2 E3 : Nat) :
    subShift (E0, E1, E2, E3) =
      (make_uint32 (seb (get_byte 0 E0)) (seb (get_byte 1 E1)) (seb (get_byte 2 E2))
        (seb (get_byte 3 E3)),
       make_uint32 (seb (get_byte 0 E1)) (seb (get_byte 1 E2)) (seb (get_byte 2 E3))
        (seb (get_byte 3 E0)),
       make_uint32 (seb (get_byte 0 E2)) (seb (get_byte 1 E3)) (seb (get_byte 2 E0))
        (seb (get_byte 3 E1)),
       make_uint32 (seb (get_byte 0 E3)) (seb (get_byte 1 E0)) (seb (get_byte 2 E1))
        (seb (get_byte 3 E2))) := rfl


theorem encRound_eq (q0 q1 q2 q3 w0 w1 w2 w3 : Nat) :
    encRound q0 q1 q2 q3 (w0, w1, w2, w3) =
      (q0 ^^^ mix4 (seb (get_byte 0 w0)) (seb (get_byte 1 w1)) (seb (get_byte 2 w2))
        (seb (get_byte 3 w3)),
       q1 ^^^ mix4 (seb (get_byte 0 w1)) (seb (get_byte 1 w2)) (seb (get_byte 2 w3))
        (seb (get_byte 3 w0)),
       q2 ^^^ mix4 (seb (get_byte 0 w2)) (seb (get_byte 1 w3)) (seb (get_byte 2 w0))
        (seb (get_byte 3 w1)),
       q3 ^^^ mix4 (seb (get_byte 0 w3)) (seb (get_byte 1 w0)) (seb (get_byte 2 w1))
        (seb (get_byte 3 w2))) := by
  rw [encRound_tuple, aes_t_te, aes_t_te, aes_t_te, aes_t_te]


theorem decRound_subShift (k0 k1 k2 k3 E0 E1 E2 E3 : Nat) :
    decRound k0 k1 k2 k3 (subShift (E0, E1, E2, E3)) =
      (k0 ^^^ imixw E0, k1 ^^^ imixw E1, k2 ^^^ imixw E2, k3 ^^^ imixw E3) := by
  rw [subShift_tuple, decRound_tuple]
  unfold imixw
  rw [aes_t_td, aes_t_td, aes_t_td, aes_t_td]
  simp only [get_byte_mk0 (seb_lt _) (seb_lt _) (seb_lt _) (seb_lt _),
    get_byte_mk1 (seb_lt _) (seb_lt _) (seb_lt _) (seb_lt _),
    get_byte_mk2 (seb_lt _) (seb_lt _) (seb_lt _) (seb_lt _),
    get_byte_mk3 (seb_lt _) (seb_lt _) (seb_lt _) (seb_lt _),
    sdb_seb (get_byte_lt _ _)]


theorem imixw_encword {q : Nat} (hq : q < 2 ^ 32) {s0 s1 s2 s3 : Nat} (h0 : s0 < 256)
    (h1 : s1 < 256) (h2 : s2 < 256) (h3 : s3 < 256) :
    imixw (q ^^^ mix4 s0 s1 s2 s3) = imcWord q ^^^ make_uint32 s0 s1 s2 s3 := by
  unfold imixw mix4
  rw [get_byte_xor, get_byte_xor, get_byte_xor, get_byte_xor]
  rw [get_byte_mk0 (xor_lt_256 (xor_lt_256 (xor_lt_256 (xtime_lt h0) (xtime3_lt h1)) h2) h3)
    (xor_lt_256 (xor_lt_256 (xor_lt_256 h0 (xtime_lt h1)) (xtime3_lt h2)) h3)
    (xor_lt_256 (xor_lt_256 (xor_lt_256 h0 h1) (xtime_lt h2)) (xtime3_lt h3))
    (xor_lt_256 (xor_lt_256 (xor_lt_256 (xtime3_lt h0) h1) h2) (xtime_lt h3))]
  rw [get_byte_mk1 (xor_lt_256 (xor_lt_256 (xor_lt_256 (xtime_lt h0) (xtime3_lt h1)) h2) h3)
    (xor_lt_256 (xor_lt_256 (xor_lt_256 h0 (xtime_lt h1)) (xtime3_lt h2)) h3)
    (xor_lt_256 (xor_lt_256 (xor_lt_256 h0 h1) (xtime_lt h2)) (xtime3_lt h3))
    (xor_lt_256 (xor_lt_256 (xor_lt_256 (xtime3_lt h0) h1) h2) (xtime_lt h3))]
  rw [get_byte_mk2 (xor_lt_256 (xor_lt_256 (xor_lt_256 (xtime_lt h0) (xtime3_lt h1)) h2) h3)
    (xor_lt_256 (xor_lt_256 (xor_lt_256 h0 (xtime_lt h1)) (xtime3_lt h2)) h3)
    (xor_lt_256 (xor_lt_256 (xor_lt_256 h0 h1) (xtime_lt h2)) (xtime3_lt h3))
    (xor_lt_256 (xor_lt_256 (xor_lt_256 (xtime3_lt h0) h1) h2) (xtime_lt h3))]
  rw [get_byte_mk3 (xor_lt_256 (xor_lt_256 (xor_lt_256 (xtime_lt h0) (xtime3_lt h1)) h2) h3)
    (xor_lt_256 (xor_lt_256 (xor_lt_256 h0 (xtime_lt h1)) (xtime3_lt h2)) h3)
    (xor_lt_256 (xor_lt_256 (xor_lt_256 h0 h1) (xtime_lt h2)) (xtime3_lt h3))
    (xor_lt_256 (xor_lt_256 (xor_lt_256 (xtime3_lt h0) h1) h2) (xtime_lt h3))]
  rw [imix4_xor (get_byte_lt 0 q) (get_byte_lt 1 q) (get_byte_lt 2 q) (get_byte_lt 3 q)
    (xor_lt_256 (xor_lt_256 (xor_lt_256 (xtime_lt h0) (xtime3_lt h1)) h2) h3)
    (xor_lt_256 (xor_lt_256 (xor_lt_256 h0 (xtime_lt h1)) (xtime3_lt h2)) h3)
    (xor_lt_256 (xor_lt_256 (xor_lt_256 h0 h1) (xtime_lt h2)) (xtime3_lt h3))
    (xor_lt_256 (xor_lt_256 (xor_lt_256 (xtime3_lt h0) h1) h2) (xtime_lt h3))]
  rw [imix4_mix4 h0 h1 h2 h3, imcWord_eq]


theorem conj {q0 q1 q2 q3 : Nat} (hq0 : q0 < 2 ^ 32) (hq1 : q1 < 2 ^ 32)
    (hq2 : q2 < 2 ^ 32) (hq3 : q3 < 2 ^ 32) (st : State) :
    decRound (imcWord q0) (imcWord q1) (imcWord q2) (imcWord q3)
      (subShift (encRound q0 q1 q2 q3 st)) = subShift st := by
  obtain ⟨w0, w1, w2, w3⟩ := st
  rw [encRound_eq, decRound_subShift]
  rw [imixw_encword hq0 (seb_lt _) (seb_lt _) (seb_lt _) (seb_lt _),
    imixw_encword hq1 (seb_lt _) (seb_lt _) (seb_lt _) (seb_lt _),
    imixw_encword hq2 (seb_lt _) (seb_lt _) (seb_lt _) (seb_lt _),
    imixw_encword hq3 (seb_lt _) (seb_lt _) (seb_lt _) (seb_lt _)]
  rw [xor_left_cancel, xor_left_cancel, xor_left_cancel, xor_left_cancel]
  rfl


end AES

end Botan

namespace Botan

namespace AES

theorem flatQ_cons (Q : State) (L : List State) :
    flatQ (Q :: L) = Q.1 :: Q.2.1 :: Q.2.2.1 :: Q.2.2.2 :: flatQ L := rfl


theorem flatQ_length (L : List State) : (flatQ L).length = 4 * L.length := by
  induction L with
  | nil => rfl
  | cons Q L ih => rw [flatQ_cons]; simp only [List.length_cons, ih]; omega


theorem encRounds_cons (Q : State) (L : List State) (st : State) :
    encRounds (Q :: L) st = encRounds L (encRound Q.1 Q.2.1 Q.2.2.1 Q.2.2.2 st) := rfl


theorem decRounds_cons (Q : State) (L : List State) (st : State) :
    decRounds (Q :: L) st = decRounds L (decRound Q.1 Q.2.1 Q.2.2.1 Q.2.2.2 st) := rfl


theorem decRounds_append (A B : List State) (st : State) :
    decRounds (A ++ B) st = decRounds B (decRounds A st) := by
  unfold decRounds
  rw [List.foldl_append]


theorem encLoop_flat : ∀ (n : Nat) (L : List State) (st : State), L.length = 2 * n →
    encLoop (flatQ L) st = encRounds L st := by
  intro n
  induction n with
  | zero =>
    intro L st h
    have hL : L = [] := List.eq_nil_of_length_eq_zero (by omega)
    subst hL
    rfl
  | succ n ih =>
    intro L st h
    rcases L with _ | ⟨a, _ | ⟨b, L⟩⟩
    · simp at h
    · simp at h; omega
    · have hL : L.length = 2 * n := by
        simp only [List.length_cons] at h; omega
      rw [flatQ_cons, flatQ_cons, encLoop, ih L _ hL]
      rfl


theorem decLoop_flat : ∀ (n : Nat) (L : List State) (st : State), L.length = 2 * n →
    decLoop (flatQ L) st = decRounds L st := by
  intro n
  induction n with
  | zero =>
    intro L st h
    have hL : L = [] := List.eq_nil_of_length_eq_zero (by omega)
    subst hL
    rfl
  | succ n ih =>
    intro L st h
    rcases L with _ | ⟨a, _ | ⟨b, L⟩⟩
    · simp at h
    · simp at h; omega
    · have hL : L.length = 2 * n := by
        simp only [List.length_cons] at h; omega
      rw [flatQ_cons, flatQ_cons, decLoop, ih L _ hL]
      rfl


theorem cancel : ∀ (Ks : List State) (st : State),
    (∀ Q ∈ Ks, Q.1 < 2 ^ 32 ∧ Q.2.1 < 2 ^ 32 ∧ Q.2.2.1 < 2 ^ 32 ∧ Q.2.2.2 < 2 ^ 32) →
    decRounds (List.reverse (List.map imcW4 Ks)) (subShift (encRounds Ks st)) =
      subShift st := by
  intro Ks
  induction Ks with
  | nil => intro st _; rfl
  | cons Q Ks ih =>
    intro st h
    have hQ := h Q (List.mem_cons_self Q Ks)
    have hrest : ∀ Q' ∈ Ks, Q'.1 < 2 ^ 32 ∧ Q'.2.1 < 2 ^ 32 ∧ Q'.2.2.1 < 2 ^ 32 ∧
        Q'.2.2.2 < 2 ^ 32 := fun Q' hm => h Q' (List.mem_cons_of_mem _ hm)
    rw [List.map_cons, List.reverse_cons, decRounds_append,
      encRounds_cons, ih _ hrest]
    show decRound (imcWord Q.1) (imcWord Q.2.1) (imcWord Q.2.2.1) (imcWord Q.2.2.2)
      (subShift (encRound Q.1 Q.2.1 Q.2.2.1 Q.2.2.2 st)) = subShift st
    exact conj hQ.1 hQ.2.1 hQ.2.2.1 hQ.2.2.2 st


theorem bit_permute_step_lt (x m s : Nat) : bit_permute_step x m s < 2 ^ 32 :=
  Nat.mod_lt _ (by norm_num)


theorem SE_word_lt (x : Nat) : SE_word x < 2 ^ 32 := by
  unfold SE_word
  exact bit_permute_step_lt _ _ _


theorem rotl8_lt (w : Nat) : rotl8 w < 2 ^ 32 :=
  Nat.mod_lt _ (by norm_num)


theorem RC_lt (j : Nat) : RC.getD j 0 < 2 ^ 32 := by
  by_cases h : j < 10
  · exact (by decide : ∀ j < 10, RC.getD j 0 < 2 ^ 32) j h
  · rw [List.getD_eq_default _ _ (by simp [RC]; omega)]
    norm_num


theorem xek_lt (key : List Nat) (hk : ∀ b ∈ key, b < 256) (X : Nat) :
    ∀ (n i : Nat), (xekFill key X n).getD i 0 < 2 ^ 32 := by
  intro n
  induction n with
  | zero => intro i; show (0 : Nat) < 2 ^ 32; norm_num
  | succ n ih =>
    intro i
    show (xekFill key X n ++ [xekEntry key X (xekFill key X n) n]).getD i 0 < 2 ^ 32
    rcases Nat.lt_trichotomy i n with hi | hi | hi
    · rw [List.getD_eq_getElem?_getD, List.getElem?_append_left (by rw [xekFill_length]; omega),
        ← List.getD_eq_getElem?_getD]
      exact ih i
    · subst hi
      rw [List.getD_eq_getElem?_getD, List.getElem?_append_right (by rw [xekFill_length])]
      rw [xekFill_length]
      simp only [Nat.sub_self, List.getElem?_cons_zero, Option.getD_some]
      unfold xekEntry
      have hb : ∀ j, key.getD j 0 < 256 := fun j => by
        by_cases hj : j < key.length
        · exact getD_lt_of_forall hk (by norm_num) j
        · rw [List.getD_eq_default _ _ (by omega)]; norm_num
      split
      · exact make_uint32_lt (hb _) (hb _) (hb _) (hb _)
      · split
        · exact xor_lt_32 (xor_lt_32 (ih _) (RC_lt _)) (rotl8_lt _)
        · split
          · exact xor_lt_32 (ih _) (SE_word_lt _)
          · exact xor_lt_32 (ih _) (ih _)
    · rw [List.getD_eq_default]
      · norm_num
      · simp only [List.length_append, xekFill_length, List.length_cons, List.length_nil]
        omega


end AES

end Botan

namespace Botan

theorem list_ext_getD {l1 l2 : List Nat} (hlen : l1.length = l2.length)
    (h : ∀ i, i < l1.length → l1.getD i 0 = l2.getD i 0) : l1 = l2 := by
  apply List.ext_getElem hlen
  intro i h1 h2
  have := h i h1
  rwa [List.getD_eq_getElem?_getD, List.getD_eq_getElem?_getD,
    List.getElem?_eq_getElem h1, List.getElem?_eq_getElem h2] at this


theorem take_getD (l : List Nat) (n i : Nat) (h : i < n) :
    (l.take n).getD i 0 = l.getD i 0 := by
  rw [List.getD_eq_getElem?_getD, List.getD_eq_getElem?_getD, List.getElem?_take, if_pos h]


theorem drop_getD (l : List Nat) (n i : Nat) :
    (l.drop n).getD i 0 = l.getD (n + i) 0 := by
  rw [List.getD_eq_getElem?_getD, List.getD_eq_getElem?_getD, List.getElem?_drop]


theorem range_map_getD (f : Nat → Nat) (n i : Nat) (h : i < n) :
    ((List.range n).map f).getD i 0 = f i := by
  rw [List.getD_eq_getElem?_getD, List.getElem?_map,
    List.getElem?_range h]
  rfl


namespace AES

theorem quadsOf_length (l : List Nat) (a n : Nat) : (quadsOf l a n).length = n := by
  simp [quadsOf]


theorem quadsOf_getD (l : List Nat) (a n g : Nat) (h : g < n) :
    (quadsOf l a n).getD g (0, 0, 0, 0) = quadAt l (a + g) := by
  unfold quadsOf
  rw [List.getD_eq_getElem?_getD, List.getElem?_map, List.getElem?_range h]
  rfl


theorem getElem_eq_getD {A : Type} (d : A) (l : List A) (i : Nat) (h : i < l.length) :
    l[i] = l.getD i d := by
  rw [List.getD_eq_getElem?_getD, List.getElem?_eq_getElem h]
  rfl


theorem quadsOf_cons (l : List Nat) (a n : Nat) :
    quadsOf l a (n + 1) = quadAt l a :: quadsOf l (a + 1) n := by
  apply List.ext_getElem (by simp [quadsOf_length])
  intro g h1 h2
  rw [getElem_eq_getD (0, 0, 0, 0) _ _ h1,
    quadsOf_getD l a (n + 1) g (by rwa [quadsOf_length] at h1)]
  rcases g with _ | j
  · rw [List.getElem_cons_zero]
    rfl
  · rw [List.getElem_cons_succ,
      getElem_eq_getD (0, 0, 0, 0) _ _ (by simp only [List.length_cons] at h2; omega),
      quadsOf_getD l (a + 1) n j
        (by simp only [List.length_cons, quadsOf_length] at h2; omega),
      show a + (j + 1) = a + 1 + j from by omega]


theorem quadsOf_concat (l : List Nat) (a n : Nat) :
    quadsOf l a (n + 1) = quadsOf l a n ++ [quadAt l (a + n)] := by
  unfold quadsOf
  rw [List.range_succ, List.map_append, List.map_cons, List.map_nil]


theorem getD_reverse {A : Type} (d : A) (l : List A) (j : Nat) (h : j < l.length) :
    l.reverse.getD j d = l.getD (l.length - 1 - j) d := by
  have h1 : j < l.reverse.length := by rwa [List.length_reverse]
  rw [← getElem_eq_getD d l.reverse j h1, List.getElem_reverse]
  exact getElem_eq_getD d l _ _


theorem getD_map_state (f : State → State) (l : List State) (j : Nat)
    (h : j < l.length) :
    (l.map f).getD j (0, 0, 0, 0) = f (l.getD j (0, 0, 0, 0)) := by
  rw [← getElem_eq_getD (0, 0, 0, 0) _ j (by rwa [List.length_map]), List.getElem_map,
    getElem_eq_getD (0, 0, 0, 0) l j h]


theorem revmap_getD (l : List Nat) (a n j : Nat) (h : j < n) :
    (List.reverse (List.map imcW4 (quadsOf l a n))).getD j (0, 0, 0, 0) =
      imcW4 (quadAt l (a + (n - 1 - j))) := by
  rw [getD_reverse _ _ _ (by rw [List.length_map, quadsOf_length]; omega),
    List.length_map, quadsOf_length,
    getD_map_state _ _ _ (by rw [quadsOf_length]; omega),
    quadsOf_getD l a n _ (by omega)]


theorem flatQ_getD (L : List State) : ∀ i, i < 4 * L.length →
    (flatQ L).getD i 0 =
      (if i % 4 = 0 then (L.getD (i / 4) (0, 0, 0, 0)).1
       else if i % 4 = 1 then (L.getD (i / 4) (0, 0, 0, 0)).2.1
       else if i % 4 = 2 then (L.getD (i / 4) (0, 0, 0, 0)).2.2.1
       else (L.getD (i / 4) (0, 0, 0, 0)).2.2.2) := by
  induction L with
  | nil => intro i h; simp at h
  | cons Q L ih =>
    intro i h
    rw [flatQ_cons]
    by_cases h4 : i < 4
    · interval_cases i <;> rfl
    · obtain ⟨j, rfl⟩ : ∃ j, i = j + 4 := ⟨i - 4, by omega⟩
      rw [show (Q.1 :: Q.2.1 :: Q.2.2.1 :: Q.2.2.2 :: flatQ L).getD (j + 4) 0 =
        (flatQ L).getD j 0 from rfl]
      rw [ih j (by simp only [List.length_cons] at h; omega)]
      rw [show (j + 4) % 4 = j % 4 from by omega, show (j + 4) / 4 = j / 4 + 1 from by omega]
      rw [show (Q :: L).getD (j / 4 + 1) (0, 0, 0, 0) = L.getD (j / 4) (0, 0, 0, 0) from rfl]


end AES

end Botan

namespace Botan

namespace AES

theorem EK_eq (key : List Nat) (len : Nat) :
    (aes_key_schedule key len).EK =
      (xekFill key (len / 4) (4 * (len / 4 + 6 + 1))).take (len + 24) := by
  simp only [aes_key_schedule]


theorem DK_eq (key : List Nat) (len : Nat) :
    (aes_key_schedule key len).DK =
      (List.range (len + 24)).map (fun i =>
        if i < 4 then
          (xekFill key (len / 4) (4 * (len / 4 + 6 + 1))).getD
            (4 * (len / 4 + 6) - 4 * (i / 4) + i % 4) 0
        else imcWord ((xekFill key (len / 4) (4 * (len / 4 + 6 + 1))).getD
            (4 * (len / 4 + 6) - 4 * (i / 4) + i % 4) 0)) := by
  simp only [aes_key_schedule]


theorem ME_eq (key : List Nat) (len : Nat) :
    (aes_key_schedule key len).ME =
      [get_byte 0 ((xekFill key (len / 4) (4 * (len / 4 + 6 + 1))).getD
          (0 + 4 * (len / 4 + 6)) 0),
       get_byte 1 ((xekFill key (len / 4) (4 * (len / 4 + 6 + 1))).getD
          (0 + 4 * (len / 4 + 6)) 0),
       get_byte 2 ((xekFill key (len / 4) (4 * (len / 4 + 6 + 1))).getD
          (0 + 4 * (len / 4 + 6)) 0),
       get_byte 3 ((xekFill key (len / 4) (4 * (len / 4 + 6 + 1))).getD
          (0 + 4 * (len / 4 + 6)) 0),
       get_byte 0 ((xekFill key (len / 4) (4 * (len / 4 + 6 + 1))).getD
          (1 + 4 * (len / 4 + 6)) 0),
       get_byte 1 ((xekFill key (len / 4) (4 * (len / 4 + 6 + 1))).getD
          (1 + 4 * (len / 4 + 6)) 0),
       get_byte 2 ((xekFill key (len / 4) (4 * (len / 4 + 6 + 1))).getD
          (1 + 4 * (len / 4 + 6)) 0),
       get_byte 3 ((xekFill key (len / 4) (4 * (len / 4 + 6 + 1))).getD
          (1 + 4 * (len / 4 + 6)) 0),
       get_byte 0 ((xekFill key (len / 4) (4 * (len / 4 + 6 + 1))).getD
          (2 + 4 * (len / 4 + 6)) 0),
       get_byte 1 ((xekFill key (len / 4) (4 * (len / 4 + 6 + 1))).getD
          (2 + 4 * (len / 4 + 6)) 0),
       get_byte 2 ((xekFill key (len / 4) (4 * (len / 4 + 6 + 1))).getD
          (2 + 4 * (len / 4 + 6)) 0),
       get_byte 3 ((xekFill key (len / 4) (4 * (len / 4 + 6 + 1))).getD
          (2 + 4 * (len / 4 + 6)) 0),
       get_byte 0 ((xekFill key (len / 4) (4 * (len / 4 + 6 + 1))).getD
          (3 + 4 * (len / 4 + 6)) 0),
       get_byte 1 ((xekFill key (len / 4) (4 * (len / 4 + 6 + 1))).getD
          (3 + 4 * (len / 4 + 6)) 0),
       get_byte 2 ((xekFill key (len / 4) (4 * (len / 4 + 6 + 1))).getD
          (3 + 4 * (len / 4 + 6)) 0),
       get_byte 3 ((xekFill key (len / 4) (4 * (len / 4 + 6 + 1))).getD
          (3 + 4 * (len / 4 + 6)) 0)] := by
  simp only [aes_key_schedule]
  rfl


theorem MD_eq (key : List Nat) (len : Nat) :
    (aes_key_schedule key len).MD =
      [get_byte 0 ((xekFill key (len / 4) (4 * (len / 4 + 6 + 1))).getD 0 0),
       get_byte 1 ((xekFill key (len / 4) (4 * (len / 4 + 6 + 1))).getD 0 0),
       get_byte 2 ((xekFill key (len / 4) (4 * (len / 4 + 6 + 1))).getD 0 0),
       get_byte 3 ((xekFill key (len / 4) (4 * (len / 4 + 6 + 1))).getD 0 0),
       get_byte 0 ((xekFill key (len / 4) (4 * (len / 4 + 6 + 1))).getD 1 0),
       get_byte 1 ((xekFill key (len / 4) (4 * (len / 4 + 6 + 1))).getD 1 0),
       get_byte 2 ((xekFill key (len / 4) (4 * (len / 4 + 6 + 1))).getD 1 0),
       get_byte 3 ((xekFill key (len / 4) (4 * (len / 4 + 6 + 1))).getD 1 0),
       get_byte 0 ((xekFill key (len / 4) (4 * (len / 4 + 6 + 1))).getD 2 0),
       get_byte 1 ((xekFill key (len / 4) (4 * (len / 4 + 6 + 1))).getD 2 0),
       get_byte 2 ((xekFill key (len / 4) (4 * (len / 4 + 6 + 1))).getD 2 0),
       get_byte 3 ((xekFill key (len / 4) (4 * (len / 4 + 6 + 1))).getD 2 0),
       get_byte 0 ((xekFill key (len / 4) (4 * (len / 4 + 6 + 1))).getD 3 0),
       get_byte 1 ((xekFill key (len / 4) (4 * (len / 4 + 6 + 1))).getD 3 0),
       get_byte 2 ((xekFill key (len / 4) (4 * (len / 4 + 6 + 1))).getD 3 0),
       get_byte 3 ((xekFill key (len / 4) (4 * (len / 4 + 6 + 1))).getD 3 0)] := by
  simp only [aes_key_schedule]
  rfl


end AES

end Botan

namespace Botan

namespace AES

theorem EK_getD (key : List Nat) (len i : Nat) (h : i < len + 24) :
    (aes_key_schedule key len).EK.getD i 0 =
      (xekFill key (len / 4) (4 * (len / 4 + 6 + 1))).getD i 0 := by
  rw [EK_eq]
  exact take_getD _ _ _ h


theorem EK_drop8 (key : List Nat) (len : Nat)
    (hlen : len = 16 ∨ len = 24 ∨ len = 32) :
    (aes_key_schedule key len).EK.drop 8 =
      flatQ (quadsOf (xekFill key (len / 4) (4 * (len / 4 + 6 + 1))) 2 (len / 4 + 4)) := by
  rw [EK_eq]
  have hxl := xekFill_length key (len / 4) (4 * (len / 4 + 6 + 1))
  generalize (xekFill key (len / 4) (4 * (len / 4 + 6 + 1))) = XL at hxl ⊢
  apply list_ext_getD
  · rw [List.length_drop, List.length_take, flatQ_length, quadsOf_length, hxl]
    rcases hlen with h | h | h <;> omega
  · intro i hi
    have hi' : i < 4 * (len / 4 + 4) := by
      rw [List.length_drop, List.length_take, hxl] at hi
      rcases hlen with h | h | h <;> omega
    rw [drop_getD, take_getD _ _ _ (by rcases hlen with h | h | h <;> omega)]
    rw [flatQ_getD _ i (by rw [quadsOf_length]; omega)]
    have h4 : i % 4 = 0 ∨ i % 4 = 1 ∨ i % 4 = 2 ∨ i % 4 = 3 := by omega
    rcases h4 with hr | hr | hr | hr <;>
      rw [quadsOf_getD _ _ _ _ (by omega)] <;>
      simp only [hr, quadAt] <;>
      norm_num <;>
      rw [show 8 + i = 4 * (2 + i / 4) + i % 4 from by omega, hr]
    · rw [Nat.add_zero]


theorem DK_getD03 (key : List Nat) (len i : Nat) (h : i < 4) :
    (aes_key_schedule key len).DK.getD i 0 =
      (xekFill key (len / 4) (4 * (len / 4 + 6 + 1))).getD (4 * (len / 4 + 6) + i) 0 := by
  rw [DK_eq]
  generalize (xekFill key (len / 4) (4 * (len / 4 + 6 + 1))) = XL
  rw [range_map_getD _ _ _ (by omega), if_pos h,
    show 4 * (len / 4 + 6) - 4 * (i / 4) + i % 4 = 4 * (len / 4 + 6) + i from by omega]


theorem DK_getD47 (key : List Nat) (len i : Nat) (h4 : 4 ≤ i) (h8 : i < 8) :
    (aes_key_schedule key len).DK.getD i 0 =
      imcWord ((xekFill key (len / 4) (4 * (len / 4 + 6 + 1))).getD
        (4 * (len / 4 + 5) + (i - 4)) 0) := by
  rw [DK_eq]
  generalize (xekFill key (len / 4) (4 * (len / 4 + 6 + 1))) = XL
  rw [range_map_getD _ _ _ (by omega), if_neg (by omega),
    show 4 * (len / 4 + 6) - 4 * (i / 4) + i % 4 = 4 * (len / 4 + 5) + (i - 4) from by omega]


theorem DK_drop8 (key : List Nat) (len : Nat)
    (hlen : len = 16 ∨ len = 24 ∨ len = 32) :
    (aes_key_schedule key len).DK.drop 8 =
      flatQ (List.reverse (List.map imcW4
        (quadsOf (xekFill key (len / 4) (4 * (len / 4 + 6 + 1))) 1 (len / 4 + 4)))) := by
  rw [DK_eq]
  generalize (xekFill key (len / 4) (4 * (len / 4 + 6 + 1))) = XL
  apply list_ext_getD
  · rw [List.length_drop, List.length_map, List.length_range, flatQ_length,
      List.length_reverse, List.length_map, quadsOf_length]
    rcases hlen with h | h | h <;> omega
  · intro i hi
    have hi' : i < 4 * (len / 4 + 4) := by
      rw [List.length_drop, List.length_map, List.length_range] at hi
      rcases hlen with h | h | h <;> omega
    rw [drop_getD, range_map_getD _ _ _ (by rcases hlen with h | h | h <;> omega),
      if_neg (by omega)]
    rw [flatQ_getD _ i (by rw [List.length_reverse, List.length_map, quadsOf_length]; omega)]
    rw [revmap_getD _ _ _ _ (by omega)]
    have h4 : i % 4 = 0 ∨ i % 4 = 1 ∨ i % 4 = 2 ∨ i % 4 = 3 := by omega
    rcases h4 with hr | hr | hr | hr <;>
      simp only [hr, imcW4, quadAt] <;>
      norm_num <;>
      congr 3 <;>
      omega


end AES

end Botan

namespace Botan

theorem xor_cancel_right (a b : Nat) : a ^^^ b ^^^ b = a := by
  rw [Nat.xor_assoc, Nat.xor_self, Nat.xor_zero]


namespace AES

theorem encFinalByte_eq {x : Nat} (hx : x < 256) (m : Nat) :
    encFinalByte x m = seb x ^^^ m := by
  unfold encFinalByte
  rw [TE_getD hx]
  show get_byte 2 (make_uint32 (xtime (SE.getD x 0)) (SE.getD x 0) (SE.getD x 0)
    (xtime3 (SE.getD x 0))) ^^^ m = seb x ^^^ m
  rw [get_byte_mk2 (xtime_lt (se_lt x)) (se_lt x) (se_lt x) (xtime3_lt (se_lt x))]
  rfl


theorem aes_encrypt_block_eq (EK ME : List Nat) (Z : Nat) (inb : List Nat)
    (F0 F1 F2 F3 : Nat)
    (hF : encLoop (EK.drop 8)
      (encRound (EK.getD 4 0) (EK.getD 5 0) (EK.getD 6 0) (EK.getD 7 0)
        (load_be32 inb 0 ^^^ EK.getD 0 0 ^^^ Z, load_be32 inb 1 ^^^ EK.getD 1 0,
         load_be32 inb 2 ^^^ EK.getD 2 0, load_be32 inb 3 ^^^ EK.getD 3 0)) =
      (F0, F1, F2, F3)) :
    aes_encrypt_block EK ME Z inb =
      [encFinalByte (get_byte 0 F0) (ME.getD 0 0),
       encFinalByte (get_byte 1 F1) (ME.getD 1 0),
       encFinalByte (get_byte 2 F2) (ME.getD 2 0),
       encFinalByte (get_byte 3 F3) (ME.getD 3 0),
       encFinalByte (get_byte 0 F1) (ME.getD 4 0),
       encFinalByte (get_byte 1 F2) (ME.getD 5 0),
       encFinalByte (get_byte 2 F3) (ME.getD 6 0),
       encFinalByte (get_byte 3 F0) (ME.getD 7 0),
       encFinalByte (get_byte 0 F2) (ME.getD 8 0),
       encFinalByte (get_byte 1 F3) (ME.getD 9 0),
       encFinalByte (get_byte 2 F0) (ME.getD 10 0),
       encFinalByte (get_byte 3 F1) (ME.getD 11 0),
       encFinalByte (get_byte 0 F3) (ME.getD 12 0),
       encFinalByte (get_byte 1 F0) (ME.getD 13 0),
       encFinalByte (get_byte 2 F1) (ME.getD 14 0),
       encFinalByte (get_byte 3 F2) (ME.getD 15 0)] := by
  simp only [aes_encrypt_block]
  rw [hF]


theorem aes_decrypt_block_eq (DK MD : List Nat) (Z : Nat) (inb : List Nat)
    (G0 G1 G2 G3 : Nat)
    (hG : decLoop (DK.drop 8)
      (decRound (DK.getD 4 0) (DK.getD 5 0) (DK.getD 6 0) (DK.getD 7 0)
        (load_be32 inb 0 ^^^ DK.getD 0 0 ^^^ Z, load_be32 inb 1 ^^^ DK.getD 1 0,
         load_be32 inb 2 ^^^ DK.getD 2 0, load_be32 inb 3 ^^^ DK.getD 3 0)) =
      (G0, G1, G2, G3)) :
    aes_decrypt_block DK MD Z inb =
      [sdb (get_byte 0 G0) ^^^ MD.getD 0 0,
       sdb (get_byte 1 G3) ^^^ MD.getD 1 0,
       sdb (get_byte 2 G2) ^^^ MD.getD 2 0,
       sdb (get_byte 3 G1) ^^^ MD.getD 3 0,
       sdb (get_byte 0 G1) ^^^ MD.getD 4 0,
       sdb (get_byte 1 G0) ^^^ MD.getD 5 0,
       sdb (get_byte 2 G3) ^^^ MD.getD 6 0,
       sdb (get_byte 3 G2) ^^^ MD.getD 7 0,
       sdb (get_byte 0 G2) ^^^ MD.getD 8 0,
       sdb (get_byte 1 G1) ^^^ MD.getD 9 0,
       sdb (get_byte 2 G0) ^^^ MD.getD 10 0,
       sdb (get_byte 3 G3) ^^^ MD.getD 11 0,
       sdb (get_byte 0 G3) ^^^ MD.getD 12 0,
       sdb (get_byte 1 G2) ^^^ MD.getD 13 0,
       sdb (get_byte 2 G1) ^^^ MD.getD 14 0,
       sdb (get_byte 3 G0) ^^^ MD.getD 15 0] := by
  simp only [aes_decrypt_block]
  rw [hG]
  rfl


end AES

theorem list16_ext (l : List Nat) (h : l.length = 16) :
    [l.getD 0 0, l.getD 1 0, l.getD 2 0, l.getD 3 0, l.getD 4 0, l.getD 5 0,
     l.getD 6 0, l.getD 7 0, l.getD 8 0, l.getD 9 0, l.getD 10 0, l.getD 11 0,
     l.getD 12 0, l.getD 13 0, l.getD 14 0, l.getD 15 0] = l := by
  apply List.ext_getElem (by simp [h])
  intro i h1 h2
  have hi : i < 16 := by simpa using h1
  interval_cases i <;>
    simp [List.getD_eq_getElem?_getD, List.getElem?_eq_getElem h2]


end Botan

namespace Botan

namespace AES

theorem encRounds_append (A B : List State) (st : State) :
    encRounds (A ++ B) st = encRounds B (encRounds A st) := by
  unfold encRounds
  rw [List.foldl_append]


theorem dec_input_words (F0 F1 F2 F3 k0 k1 k2 k3 : Nat) (h0 : k0 < 2 ^ 32)
    (h1 : k1 < 2 ^ 32) (h2 : k2 < 2 ^ 32) (h3 : k3 < 2 ^ 32) :
    (load_be32 [seb (get_byte 0 F0) ^^^ get_byte 0 k0, seb (get_byte 1 F1) ^^^ get_byte 1 k0,
        seb (get_byte 2 F2) ^^^ get_byte 2 k0, seb (get_byte 3 F3) ^^^ get_byte 3 k0,
        seb (get_byte 0 F1) ^^^ get_byte 0 k1, seb (get_byte 1 F2) ^^^ get_byte 1 k1,
        seb (get_byte 2 F3) ^^^ get_byte 2 k1, seb (get_byte 3 F0) ^^^ get_byte 3 k1,
        seb (get_byte 0 F2) ^^^ get_byte 0 k2, seb (get_byte 1 F3) ^^^ get_byte 1 k2,
        seb (get_byte 2 F0) ^^^ get_byte 2 k2, seb (get_byte 3 F1) ^^^ get_byte 3 k2,
        seb (get_byte 0 F3) ^^^ get_byte 0 k3, seb (get_byte 1 F0) ^^^ get_byte 1 k3,
        seb (get_byte 2 F1) ^^^ get_byte 2 k3, seb (get_byte 3 F2) ^^^ get_byte 3 k3] 0 ^^^ k0,
     load_be32 [seb (get_byte 0 F0) ^^^ get_byte 0 k0, seb (get_byte 1 F1) ^^^ get_byte 1 k0,
        seb (get_byte 2 F2) ^^^ get_byte 2 k0, seb (get_byte 3 F3) ^^^ get_byte 3 k0,
        seb (get_byte 0 F1) ^^^ get_byte 0 k1, seb (get_byte 1 F2) ^^^ get_byte 1 k1,
        seb (get_byte 2 F3) ^^^ get_byte 2 k1, seb (get_byte 3 F0) ^^^ get_byte 3 k1,
        seb (get_byte 0 F2) ^^^ get_byte 0 k2, seb (get_byte 1 F3) ^^^ get_byte 1 k2,
        seb (get_byte 2 F0) ^^^ get_byte 2 k2, seb (get_byte 3 F1) ^^^ get_byte 3 k2,
        seb (get_byte 0 F3) ^^^ get_byte 0 k3, seb (get_byte 1 F0) ^^^ get_byte 1 k3,
        seb (get_byte 2 F1) ^^^ get_byte 2 k3, seb (get_byte 3 F2) ^^^ get_byte 3 k3] 1 ^^^ k1,
     load_be32 [seb (get_byte 0 F0) ^^^ get_byte 0 k0, seb (get_byte 1 F1) ^^^ get_byte 1 k0,
        seb (get_byte 2 F2) ^^^ get_byte 2 k0, seb (get_byte 3 F3) ^^^ get_byte 3 k0,
        seb (get_byte 0 F1) ^^^ get_byte 0 k1, seb (get_byte 1 F2) ^^^ get_byte 1 k1,
        seb (get_byte 2 F3) ^^^ get_byte 2 k1, seb (get_byte 3 F0) ^^^ get_byte 3 k1,
        seb (get_byte 0 F2) ^^^ get_byte 0 k2, seb (get_byte 1 F3) ^^^ get_byte 1 k2,
        seb (get_byte 2 F0) ^^^ get_byte 2 k2, seb (get_byte 3 F1) ^^^ get_byte 3 k2,
        seb (get_byte 0 F3) ^^^ get_byte 0 k3, seb (get_byte 1 F0) ^^^ get_byte 1 k3,
        seb (get_byte 2 F1) ^^^ get_byte 2 k3, seb (get_byte 3 F2) ^^^ get_byte 3 k3] 2 ^^^ k2,
     load_be32 [seb (get_byte 0 F0) ^^^ get_byte 0 k0, seb (get_byte 1 F1) ^^^ get_byte 1 k0,
        seb (get_byte 2 F2) ^^^ get_byte 2 k0, seb (get_byte 3 F3) ^^^ get_byte 3 k0,
        seb (get_byte 0 F1) ^^^ get_byte 0 k1, seb (get_byte 1 F2) ^^^ get_byte 1 k1,
        seb (get_byte 2 F3) ^^^ get_byte 2 k1, seb (get_byte 3 F0) ^^^ get_byte 3 k1,
        seb (get_byte 0 F2) ^^^ get_byte 0 k2, seb (get_byte 1 F3) ^^^ get_byte 1 k2,
        seb (get_byte 2 F0) ^^^ get_byte 2 k2, seb (get_byte 3 F1) ^^^ get_byte 3 k2,
        seb (get_byte 0 F3) ^^^ get_byte 0 k3, seb (get_byte 1 F0) ^^^ get_byte 1 k3,
        seb (get_byte 2 F1) ^^^ get_byte 2 k3, seb (get_byte 3 F2) ^^^ get_byte 3 k3] 3 ^^^ k3) =
    subShift (F0, F1, F2, F3) := by
  rw [subShift_tuple]
  rw [show load_be32 [seb (get_byte 0 F0) ^^^ get_byte 0 k0, seb (get_byte 1 F1) ^^^ get_byte 1 k0,
        seb (get_byte 2 F2) ^^^ get_byte 2 k0, seb (get_byte 3 F3) ^^^ get_byte 3 k0,
        seb (get_byte 0 F1) ^^^ get_byte 0 k1, seb (get_byte 1 F2) ^^^ get_byte 1 k1,
        seb (get_byte 2 F3) ^^^ get_byte 2 k1, seb (get_byte 3 F0) ^^^ get_byte 3 k1,
        seb (get_byte 0 F2) ^^^ get_byte 0 k2, seb (get_byte 1 F3) ^^^ get_byte 1 k2,
        seb (get_byte 2 F0) ^^^ get_byte 2 k2, seb (get_byte 3 F1) ^^^ get_byte 3 k2,
        seb (get_byte 0 F3) ^^^ get_byte 0 k3, seb (get_byte 1 F0) ^^^ get_byte 1 k3,
        seb (get_byte 2 F1) ^^^ get_byte 2 k3, seb (get_byte 3 F2) ^^^ get_byte 3 k3] 0 =
      make_uint32 (seb (get_byte 0 F0) ^^^ get_byte 0 k0) (seb (get_byte 1 F1) ^^^ get_byte 1 k0)
        (seb (get_byte 2 F2) ^^^ get_byte 2 k0) (seb (get_byte 3 F3) ^^^ get_byte 3 k0) from rfl]
  rw [show load_be32 [seb (get_byte 0 F0) ^^^ get_byte 0 k0, seb (get_byte 1 F1) ^^^ get_byte 1 k0,
        seb (get_byte 2 F2) ^^^ get_byte 2 k0, seb (get_byte 3 F3) ^^^ get_byte 3 k0,
        seb (get_byte 0 F1) ^^^ get_byte 0 k1, seb (get_byte 1 F2) ^^^ get_byte 1 k1,
        seb (get_byte 2 F3) ^^^ get_byte 2 k1, seb (get_byte 3 F0) ^^^ get_byte 3 k1,
        seb (get_byte 0 F2) ^^^ get_byte 0 k2, seb (get_byte 1 F3) ^^^ get_byte 1 k2,
        seb (get_byte 2 F0) ^^^ get_byte 2 k2, seb (get_byte 3 F1) ^^^ get_byte 3 k2,
        seb (get_byte 0 F3) ^^^ get_byte 0 k3, seb (get_byte 1 F0) ^^^ get_byte 1 k3,
        seb (get_byte 2 F1) ^^^ get_byte 2 k3, seb (get_byte 3 F2) ^^^ get_byte 3 k3] 1 =
      make_uint32 (seb (get_byte 0 F1) ^^^ get_byte 0 k1) (seb (get_byte 1 F2) ^^^ get_byte 1 k1)
        (seb (get_byte 2 F3) ^^^ get_byte 2 k1) (seb (get_byte 3 F0) ^^^ get_byte 3 k1) from rfl]
  rw [show load_be32 [seb (get_byte 0 F0) ^^^ get_byte 0 k0, seb (get_byte 1 F1) ^^^ get_byte 1 k0,
        seb (get_byte 2 F2) ^^^ get_byte 2 k0, seb (get_byte 3 F3) ^^^ get_byte 3 k0,
        seb (get_byte 0 F1) ^^^ get_byte 0 k1, seb (get_byte 1 F2) ^^^ get_byte 1 k1,
        seb (get_byte 2 F3) ^^^ get_byte 2 k1, seb (get_byte 3 F0) ^^^ get_byte 3 k1,
        seb (get_byte 0 F2) ^^^ get_byte 0 k2, seb (get_byte 1 F3) ^^^ get_byte 1 k2,
        seb (get_byte 2 F0) ^^^ get_byte 2 k2, seb (get_byte 3 F1) ^^^ get_byte 3 k2,
        seb (get_byte 0 F3) ^^^ get_byte 0 k3, seb (get_byte 1 F0) ^^^ get_byte 1 k3,
        seb (get_byte 2 F1) ^^^ get_byte 2 k3, seb (get_byte 3 F2) ^^^ get_byte 3 k3] 2 =
      make_uint32 (seb (get_byte 0 F2) ^^^ get_byte 0 k2) (seb (get_byte 1 F3) ^^^ get_byte 1 k2)
        (seb (get_byte 2 F0) ^^^ get_byte 2 k2) (seb (get_byte 3 F1) ^^^ get_byte 3 k2) from rfl]
  rw [show load_be32 [seb (get_byte 0 F0) ^^^ get_byte 0 k0, seb (get_byte 1 F1) ^^^ get_byte 1 k0,
        seb (get_byte 2 F2) ^^^ get_byte 2 k0, seb (get_byte 3 F3) ^^^ get_byte 3 k0,
        seb (get_byte 0 F1) ^^^ get_byte 0 k1, seb (get_byte 1 F2) ^^^ get_byte 1 k1,
        seb (get_byte 2 F3) ^^^ get_byte 2 k1, seb (get_byte 3 F0) ^^^ get_byte 3 k1,
        seb (get_byte 0 F2) ^^^ get_byte 0 k2, seb (get_byte 1 F3) ^^^ get_byte 1 k2,
        seb (get_byte 2 F0) ^^^ get_byte 2 k2, seb (get_byte 3 F1) ^^^ get_byte 3 k2,
        seb (get_byte 0 F3) ^^^ get_byte 0 k3, seb (get_byte 1 F0) ^^^ get_byte 1 k3,
        seb (get_byte 2 F1) ^^^ get_byte 2 k3, seb (get_byte 3 F2) ^^^ get_byte 3 k3] 3 =
      make_uint32 (seb (get_byte 0 F3) ^^^ get_byte 0 k3) (seb (get_byte 1 F0) ^^^ get_byte 1 k3)
        (seb (get_byte 2 F1) ^^^ get_byte 2 k3) (seb (get_byte 3 F2) ^^^ get_byte 3 k3) from rfl]
  rw [← make_uint32_xor (seb_lt _) (seb_lt _) (seb_lt _) (seb_lt _)
    (get_byte_lt 0 k0) (get_byte_lt 1 k0) (get_byte_lt 2 k0) (get_byte_lt 3 k0)]
  rw [← make_uint32_xor (seb_lt _) (seb_lt _) (seb_lt _) (seb_lt _)
    (get_byte_lt 0 k1) (get_byte_lt 1 k1) (get_byte_lt 2 k1) (get_byte_lt 3 k1)]
  rw [← make_uint32_xor (seb_lt _) (seb_lt _) (seb_lt _) (seb_lt _)
    (get_byte_lt 0 k2) (get_byte_lt 1 k2) (get_byte_lt 2 k2) (get_byte_lt 3 k2)]
  rw [← make_uint32_xor (seb_lt _) (seb_lt _) (seb_lt _) (seb_lt _)
    (get_byte_lt 0 k3) (get_byte_lt 1 k3) (get_byte_lt 2 k3) (get_byte_lt 3 k3)]
  rw [mk_get_byte h0, mk_get_byte h1, mk_get_byte h2, mk_get_byte h3]
  rw [xor_cancel_right, xor_cancel_right, xor_cancel_right, xor_cancel_right]


end AES

end Botan

namespace Botan

namespace AES

theorem decRounds_cons4 (q0 q1 q2 q3 : Nat) (L : List State) (st : State) :
    decRounds ((q0, q1, q2, q3) :: L) st = decRounds L (decRound q0 q1 q2 q3 st) := rfl


theorem encRounds_cons4 (q0 q1 q2 q3 : Nat) (L : List State) (st : State) :
    encRounds ((q0, q1, q2, q3) :: L) st = encRounds L (encRound q0 q1 q2 q3 st) := rfl


theorem state_eta (p : State) : ∃ a b c d : Nat, p = (a, b, c, d) :=
  ⟨p.1, p.2.1, p.2.2.1, p.2.2.2, rfl⟩


theorem roundtrip_block (key block : List Nat) (len : Nat)
    (hlen : len = 16 ∨ len = 24 ∨ len = 32)
    (hk : ∀ b ∈ key, b < 256) (hbl : block.length = 16)
    (hbb : ∀ b ∈ block, b < 256) :
    aes_decrypt_block (aes_key_schedule key len).DK (aes_key_schedule key len).MD 0
      (aes_encrypt_block (aes_key_schedule key len).EK (aes_key_schedule key len).ME 0
        block) = block := by
  have hxw : ∀ i : Nat, (xekFill key (len / 4) (4 * (len / 4 + 6 + 1))).getD i 0 < 2 ^ 32 :=
    xek_lt key hk (len / 4) (4 * (len / 4 + 6 + 1))
  have hbk : ∀ j : Nat, block.getD j 0 < 256 := by
    intro j
    by_cases hj : j < block.length
    · exact getD_lt_of_forall hbb (by norm_num) j
    · rw [List.getD_eq_default _ _ (by omega)]
      norm_num
  obtain ⟨F0, F1, F2, F3, hF⟩ :
      ∃ F0 F1 F2 F3, encLoop ((aes_key_schedule key len).EK.drop 8)
        (encRound ((aes_key_schedule key len).EK.getD 4 0)
          ((aes_key_schedule key len).EK.getD 5 0)
          ((aes_key_schedule key len).EK.getD 6 0)
          ((aes_key_schedule key len).EK.getD 7 0)
          (load_be32 block 0 ^^^ (aes_key_schedule key len).EK.getD 0 0 ^^^ 0,
           load_be32 block 1 ^^^ (aes_key_schedule key len).EK.getD 1 0,
           load_be32 block 2 ^^^ (aes_key_schedule key len).EK.getD 2 0,
           load_be32 block 3 ^^^ (aes_key_schedule key len).EK.getD 3 0)) =
        (F0, F1, F2, F3) :=
    state_eta _
  rw [aes_encrypt_block_eq _ _ _ _ F0 F1 F2 F3 hF]
  -- rewrite the encryption chain into `encRounds` over key quadruples
  rw [EK_drop8 key len hlen,
    EK_getD key len 4 (by rcases hlen with h | h | h <;> omega),
    EK_getD key len 5 (by rcases hlen with h | h | h <;> omega),
    EK_getD key len 6 (by rcases hlen with h | h | h <;> omega),
    EK_getD key len 7 (by rcases hlen with h | h | h <;> omega),
    EK_getD key len 0 (by rcases hlen with h | h | h <;> omega),
    EK_getD key len 1 (by rcases hlen with h | h | h <;> omega),
    EK_getD key len 2 (by rcases hlen with h | h | h <;> omega),
    EK_getD key len 3 (by rcases hlen with h | h | h <;> omega),
    Nat.xor_zero,
    encLoop_flat ((len / 4 + 4) / 2) _ _
      (by rw [quadsOf_length]; rcases hlen with h | h | h <;> omega)] at hF
  have hq : quadsOf (xekFill key (len / 4) (4 * (len / 4 + 6 + 1))) 1 (len / 4 + 5) =
      ((xekFill key (len / 4) (4 * (len / 4 + 6 + 1))).getD 4 0,
       (xekFill key (len / 4) (4 * (len / 4 + 6 + 1))).getD 5 0,
       (xekFill key (len / 4) (4 * (len / 4 + 6 + 1))).getD 6 0,
       (xekFill key (len / 4) (4 * (len / 4 + 6 + 1))).getD 7 0) ::
      quadsOf (xekFill key (len / 4) (4 * (len / 4 + 6 + 1))) 2 (len / 4 + 4) := by
    conv_lhs => rw [show len / 4 + 5 = len / 4 + 4 + 1 from by omega]
    rw [quadsOf_cons]
    norm_num [quadAt]
  have hF2 : encRounds
      (quadsOf (xekFill key (len / 4) (4 * (len / 4 + 6 + 1))) 1 (len / 4 + 5))
      (load_be32 block 0 ^^^ (xekFill key (len / 4) (4 * (len / 4 + 6 + 1))).getD 0 0,
       load_be32 block 1 ^^^ (xekFill key (len / 4) (4 * (len / 4 + 6 + 1))).getD 1 0,
       load_be32 block 2 ^^^ (xekFill key (len / 4) (4 * (len / 4 + 6 + 1))).getD 2 0,
       load_be32 block 3 ^^^ (xekFill key (len / 4) (4 * (len / 4 + 6 + 1))).getD 3 0) =
      (F0, F1, F2, F3) := by
    rw [hq, encRounds_cons4]
    exact hF
  -- bounds for the round-key quadruples
  have hQb : ∀ Q ∈ quadsOf (xekFill key (len / 4) (4 * (len / 4 + 6 + 1))) 1 (len / 4 + 5),
      Q.1 < 2 ^ 32 ∧ Q.2.1 < 2 ^ 32 ∧ Q.2.2.1 < 2 ^ 32 ∧ Q.2.2.2 < 2 ^ 32 := by
    intro Q hQ
    unfold quadsOf at hQ
    obtain ⟨g, _, rfl⟩ := List.mem_map.mp hQ
    simp only [quadAt]
    exact ⟨hxw _, hxw _, hxw _, hxw _⟩
  -- telescoping cancellation
  have hcancel := cancel
    (quadsOf (xekFill key (len / 4) (4 * (len / 4 + 6 + 1))) 1 (len / 4 + 5))
    (load_be32 block 0 ^^^ (xekFill key (len / 4) (4 * (len / 4 + 6 + 1))).getD 0 0,
     load_be32 block 1 ^^^ (xekFill key (len / 4) (4 * (len / 4 + 6 + 1))).getD 1 0,
     load_be32 block 2 ^^^ (xekFill key (len / 4) (4 * (len / 4 + 6 + 1))).getD 2 0,
     load_be32 block 3 ^^^ (xekFill key (len / 4) (4 * (len / 4 + 6 + 1))).getD 3 0) hQb
  rw [hF2] at hcancel
  have hsplit : List.reverse (List.map imcW4
      (quadsOf (xekFill key (len / 4) (4 * (len / 4 + 6 + 1))) 1 (len / 4 + 5))) =
      (imcWord ((xekFill key (len / 4) (4 * (len / 4 + 6 + 1))).getD (4 * (len / 4 + 5)) 0),
       imcWord ((xekFill key (len / 4) (4 * (len / 4 + 6 + 1))).getD (4 * (len / 4 + 5) + 1) 0),
       imcWord ((xekFill key (len / 4) (4 * (len / 4 + 6 + 1))).getD (4 * (len / 4 + 5) + 2) 0),
       imcWord ((xekFill key (len / 4) (4 * (len / 4 + 6 + 1))).getD (4 * (len / 4 + 5) + 3) 0)) ::
      List.reverse (List.map imcW4
        (quadsOf (xekFill key (len / 4) (4 * (len / 4 + 6 + 1))) 1 (len / 4 + 4))) := by
    conv_lhs => rw [show len / 4 + 5 = len / 4 + 4 + 1 from by omega]
    rw [quadsOf_concat, List.map_append, List.reverse_append]
    rw [show (1 : Nat) + (len / 4 + 4) = len / 4 + 5 from by omega]
    simp only [List.map_cons, List.map_nil, List.reverse_cons, List.reverse_nil,
      List.nil_append, List.singleton_append, imcW4, quadAt]
  rw [hsplit, decRounds_cons4] at hcancel
  rw [← decLoop_flat ((len / 4 + 4) / 2) _ _
    (by rw [List.length_reverse, List.length_map, quadsOf_length]
        rcases hlen with h | h | h <;> omega)] at hcancel
  rw [← DK_drop8 key len hlen] at hcancel
  -- identify the four explicit decryption round keys with DK[4..7]
  have hdk4 : (aes_key_schedule key len).DK.getD 4 0 =
      imcWord ((xekFill key (len / 4) (4 * (len / 4 + 6 + 1))).getD (4 * (len / 4 + 5)) 0) := by
    rw [DK_getD47 key len 4 (by omega) (by omega)]
    norm_num
  have hdk5 : (aes_key_schedule key len).DK.getD 5 0 =
      imcWord ((xekFill key (len / 4) (4 * (len / 4 + 6 + 1))).getD (4 * (len / 4 + 5) + 1) 0) := by
    rw [DK_getD47 key len 5 (by omega) (by omega)]
  have hdk6 : (aes_key_schedule key len).DK.getD 6 0 =
      imcWord ((xekFill key (len / 4) (4 * (len / 4 + 6 + 1))).getD (4 * (len / 4 + 5) + 2) 0) := by
    rw [DK_getD47 key len 6 (by omega) (by omega)]
  have hdk7 : (aes_key_schedule key len).DK.getD 7 0 =
      imcWord ((xekFill key (len / 4) (4 * (len / 4 + 6 + 1))).getD (4 * (len / 4 + 5) + 3) 0) := by
    rw [DK_getD47 key len 7 (by omega) (by omega)]
  rw [← hdk4, ← hdk5, ← hdk6, ← hdk7] at hcancel
  -- rewrite the goal entries: final-round bytes and ME bytes
  rw [ME_eq key len]
  simp only [encFinalByte_eq (get_byte_lt _ _)]
  simp only [List.getD_cons_zero, List.getD_cons_succ]
  -- characterize the decryption pass on the ciphertext
  have hG : decLoop ((aes_key_schedule key len).DK.drop 8)
      (decRound ((aes_key_schedule key len).DK.getD 4 0)
        ((aes_key_schedule key len).DK.getD 5 0)
        ((aes_key_schedule key len).DK.getD 6 0)
        ((aes_key_schedule key len).DK.getD 7 0)
        (load_be32 [seb (get_byte 0 F0) ^^^ get_byte 0 ((xekFill key (len / 4) (4 * (len / 4 + 6 + 1))).getD (0 + 4 * (len / 4 + 6)) 0),
         seb (get_byte 1 F1) ^^^ get_byte 1 ((xekFill key (len / 4) (4 * (len / 4 + 6 + 1))).getD (0 + 4 * (len / 4 + 6)) 0),
         seb (get_byte 2 F2) ^^^ get_byte 2 ((xekFill key (len / 4) (4 * (len / 4 + 6 + 1))).getD (0 + 4 * (len / 4 + 6)) 0),
         seb (get_byte 3 F3) ^^^ get_byte 3 ((xekFill key (len / 4) (4 * (len / 4 + 6 + 1))).getD (0 + 4 * (len / 4 + 6)) 0),
         seb (get_byte 0 F1) ^^^ get_byte 0 ((xekFill key (len / 4) (4 * (len / 4 + 6 + 1))).getD (1 + 4 * (len / 4 + 6)) 0),
         seb (get_byte 1 F2) ^^^ get_byte 1 ((xekFill key (len / 4) (4 * (len / 4 + 6 + 1))).getD (1 + 4 * (len / 4 + 6)) 0),
         seb (get_byte 2 F3) ^^^ get_byte 2 ((xekFill key (len / 4) (4 * (len / 4 + 6 + 1))).getD (1 + 4 * (len / 4 + 6)) 0),
         seb (get_byte 3 F0) ^^^ get_byte 3 ((xekFill key (len / 4) (4 * (len / 4 + 6 + 1))).getD (1 + 4 * (len / 4 + 6)) 0),
         seb (get_byte 0 F2) ^^^ get_byte 0 ((xekFill key (len / 4) (4 * (len / 4 + 6 + 1))).getD (2 + 4 * (len / 4 + 6)) 0),
         seb (get_byte 1 F3) ^^^ get_byte 1 ((xekFill key (len / 4) (4 * (len / 4 + 6 + 1))).getD (2 + 4 * (len / 4 + 6)) 0),
         seb (get_byte 2 F0) ^^^ get_byte 2 ((xekFill key (len / 4) (4 * (len / 4 + 6 + 1))).getD (2 + 4 * (len / 4 + 6)) 0),
         seb (get_byte 3 F1) ^^^ get_byte 3 ((xekFill key (len / 4) (4 * (len / 4 + 6 + 1))).getD (2 + 4 * (len / 4 + 6)) 0),
         seb (get_byte 0 F3) ^^^ get_byte 0 ((xekFill key (len / 4) (4 * (len / 4 + 6 + 1))).getD (3 + 4 * (len / 4 + 6)) 0),
         seb (get_byte 1 F0) ^^^ get_byte 1 ((xekFill key (len / 4) (4 * (len / 4 + 6 + 1))).getD (3 + 4 * (len / 4 + 6)) 0),
         seb (get_byte 2 F1) ^^^ get_byte 2 ((xekFill key (len / 4) (4 * (len / 4 + 6 + 1))).getD (3 + 4 * (len / 4 + 6)) 0),
         seb (get_byte 3 F2) ^^^ get_byte 3 ((xekFill key (len / 4) (4 * (len / 4 + 6 + 1))).getD (3 + 4 * (len / 4 + 6)) 0)] 0 ^^^ (aes_key_schedule key len).DK.getD 0 0 ^^^ 0,
         load_be32 [seb (get_byte 0 F0) ^^^ get_byte 0 ((xekFill key (len / 4) (4 * (len / 4 + 6 + 1))).getD (0 + 4 * (len / 4 + 6)) 0),
         seb (get_byte 1 F1) ^^^ get_byte 1 ((xekFill key (len / 4) (4 * (len / 4 + 6 + 1))).getD (0 + 4 * (len / 4 + 6)) 0),
         seb (get_byte 2 F2) ^^^ get_byte 2 ((xekFill key (len / 4) (4 * (len / 4 + 6 + 1))).getD (0 + 4 * (len / 4 + 6)) 0),
         seb (get_byte 3 F3) ^^^ get_byte 3 ((xekFill key (len / 4) (4 * (len / 4 + 6 + 1))).getD (0 + 4 * (len / 4 + 6)) 0),
         seb (get_byte 0 F1) ^^^ get_byte 0 ((xekFill key (len / 4) (4 * (len / 4 + 6 + 1))).getD (1 + 4 * (len / 4 + 6)) 0),
         seb (get_byte 1 F2) ^^^ get_byte 1 ((xekFill key (len / 4) (4 * (len / 4 + 6 + 1))).getD (1 + 4 * (len / 4 + 6)) 0),
         seb (get_byte 2 F3) ^^^ get_byte 2 ((xekFill key (len / 4) (4 * (len / 4 + 6 + 1))).getD (1 + 4 * (len / 4 + 6)) 0),
         seb (get_byte 3 F0) ^^^ get_byte 3 ((xekFill key (len / 4) (4 * (len / 4 + 6 + 1))).getD (1 + 4 * (len / 4 + 6)) 0),
         seb (get_byte 0 F2) ^^^ get_byte 0 ((xekFill key (len / 4) (4 * (len / 4 + 6 + 1))).getD (2 + 4 * (len / 4 + 6)) 0),
         seb (get_byte 1 F3) ^^^ get_byte 1 ((xekFill key (len / 4) (4 * (len / 4 + 6 + 1))).getD (2 + 4 * (len / 4 + 6)) 0),
         seb (get_byte 2 F0) ^^^ get_byte 2 ((xekFill key (len / 4) (4 * (len / 4 + 6 + 1))).getD (2 + 4 * (len / 4 + 6)) 0),
         seb (get_byte 3 F1) ^^^ get_byte 3 ((xekFill key (len / 4) (4 * (len / 4 + 6 + 1))).getD (2 + 4 * (len / 4 + 6)) 0),
         seb (get_byte 0 F3) ^^^ get_byte 0 ((xekFill key (len / 4) (4 * (len / 4 + 6 + 1))).getD (3 + 4 * (len / 4 + 6)) 0),
         seb (get_byte 1 F0) ^^^ get_byte 1 ((xekFill key (len / 4) (4 * (len / 4 + 6 + 1))).getD (3 + 4 * (len / 4 + 6)) 0),
         seb (get_byte 2 F1) ^^^ get_byte 2 ((xekFill key (len / 4) (4 * (len / 4 + 6 + 1))).getD (3 + 4 * (len / 4 + 6)) 0),
         seb (get_byte 3 F2) ^^^ get_byte 3 ((xekFill key (len / 4) (4 * (len / 4 + 6 + 1))).getD (3 + 4 * (len / 4 + 6)) 0)] 1 ^^^ (aes_key_schedule key len).DK.getD 1 0,
         load_be32 [seb (get_byte 0 F0) ^^^ get_byte 0 ((xekFill key (len / 4) (4 * (len / 4 + 6 + 1))).getD (0 + 4 * (len / 4 + 6)) 0),
         seb (get_byte 1 F1) ^^^ get_byte 1 ((xekFill key (len / 4) (4 * (len / 4 + 6 + 1))).getD (0 + 4 * (len / 4 + 6)) 0),
         seb (get_byte 2 F2) ^^^ get_byte 2 ((xekFill key (len / 4) (4 * (len / 4 + 6 + 1))).getD (0 + 4 * (len / 4 + 6)) 0),
         seb (get_byte 3 F3) ^^^ get_byte 3 ((xekFill key (len / 4) (4 * (len / 4 + 6 + 1))).getD (0 + 4 * (len / 4 + 6)) 0),
         seb (get_byte 0 F1) ^^^ get_byte 0 ((xekFill key (len / 4) (4 * (len / 4 + 6 + 1))).getD (1 + 4 * (len / 4 + 6)) 0),
         seb (get_byte 1 F2) ^^^ get_byte 1 ((xekFill key (len / 4) (4 * (len / 4 + 6 + 1))).getD (1 + 4 * (len / 4 + 6)) 0),
         seb (get_byte 2 F3) ^^^ get_byte 2 ((xekFill key (len / 4) (4 * (len / 4 + 6 + 1))).getD (1 + 4 * (len / 4 + 6)) 0),
         seb (get_byte 3 F0) ^^^ get_byte 3 ((xekFill key (len / 4) (4 * (len / 4 + 6 + 1))).getD (1 + 4 * (len / 4 + 6)) 0),
         seb (get_byte 0 F2) ^^^ get_byte 0 ((xekFill key (len / 4) (4 * (len / 4 + 6 + 1))).getD (2 + 4 * (len / 4 + 6)) 0),
         seb (get_byte 1 F3) ^^^ get_byte 1 ((xekFill key (len / 4) (4 * (len / 4 + 6 + 1))).getD (2 + 4 * (len / 4 + 6)) 0),
         seb (get_byte 2 F0) ^^^ get_byte 2 ((xekFill key (len / 4) (4 * (len / 4 + 6 + 1))).getD (2 + 4 * (len / 4 + 6)) 0),
         seb (get_byte 3 F1) ^^^ get_byte 3 ((xekFill key (len / 4) (4 * (len / 4 + 6 + 1))).getD (2 + 4 * (len / 4 + 6)) 0),
         seb (get_byte 0 F3) ^^^ get_byte 0 ((xekFill key (len / 4) (4 * (len / 4 + 6 + 1))).getD (3 + 4 * (len / 4 + 6)) 0),
         seb (get_byte 1 F0) ^^^ get_byte 1 ((xekFill key (len / 4) (4 * (len / 4 + 6 + 1))).getD (3 + 4 * (len / 4 + 6)) 0),
         seb (get_byte 2 F1) ^^^ get_byte 2 ((xekFill key (len / 4) (4 * (len / 4 + 6 + 1))).getD (3 + 4 * (len / 4 + 6)) 0),
         seb (get_byte 3 F2) ^^^ get_byte 3 ((xekFill key (len / 4) (4 * (len / 4 + 6 + 1))).getD (3 + 4 * (len / 4 + 6)) 0)] 2 ^^^ (aes_key_schedule key len).DK.getD 2 0,
         load_be32 [seb (get_byte 0 F0) ^^^ get_byte 0 ((xekFill key (len / 4) (4 * (len / 4 + 6 + 1))).getD (0 + 4 * (len / 4 + 6)) 0),
         seb (get_byte 1 F1) ^^^ get_byte 1 ((xekFill key (len / 4) (4 * (len / 4 + 6 + 1))).getD (0 + 4 * (len / 4 + 6)) 0),
         seb (get_byte 2 F2) ^^^ get_byte 2 ((xekFill key (len / 4) (4 * (len / 4 + 6 + 1))).getD (0 + 4 * (len / 4 + 6)) 0),
         seb (get_byte 3 F3) ^^^ get_byte 3 ((xekFill key (len / 4) (4 * (len / 4 + 6 + 1))).getD (0 + 4 * (len / 4 + 6)) 0),
         seb (get_byte 0 F1) ^^^ get_byte 0 ((xekFill key (len / 4) (4 * (len / 4 + 6 + 1))).getD (1 + 4 * (len / 4 + 6)) 0),
         seb (get_byte 1 F2) ^^^ get_byte 1 ((xekFill key (len / 4) (4 * (len / 4 + 6 + 1))).getD (1 + 4 * (len / 4 + 6)) 0),
         seb (get_byte 2 F3) ^^^ get_byte 2 ((xekFill key (len / 4) (4 * (len / 4 + 6 + 1))).getD (1 + 4 * (len / 4 + 6)) 0),
         seb (get_byte 3 F0) ^^^ get_byte 3 ((xekFill key (len / 4) (4 * (len / 4 + 6 + 1))).getD (1 + 4 * (len / 4 + 6)) 0),
         seb (get_byte 0 F2) ^^^ get_byte 0 ((xekFill key (len / 4) (4 * (len / 4 + 6 + 1))).getD (2 + 4 * (len / 4 + 6)) 0),
         seb (get_byte 1 F3) ^^^ get_byte 1 ((xekFill key (len / 4) (4 * (len / 4 + 6 + 1))).getD (2 + 4 * (len / 4 + 6)) 0),
         seb (get_byte 2 F0) ^^^ get_byte 2 ((xekFill key (len / 4) (4 * (len / 4 + 6 + 1))).getD (2 + 4 * (len / 4 + 6)) 0),
         seb (get_byte 3 F1) ^^^ get_byte 3 ((xekFill key (len / 4) (4 * (len / 4 + 6 + 1))).getD (2 + 4 * (len / 4 + 6)) 0),
         seb (get_byte 0 F3) ^^^ get_byte 0 ((xekFill key (len / 4) (4 * (len / 4 + 6 + 1))).getD (3 + 4 * (len / 4 + 6)) 0),
         seb (get_byte 1 F0) ^^^ get_byte 1 ((xekFill key (len / 4) (4 * (len / 4 + 6 + 1))).getD (3 + 4 * (len / 4 + 6)) 0),
         seb (get_byte 2 F1) ^^^ get_byte 2 ((xekFill key (len / 4) (4 * (len / 4 + 6 + 1))).getD (3 + 4 * (len / 4 + 6)) 0),
         seb (get_byte 3 F2) ^^^ get_byte 3 ((xekFill key (len / 4) (4 * (len / 4 + 6 + 1))).getD (3 + 4 * (len / 4 + 6)) 0)] 3 ^^^ (aes_key_schedule key len).DK.getD 3 0)) =
      subShift (load_be32 block 0 ^^^ (xekFill key (len / 4) (4 * (len / 4 + 6 + 1))).getD 0 0,
       load_be32 block 1 ^^^ (xekFill key (len / 4) (4 * (len / 4 + 6 + 1))).getD 1 0,
       load_be32 block 2 ^^^ (xekFill key (len / 4) (4 * (len / 4 + 6 + 1))).getD 2 0,
       load_be32 block 3 ^^^ (xekFill key (len / 4) (4 * (len / 4 + 6 + 1))).getD 3 0) := by
    rw [Nat.xor_zero,
      DK_getD03 key len 0 (by omega), DK_getD03 key len 1 (by omega),
      DK_getD03 key len 2 (by omega), DK_getD03 key len 3 (by omega),
      show (4 * (len / 4 + 6) + 0 : Nat) = 0 + 4 * (len / 4 + 6) from by omega,
      show (4 * (len / 4 + 6) + 1 : Nat) = 1 + 4 * (len / 4 + 6) from by omega,
      show (4 * (len / 4 + 6) + 2 : Nat) = 2 + 4 * (len / 4 + 6) from by omega,
      show (4 * (len / 4 + 6) + 3 : Nat) = 3 + 4 * (len / 4 + 6) from by omega]
    rw [dec_input_words F0 F1 F2 F3
      ((xekFill key (len / 4) (4 * (len / 4 + 6 + 1))).getD (0 + 4 * (len / 4 + 6)) 0)
      ((xekFill key (len / 4) (4 * (len / 4 + 6 + 1))).getD (1 + 4 * (len / 4 + 6)) 0)
      ((xekFill key (len / 4) (4 * (len / 4 + 6 + 1))).getD (2 + 4 * (len / 4 + 6)) 0)
      ((xekFill key (len / 4) (4 * (len / 4 + 6 + 1))).getD (3 + 4 * (len / 4 + 6)) 0)
      (hxw _) (hxw _) (hxw _) (hxw _)]
    exact hcancel
  rw [subShift_tuple] at hG
  rw [aes_decrypt_block_eq _ _ _ _ _ _ _ _ hG]
  -- final inverse round: inverse S-box and MD bytes recover the plaintext
  rw [MD_eq key len]
  simp only [List.getD_cons_zero, List.getD_cons_succ]
  simp only [get_byte_mk0 (seb_lt _) (seb_lt _) (seb_lt _) (seb_lt _),
    get_byte_mk1 (seb_lt _) (seb_lt _) (seb_lt _) (seb_lt _),
    get_byte_mk2 (seb_lt _) (seb_lt _) (seb_lt _) (seb_lt _),
    get_byte_mk3 (seb_lt _) (seb_lt _) (seb_lt _) (seb_lt _),
    sdb_seb (get_byte_lt _ _)]
  simp only [get_byte_xor]
  simp only [xor_cancel_right]
  rw [show load_be32 block 0 = make_uint32 (block.getD 0 0) (block.getD 1 0)
      (block.getD 2 0) (block.getD 3 0) from rfl,
    show load_be32 block 1 = make_uint32 (block.getD 4 0) (block.getD 5 0)
      (block.getD 6 0) (block.getD 7 0) from rfl,
    show load_be32 block 2 = make_uint32 (block.getD 8 0) (block.getD 9 0)
      (block.getD 10 0) (block.getD 11 0) from rfl,
    show load_be32 block 3 = make_uint32 (block.getD 12 0) (block.getD 13 0)
      (block.getD 14 0) (block.getD 15 0) from rfl]
  simp only [get_byte_mk0 (hbk _) (hbk _) (hbk _) (hbk _),
    get_byte_mk1 (hbk _) (hbk _) (hbk _) (hbk _),
    get_byte_mk2 (hbk _) (hbk _) (hbk _) (hbk _),
    get_byte_mk3 (hbk _) (hbk _) (hbk _) (hbk _)]
  exact list16_ext block hbl


end AES

end Botan

namespace Botan

/-- C2: for every AES key of 16, 24 or 32 bytes and every sequence of
16-byte blocks, running the base T-table decryption `aes_decrypt_n` on the
output of the base T-table encryption `aes_encrypt_n`, both under the
`(EK, DK, ME, MD)` schedule computed from the key by `aes_key_schedule`,
returns the original blocks, for any cache line sizes. -/
theorem claim_C2_aes_roundtrip (key : List Nat) (len : Nat)
    (blocks : List (List Nat)) (cls cls2 : Nat)
    (hlen : len = 16 ∨ len = 24 ∨ len = 32)
    (hk : ∀ b ∈ key, b < 256)
    (hbl : ∀ blk ∈ blocks, blk.length = 16 ∧ ∀ b ∈ blk, b < 256) :
    AES.aes_decrypt_n
      (AES.aes_encrypt_n blocks (AES.aes_key_schedule key len).EK
        (AES.aes_key_schedule key len).ME cls)
      (AES.aes_key_schedule key len).DK (AES.aes_key_schedule key len).MD cls2 =
      blocks := by
  have hTE : AES.AES_TE.getD 82 0 = 0 := by decide
  have hTD : AES.AES_TD.getD 99 0 = 0 := by decide
  simp only [AES.aes_encrypt_n]
  rw [hTE]
  simp only [Nat.and_zero, AES.aes_decrypt_n]
  rw [hTD]
  simp only [Nat.and_zero, List.map_map]
  have hrt : ∀ blk ∈ blocks,
      (AES.aes_decrypt_block (AES.aes_key_schedule key len).DK
          (AES.aes_key_schedule key len).MD 0 ∘
        AES.aes_encrypt_block (AES.aes_key_schedule key len).EK
          (AES.aes_key_schedule key len).ME 0) blk = id blk := by
    intro blk hb
    exact AES.roundtrip_block key blk len hlen hk (hbl blk hb).1 (hbl blk hb).2
  rw [List.map_congr_left hrt, List.map_id]


/-- C2 witness: the round trip at a concrete 16-byte key and one concrete
block, with the hypotheses discharged by computation. -/
theorem claim_C2_witness :
    ((16 : Nat) = 16 ∨ (16 : Nat) = 24 ∨ (16 : Nat) = 32) ∧
    (∀ b ∈ [0x2B, 0x7E, 0x15, 0x16, 0x28, 0xAE, 0xD2, 0xA6,
            0xAB, 0xF7, 0x15, 0x88, 0x09, 0xCF, 0x4F, 0x3C], b < 256) ∧
    (∀ blk ∈ [[0x32, 0x43, 0xF6, 0xA8, 0x88, 0x5A, 0x30, 0x8D,
               0x31, 0x31, 0x98, 0xA2, 0xE0, 0x37, 0x07, 0x34]],
      blk.length = 16 ∧ ∀ b ∈ blk, b < 256) ∧
    AES.aes_decrypt_n
      (AES.aes_encrypt_n
        [[0x32, 0x43, 0xF6, 0xA8, 0x88, 0x5A, 0x30, 0x8D,
          0x31, 0x31, 0x98, 0xA2, 0xE0, 0x37, 0x07, 0x34]]
        (AES.aes_key_schedule [0x2B, 0x7E, 0x15, 0x16, 0x28, 0xAE, 0xD2, 0xA6,
          0xAB, 0xF7, 0x15, 0x88, 0x09, 0xCF, 0x4F, 0x3C] 16).EK
        (AES.aes_key_schedule [0x2B, 0x7E, 0x15, 0x16, 0x28, 0xAE, 0xD2, 0xA6,
          0xAB, 0xF7, 0x15, 0x88, 0x09, 0xCF, 0x4F, 0x3C] 16).ME 64)
      (AES.aes_key_schedule [0x2B, 0x7E, 0x15, 0x16, 0x28, 0xAE, 0xD2, 0xA6,
        0xAB, 0xF7, 0x15, 0x88, 0x09, 0xCF, 0x4F, 0x3C] 16).DK
      (AES.aes_key_schedule [0x2B, 0x7E, 0x15, 0x16, 0x28, 0xAE, 0xD2, 0xA6,
        0xAB, 0xF7, 0x15, 0x88, 0x09, 0xCF, 0x4F, 0x3C] 16).MD 64 =
      [[0x32, 0x43, 0xF6, 0xA8, 0x88, 0x5A, 0x30, 0x8D,
        0x31, 0x31, 0x98, 0xA2, 0xE0, 0x37, 0x07, 0x34]] :=
  ⟨Or.inl rfl, by decide, by decide,
    claim_C2_aes_roundtrip _ 16 _ 64 64 (Or.inl rfl) (by decide) (by decide)⟩


end Botan
